import Mathlib

/-!
# Verification of the Superast C++ lowering engine (`SuperastCPP.cpp`)

A shallow embedding of the visitor `SuperastCPP`, which walks a type-checked
clang syntax tree and builds a JSON document with rapidjson.

Conventions of the embedding:

* rapidjson values are move-only. `a = b`, `AddMember(k, b, alloc)` and
  `PushBack(b, alloc)` all leave `b` as a `Null` value, and `PushBack(arr[i])`
  leaves the `i`-th element of `arr` as `Null`. The embedding writes these
  resets out explicitly.
* a traversal function returns `true` or `false` and works on the members of
  the visitor (`currentId`, `sonValue`, `iofunctionStarted`); the embedding
  passes the visitor explicitly and returns a `Res`.
* a failed `RAPIDJSON_ASSERT` ends the run; this is the outcome `Res.abort`.
-/

namespace Superast

/-! ## JSON values (rapidjson::Value) -/

/-- A rapidjson value. Objects keep their members in insertion order and may
hold the same key twice, as `AddMember` never checks for duplicates. Numbers
that the engine stores are integers (`id`, `line`, `column`, integer literals)
or doubles, kept here as their IEEE-754 bit pattern. -/
inductive Json where
  | null
  | bool (b : Bool)
  | int (n : Int)
  | double (bits : Nat)
  | str (s : String)
  | arr (elems : List Json)
  | obj (members : List (String × Json))
  deriving Repr, Inhabited

namespace Json

/-- Mirror of `Value::IsArray`. -/
def IsArray : Json → Bool
  | arr _ => true
  | _ => false

/-- Mirror of `Value::IsNull`. -/
def IsNull : Json → Bool
  | null => true
  | _ => false

/-- Mirror of `Value::IsObject`. -/
def IsObject : Json → Bool
  | obj _ => true
  | _ => false

/-- Mirror of `Value::FindMember` followed by a dereference: the value of the
first member with the given key. -/
def findMember (key : String) : List (String × Json) → Option Json
  | [] => none
  | (k, v) :: rest => if k = key then some v else findMember key rest

/-- Mirror of `Value::EraseMember(FindMember(key))`: removes the first member
with the given key and keeps the order of the others; `none` when there is no
such member (the iterator is `MemberEnd()` and the assertion of `EraseMember`
fails). -/
def eraseMember (key : String) : List (String × Json) → Option (List (String × Json))
  | [] => none
  | (k, v) :: rest =>
    if k = key then some rest
    else (eraseMember key rest).map (fun r => (k, v) :: r)

/-- The effect of moving the value of the first member `key` away: that member
stays in the object with a `Null` value. -/
def nullMember (key : String) : List (String × Json) → List (String × Json)
  | [] => []
  | (k, v) :: rest =>
    if k = key then (k, null) :: rest else (k, v) :: nullMember key rest

/-- Field access on a value, `none` unless the value is an object with that key. -/
def field (key : String) : Json → Option Json
  | obj ms => findMember key ms
  | _ => none

/-- Whether an object value has a member with the given key. -/
def hasField (key : String) (j : Json) : Bool :=
  (field key j).isSome

end Json

/-! ## Source positions -/

/-- What the engine reads from the location of a syntax-tree node:
`isInMainFile(getLocStart())`, and the spelling line and column when
`getFullLoc(getLocStart())` is valid. -/
structure Loc where
  inMain : Bool
  pos : Option (Nat × Nat)
  deriving Repr, DecidableEq, Inhabited

/-! ## The visitor state -/

/-- The mutable members of `SuperastCPP`.

`currentId` is the number of ids handed out so far. The C++ member is a 32-bit
`unsigned`, so the value it holds is `currentId % 2 ^ 32`; `addId` is the only
reader and writes exactly that residue. -/
structure Visitor where
  currentId : Nat
  sonValue : Json
  iofunctionStarted : Bool
  deriving Repr, Inhabited

/-- The visitor after the constructor `SuperastCPP::SuperastCPP`. -/
def Visitor.init : Visitor :=
  { currentId := 0, sonValue := Json.null, iofunctionStarted := false }

/-- Outcome of a function of the engine: `ok a v` when it ran to its end
(a traversal function returned `true`), with its result `a` and the visitor it
leaves; the other outcomes carry no result. -/
inductive Res (α : Type) where
  /-- the function returned (a traversal function: returned `true`) -/
  | ok (a : α) (v : Visitor)
  /-- a traversal function returned `false` -/
  | stop (v : Visitor)
  /-- an assertion of the JSON library or of the engine failed -/
  | abort
  /-- a loop of the engine never ends -/
  | hang
  deriving Repr, Inhabited

/-- Sequencing with the behaviour of the macro `TRY_TO(CALL_EXPR)`: go on when
the call returned `true`, return `false` at once when it returned `false`. -/
def TRY_TO {α β : Type} (r : Res α) (k : α → Visitor → Res β) : Res β :=
  match r with
  | Res.ok a v => k a v
  | Res.stop v => Res.stop v
  | Res.abort => Res.abort
  | Res.hang => Res.hang

/-- Width of the C++ type `unsigned`. -/
def UINT_MOD : Nat := 2 ^ 32

/-- Width of the C++ type `std::size_t`. -/
def SIZE_MOD : Nat := 2 ^ 64

/-- The constant `std::string::npos`. -/
def npos : Nat := SIZE_MOD - 1

/-! ## The syntax tree handed over by the front end -/

/-- The opcodes of `clang::UnaryOperator` (the list `UNARYOP_LIST` of the header). -/
inductive UnaryOpcode where
  | PostInc | PostDec | PreInc | PreDec | AddrOf | Deref | Plus | Minus
  | Not | LNot | Real | Imag | Extension
  deriving Repr, DecidableEq, Inhabited

/-- The front-end function `clang::UnaryOperator::getOpcodeStr`: the spelling
of a unary opcode. -/
def UnaryOpcode.getOpcodeStr : UnaryOpcode → String
  | PostInc => "++" | PostDec => "--" | PreInc => "++" | PreDec => "--"
  | AddrOf => "&" | Deref => "*" | Plus => "+" | Minus => "-"
  | Not => "~" | LNot => "!" | Real => "__real" | Imag => "__imag"
  | Extension => "__extension__"

/-- The front-end function `clang::UnaryOperator::isPrefix`: true for the
pre-increment and pre-decrement opcodes only. -/
def UnaryOpcode.isPrefixOp : UnaryOpcode → Bool
  | PreInc => true | PreDec => true | _ => false

/-- The opcodes of `clang::BinaryOperator`: the list `BINOP_LIST` of the header
and the compound assignments of `CAO_LIST`. -/
inductive BinaryOpcode where
  | PtrMemD | PtrMemI | Mul | Div | Rem | Add | Sub | Shl | Shr
  | LT | GT | LE | GE | EQ | NE | And | Xor | Or | LAnd | LOr | Assign | Comma
  | MulAssign | DivAssign | RemAssign | AddAssign | SubAssign
  | ShlAssign | ShrAssign | AndAssign | OrAssign | XorAssign
  deriving Repr, DecidableEq, Inhabited

/-- The front-end function `clang::BinaryOperator::getOpcodeStr`: the spelling
of a binary opcode. -/
def BinaryOpcode.getOpcodeStr : BinaryOpcode → String
  | PtrMemD => ".*" | PtrMemI => "->*" | Mul => "*" | Div => "/" | Rem => "%"
  | Add => "+" | Sub => "-" | Shl => "<<" | Shr => ">>"
  | LT => "<" | GT => ">" | LE => "<=" | GE => ">=" | EQ => "==" | NE => "!="
  | And => "&" | Xor => "^" | Or => "|" | LAnd => "&&" | LOr => "||"
  | Assign => "=" | Comma => ","
  | MulAssign => "*=" | DivAssign => "/=" | RemAssign => "%=" | AddAssign => "+="
  | SubAssign => "-=" | ShlAssign => "<<=" | ShrAssign => ">>=" | AndAssign => "&="
  | OrAssign => "|=" | XorAssign => "^="

/-- What `createTypeValue` reads from a `clang::Type`: the printed canonical
type, the classification predicates, the name of the record for a structure
type and the name of the type class. -/
structure TypeDesc where
  canonical : String
  isBooleanType : Bool
  isIntegerType : Bool
  isFloatingType : Bool
  isVoidType : Bool
  isAnyCharacterType : Bool
  isStructureType : Bool
  recordName : String
  typeClassName : String
  deriving Repr, DecidableEq, Inhabited

/-- What `TraverseVarDecl` reads from the declared type of a variable:
`var->getType().isConstQualified()`, `var->getType()->isReferenceType()`, and
for `qualType = var->getType().getNonLValueExprType(*context)` its const
qualifier and its type. -/
structure VarType where
  declConst : Bool
  isReferenceType : Bool
  nonLValueConst : Bool
  type : TypeDesc
  deriving Repr, DecidableEq, Inhabited

/-- The enumeration `clang::VarDecl::InitializationStyle`. -/
inductive InitializationStyle where
  | CInit | CallInit | ListInit
  deriving Repr, DecidableEq, Inhabited

mutual
/-- A `clang::Stmt*` (expressions are statements in clang). `null` is the null
pointer; `other` stands for every statement class for which the visitor has no
override, whose default traversal visits the children in order. The `callee`
of a call is the name of the called function, or `none` when the callee
declaration is not a `FunctionDecl`. The `objectExpr` of a member call is the
expression `TraverseCXXMemberCallExpr` computes under that name: the implicit
object argument, replaced by its operand when it is an implicit cast. -/
inductive Stmt where
  | null
  | IfStmt (loc : Loc) (conditionVariable : Option Loc) (cond thenS elseS : Stmt)
  | ReturnStmt (loc : Loc) (retValue : Stmt)
  | WhileStmt (loc : Loc) (conditionVariable : Option Loc) (cond body : Stmt)
  | ForStmt (loc : Loc) (init cond inc body : Stmt)
  | DoStmt (loc : Loc) (body cond : Stmt)
  | CompoundStmt (loc : Loc) (body : List Stmt)
  | UnaryOperator (loc : Loc) (opcode : UnaryOpcode) (subExpr : Stmt)
  | BinaryOperator (loc : Loc) (opcode : BinaryOpcode) (lhs rhs : Stmt)
  | CXXOperatorCallExpr (loc : Loc) (callee : Option String) (args : List Stmt)
  | CXXMemberCallExpr (loc : Loc) (methodName : String) (objectExpr : Stmt) (args : List Stmt)
  | MemberExpr (loc : Loc) (base : Stmt) (memberDecl : Decl)
  | DeclRefExpr (loc : Loc) (name typeName : String)
  | IntegerLiteral (loc : Loc) (value : Int)
  | FloatingLiteral (loc : Loc) (bits : Nat)
  | CharacterLiteral (loc : Loc) (value : Nat)
  | StringLiteral (loc : Loc) (value : String)
  | CXXBoolLiteralExpr (loc : Loc) (value : Bool)
  | CallExpr (loc : Loc) (callee : Option String) (args : List Stmt)
  | DeclStmt (loc : Loc) (decls : List Decl)
  | BreakStmt (loc : Loc)
  | LabelStmt (loc : Loc) (subStmt : Stmt)
  | GotoStmt (loc : Loc)
  | ImplicitCastExpr (loc : Loc) (subExpr : Stmt)
  | other (loc : Loc) (children : List Stmt)

/-- A `clang::Decl*`. `other` stands for every declaration class for which the
visitor has no override, whose default traversal visits the child declarations
and then the body. -/
inductive Decl where
  | FunctionDecl (loc : Loc) (name : String) (callResultType : TypeDesc)
      (params : List Decl) (isDefinition : Bool) (body : Stmt)
  | VarDecl (loc : Loc) (isParm : Bool) (name : String) (type : VarType)
      (hasInit : Bool) (init : Stmt) (initStyle : InitializationStyle)
  | FieldDecl (loc : Loc) (name : String) (type : TypeDesc)
  | CXXRecordDecl (loc : Loc) (isImplicit : Bool) (name : String) (decls : List Decl)
  | CXXMethodDecl (loc : Loc)
  | other (loc : Loc) (decls : List Decl) (body : Stmt)
end

instance : Inhabited Stmt := ⟨Stmt.null⟩

/-- Mirror of `getLocStart()` queries on a statement; `none` for the null pointer. -/
def Stmt.loc? : Stmt → Option Loc
  | .null => none
  | .IfStmt l _ _ _ _ | .ReturnStmt l _ | .WhileStmt l _ _ _ | .ForStmt l _ _ _ _
  | .DoStmt l _ _ | .CompoundStmt l _ | .UnaryOperator l _ _ | .BinaryOperator l _ _ _
  | .CXXOperatorCallExpr l _ _ | .CXXMemberCallExpr l _ _ _ | .MemberExpr l _ _
  | .DeclRefExpr l _ _ | .IntegerLiteral l _ | .FloatingLiteral l _
  | .CharacterLiteral l _ | .StringLiteral l _ | .CXXBoolLiteralExpr l _
  | .CallExpr l _ _ | .DeclStmt l _ | .BreakStmt l | .LabelStmt l _ | .GotoStmt l
  | .ImplicitCastExpr l _ | .other l _ => some l

/-- Mirror of `getLocStart()` queries on a declaration. -/
def Decl.loc : Decl → Loc
  | .FunctionDecl l _ _ _ _ _ | .VarDecl l _ _ _ _ _ _ | .FieldDecl l _ _
  | .CXXRecordDecl l _ _ _ | .CXXMethodDecl l | .other l _ _ => l

/-- The top-level declarations of a `clang::TranslationUnitDecl`, in source order. -/
abbrev TranslationUnit := List Decl

/-! ## Configuration constants -/

def UNARY_OP_MAPPING : List (String × String) :=
  [("!", "not"), ("-", "neg"), ("+", "pos")]

def BINARY_OP_MAPPING : List (String × String) :=
  [("||", "or"), ("&&", "and")]

def VECTOR_TYPE_MAPPING : List (String × String) :=
  [("float", "double"), ("char", "string")]

def PRINT_NAME : String := "operator<<"
def READ_NAME : String := "operator>>"
def VECTOR_POS_NAME : String := "operator[]"
def PRINT_FLAG_TYPE : String :=
  "basic_ostream<char, struct std::char_traits" ++
  "<char> > &(basic_ostream<char, struct std::char_traits<char> > &)"
def PRINT_TYPE : String := "ostream"
def READ_TYPE : String := "istream"
def VECTOR_TYPE : String := "class std::vector<"
def STRING_TYPE : String := "class std::basic_string<char>"

/-- The idiom `it = M.find(key); if (it != M.end()) x = it->second` on a
`std::map<std::string, std::string>`: the mapped value, or `dflt`. -/
def mapFind (M : List (String × String)) (key dflt : String) : String :=
  match M.lookup key with
  | some val => val
  | none => dflt

/-! ## `std::string` searches -/

/-- Scan for `pat` at the positions `i`, `i + 1`, ... of a string whose suffix
from position `i` is the second argument. -/
def findAux (pat : List Char) : List Char → Nat → Nat
  | [], i => if pat.isEmpty then i else npos
  | c :: cs, i => if pat.isPrefixOf (c :: cs) then i else findAux pat cs (i + 1)

/-- Mirror of `std::string::find(pat, pos)`: the first position `>= pos` where
`pat` occurs, or `npos`. -/
def strFind (s pat : List Char) (pos : Nat) : Nat :=
  if pos > s.length then npos else findAux pat (s.drop pos) pos

/-- Mirror of `std::string::substr(pos, n)`: `none` when `pos > size()` (the
call throws `std::out_of_range`). -/
def substr (s : List Char) (pos n : Nat) : Option (List Char) :=
  if pos > s.length then none else some ((s.drop pos).take n)

/-- Mirror of `SuperastCPP::isSTLVectorType`. -/
def isSTLVectorType (typeName : String) : Bool :=
  strFind typeName.data VECTOR_TYPE.data 0 != npos

/-! ## Node factory -/

/-- A JSON object under construction: its members in insertion order. -/
abbrev Members := List (String × Json)

/-- The JSON number that `AddMember("id", currentId++, allocator)` stores when
`currentId` ids have been handed out: the value of the 32-bit counter. -/
def idValue (currentId : Nat) : Json :=
  Json.int (Int.ofNat (currentId % UINT_MOD))

/-- Mirror of `SuperastCPP::addId`: the member `id` holds the value of the
32-bit counter, which is then incremented. -/
def addId (object : Members) (v : Visitor) : Members × Visitor :=
  (object ++ [("id", idValue v.currentId)],
   { v with currentId := v.currentId + 1 })

/-- Mirror of `SuperastCPP::addLine`. -/
def addLine (object : Members) (loc : Loc) : Members :=
  object ++ [("line", Json.int (match loc.pos with
    | some (line, _) => Int.ofNat line
    | none => -1))]

/-- Mirror of `SuperastCPP::addCol`. -/
def addCol (object : Members) (loc : Loc) : Members :=
  object ++ [("column", Json.int (match loc.pos with
    | some (_, col) => Int.ofNat col
    | none => -1))]

/-- Mirror of `SuperastCPP::addPos`. -/
def addPos (object : Members) (loc : Loc) : Members :=
  addCol (addLine object loc) loc

/-- Mirror of `SuperastCPP::ensureSonIsArray`. -/
def ensureSonIsArray (v : Visitor) : Visitor :=
  if !v.sonValue.IsArray then
    let arrayValue : List Json := if !v.sonValue.IsNull then [v.sonValue] else []
    { v with sonValue := Json.arr arrayValue }
  else v

/-- Mirror of `SuperastCPP::addElemsToArray`: every element of `elemsValue` is
moved to the end of `parentValue`, which leaves `elemsValue` with as many
`Null` elements. Returns the two arrays. -/
def addElemsToArray (parentValue elemsValue : List Json) : List Json × List Json :=
  (parentValue ++ elemsValue, elemsValue.map (fun _ => Json.null))

/-- Mirror of `SuperastCPP::createBlockValue`. -/
def createBlockValue (arrayValue : Json) (v : Visitor) : Json × Visitor :=
  let (blockValue, v) := addId [] v
  (Json.obj (blockValue ++ [("statements", arrayValue)]), v)

/-- Mirror of `SuperastCPP::createTypeValue(const std::string&)`. -/
def createTypeValueStr (type : String) (v : Visitor) : Json × Visitor :=
  let (typeValue, v) := addId [] v
  (Json.obj (typeValue ++ [("name", Json.str type)]), v)

/-- Mirror of `SuperastCPP::createBinOpValue`. -/
def createBinOpValue (opcode : String) (leftValue rightValue : Json) (v : Visitor) :
    Members × Visitor :=
  let (binOpValue, v) := addId [] v
  (binOpValue ++ [("type", Json.str opcode), ("left", leftValue), ("right", rightValue)], v)

/-- Mirror of `SuperastCPP::createIntegerValue`. -/
def createIntegerValue (value : Int) : Members :=
  [("type", Json.str "int"), ("value", Json.int value)]

/-- Mirror of `SuperastCPP::createFloatingValue`. -/
def createFloatingValue (bits : Nat) : Members :=
  [("type", Json.str "double"), ("value", Json.double bits)]

/-- Mirror of `SuperastCPP::createStringValue`. -/
def createStringValue (value : String) : Members :=
  [("type", Json.str "string"), ("value", Json.str value)]

/-- Mirror of `SuperastCPP::createBoolValue`. -/
def createBoolValue (value : Bool) : Members :=
  [("type", Json.str "bool"), ("value", Json.bool value)]

/-- Mirror of `SuperastCPP::createIdentifierValue`. -/
def createIdentifierValue (name : String) : Members :=
  [("type", Json.str "identifier"), ("value", Json.str name)]

/-- Mirror of `SuperastCPP::createMessageValue` (both overloads read only the
position of the node they are given). -/
def createMessageValue (loc : Loc) (type value description : String) (v : Visitor) :
    Json × Visitor :=
  let (object, v) := addId [] v
  let object := addPos object loc
  (Json.obj (object ++ [("type", Json.str type), ("value", Json.str value),
    ("description", Json.str description)]), v)

/-! ## Type mapper -/

/-- Result of the scanning loop of `createVectorValue`. -/
inductive VectorScan where
  /-- the loop ended with these values of `depth` and `innerMostType` -/
  | done (depth : Nat) (innerMostType : String)
  /-- `substr` threw `std::out_of_range` -/
  | outOfRange
  /-- the loop was still running after the given number of iterations -/
  | running
  deriving Repr, DecidableEq, Inhabited

/-- The `while (!finished)` loop of `SuperastCPP::createVectorValue`, run for at
most `fuel` iterations from the given values of `actPos` and `depth`. Positions
are `std::size_t` values and `depth` is an `unsigned`. -/
def vectorLoop (typeName : List Char) : Nat → Nat → Nat → VectorScan
  | 0, _, _ => VectorScan.running
  | fuel + 1, actPos, depth =>
    let vectorPos := strFind typeName VECTOR_TYPE.data actPos
    let commaPos := strFind typeName [','] actPos
    let type := "vector"
    if commaPos < vectorPos then
      match substr typeName actPos ((commaPos + SIZE_MOD - actPos) % SIZE_MOD) with
      | none => VectorScan.outOfRange
      | some innerMostType =>
        VectorScan.done depth (mapFind VECTOR_TYPE_MAPPING type (String.mk innerMostType))
    else
      vectorLoop typeName fuel ((vectorPos + VECTOR_TYPE.length) % SIZE_MOD)
        ((depth + 1) % UINT_MOD)

/-- The loop `for (unsigned i = 0; i < depth; ++i)` of `createVectorValue`: wrap
`actTypeValue` in `depth` nodes named `vector`. -/
def wrapVector : Nat → Json → Visitor → Json × Visitor
  | 0, actTypeValue, v => (actTypeValue, v)
  | depth + 1, actTypeValue, v =>
    let (aux, v) := addId [] v
    wrapVector depth
      (Json.obj (aux ++ [("name", Json.str "vector"), ("data-type", actTypeValue)])) v

/-- Number of iterations after which the scanning loop of `createVectorValue`
is known never to end: a position is then visited for the second time. -/
def vectorFuel (typeName : List Char) : Nat := 2 * typeName.length + 4

/-- Mirror of `SuperastCPP::createVectorValue`, on the printed type. -/
def createVectorValue (typeName : String) (v : Visitor) : Res Json :=
  if !isSTLVectorType typeName then Res.abort else
  match vectorLoop typeName.data (vectorFuel typeName.data) 0 0 with
  | VectorScan.running => Res.hang
  | VectorScan.outOfRange => Res.abort
  | VectorScan.done depth innerMostType =>
    let (actTypeValue, v) := addId [] v
    let actTypeValue := Json.obj (actTypeValue ++ [("name", Json.str innerMostType)])
    let (actTypeValue, v) := wrapVector depth actTypeValue v
    Res.ok actTypeValue v

/-- Mirror of `SuperastCPP::createTypeValue(const clang::Type*)`. -/
def createTypeValue (type : TypeDesc) (v : Visitor) : Res Json :=
  if isSTLVectorType type.canonical then createVectorValue type.canonical v
  else
    let name : String :=
      if type.isBooleanType then "bool"
      else if type.isIntegerType then "int"
      else if type.isFloatingType then "double"
      else if type.isVoidType then "void"
      else if type.isAnyCharacterType then "string"
      else if type.canonical = STRING_TYPE then "string"
      else if type.isStructureType then type.recordName
      else "Unknown: (" ++ type.typeClassName ++ ")"
    let (typeValue, v) := createTypeValueStr name v
    Res.ok typeValue v

/-! ## Traversal -/

/-- The guard at the head of `TraverseStmt`: a null statement, or one that does
not start in the main file, is skipped. -/
def Stmt.skipped (S : Stmt) : Bool :=
  match S.loc? with
  | none => true
  | some l => !l.inMain

/-- The test `if (ifs->getElse())`: whether a statement pointer is non-null. -/
def Stmt.isNonNull : Stmt → Bool
  | Stmt.null => false
  | _ => true

/-- Operator name used by `TraverseUnaryOperator` for the node type. -/
def unaryOpString (opcode : UnaryOpcode) : String :=
  let opString := mapFind UNARY_OP_MAPPING opcode.getOpcodeStr opcode.getOpcodeStr
  if opString = "++" || opString = "--" then
    if opcode.isPrefixOp then opString ++ "_" else "_" ++ opString
  else opString

/-- Operator name used by `TraverseBinaryOperator` for the node type. -/
def binaryOpString (opcode : BinaryOpcode) : String :=
  mapFind BINARY_OP_MAPPING opcode.getOpcodeStr opcode.getOpcodeStr

/-- The rewriting of the lowered member declaration in `TraverseMemberExpr`:
add `type`, erase `data-type`, move `name` to `value`, erase `name`. Each step
asserts in the JSON library when the value is not an object or lacks the member. -/
def memberRewrite (rightValue : Json) : Option Members :=
  match rightValue with
  | Json.obj ms =>
    let ms := ms ++ [("type", Json.str "string")]
    match Json.eraseMember "data-type" ms with
    | none => none
    | some ms =>
      match Json.findMember "name" ms with
      | none => none
      | some nameValue =>
        Json.eraseMember "name" (Json.nullMember "name" ms ++ [("value", nameValue)])
  | _ => none

mutual

/-- Mirror of `SuperastCPP::TraverseStmt` together with the dispatch of
`RecursiveASTVisitor::TraverseStmt` to the `Traverse*` function of the class of
the statement; each arm is the body of that function. -/
def TraverseStmt (S : Stmt) (v : Visitor) : Res Unit :=
  if S.skipped then Res.ok () v else
  match S with
  | Stmt.null => Res.ok () v
  -- TraverseIfStmt
  | Stmt.IfStmt loc conditionVariable cond thenS elseS =>
    let (ifValue, v) := addId [] v
    let ifValue := addPos ifValue loc
    let ifValue := ifValue ++ [("type", Json.str "conditional")]
    let arms := fun (ifValue : Members) (v : Visitor) =>
      TRY_TO (TraverseStmt thenS v) fun _ v =>
      let v := ensureSonIsArray v
      let (blockValue, v) := createBlockValue v.sonValue { v with sonValue := Json.null }
      let ifValue := ifValue ++ [("then", blockValue)]
      if elseS.isNonNull then
        TRY_TO (TraverseStmt elseS v) fun _ v =>
        let v := ensureSonIsArray v
        let (blockValue, v) := createBlockValue v.sonValue { v with sonValue := Json.null }
        let ifValue := ifValue ++ [("else", blockValue)]
        Res.ok () { v with sonValue := Json.obj ifValue }
      else Res.ok () { v with sonValue := Json.obj ifValue }
    match conditionVariable with
    | some varLoc =>
      let (message, v) := createMessageValue varLoc "error" "condition-variable"
        "Variable declarations are not allowed in if conditions" v
      arms (ifValue ++ [("condition", message)]) v
    | none =>
      TRY_TO (TraverseStmt cond v) fun _ v =>
      let conditionValue := v.sonValue
      arms (ifValue ++ [("condition", conditionValue)]) { v with sonValue := Json.null }
  -- TraverseReturnStmt
  | Stmt.ReturnStmt loc retValue =>
    let (returnValue, v) := addId [] v
    let returnValue := addPos returnValue loc
    TRY_TO (TraverseStmt retValue v) fun _ v =>
    let returnValue := returnValue ++ [("type", Json.str "return"), ("expression", v.sonValue)]
    Res.ok () { v with sonValue := Json.obj returnValue }
  -- TraverseWhileStmt
  | Stmt.WhileStmt loc conditionVariable cond body =>
    let (whileValue, v) := addId [] v
    let whileValue := addPos whileValue loc
    let whileValue := whileValue ++ [("type", Json.str "while")]
    let loopBody := fun (whileValue : Members) (v : Visitor) =>
      TRY_TO (TraverseStmt body v) fun _ v =>
      let v := ensureSonIsArray v
      let (blockValue, v) := createBlockValue v.sonValue { v with sonValue := Json.null }
      let whileValue := whileValue ++ [("block", blockValue)]
      Res.ok () { v with sonValue := Json.obj whileValue }
    match conditionVariable with
    | some varLoc =>
      let (message, v) := createMessageValue varLoc "error" "condition-variable"
        "Variable declarations are not allowed in while conditions" v
      loopBody (whileValue ++ [("condition", message)]) v
    | none =>
      TRY_TO (TraverseStmt cond v) fun _ v =>
      loopBody (whileValue ++ [("condition", v.sonValue)]) { v with sonValue := Json.null }
  -- TraverseForStmt
  | Stmt.ForStmt loc init cond inc body =>
    let (forValue, v) := addId [] v
    let forValue := addPos forValue loc
    let forValue := forValue ++ [("type", Json.str "for")]
    TRY_TO (TraverseStmt init v) fun _ v =>
    let v :=
      if v.sonValue.IsArray then
        let (message, v) := createMessageValue loc "error" "compoundStmt"
          "Compound Statements are not allowed in for loop init" v
        { v with sonValue := message }
      else v
    let forValue := forValue ++ [("init", v.sonValue)]
    let v := { v with sonValue := Json.null }
    TRY_TO (TraverseStmt cond v) fun _ v =>
    let forValue := forValue ++ [("condition", v.sonValue)]
    let v := { v with sonValue := Json.null }
    TRY_TO (TraverseStmt inc v) fun _ v =>
    let forValue := forValue ++ [("post", v.sonValue)]
    let v := { v with sonValue := Json.null }
    TRY_TO (TraverseStmt body v) fun _ v =>
    let v := ensureSonIsArray v
    let (blockValue, v) := createBlockValue v.sonValue { v with sonValue := Json.null }
    let forValue := forValue ++ [("block", blockValue)]
    Res.ok () { v with sonValue := Json.obj forValue }
  -- TraverseDoStmt
  | Stmt.DoStmt loc _ _ =>
    let (message, v) := createMessageValue loc "error" "do/while statement"
      "Do/While statements are not allowed" v
    Res.ok () { v with sonValue := message }
  -- TraverseCompoundStmt
  | Stmt.CompoundStmt _ body =>
    TRY_TO (TraverseCompoundBody body [] v) fun arrayValue v =>
    Res.ok () { v with sonValue := Json.arr arrayValue }
  -- TraverseUnaryOperator
  | Stmt.UnaryOperator loc opcode subExpr =>
    let opString := unaryOpString opcode
    TRY_TO (TraverseStmt subExpr v) fun _ v =>
    let (unaryOpValue, v) := addId [] v
    let unaryOpValue := addPos unaryOpValue loc
    let unaryOpValue := unaryOpValue ++
      [("type", Json.str opString), ("expression", v.sonValue)]
    Res.ok () { v with sonValue := Json.obj unaryOpValue }
  -- TraverseBinaryOperator (also reached through TraverseCompoundAssignOperator)
  | Stmt.BinaryOperator loc opcode lhs rhs =>
    let opString := binaryOpString opcode
    if opString = "," then
      let (message, v) := createMessageValue loc "warning" "comma operator"
        "We recommend not using the comma operator!" v
      Res.ok () { v with sonValue := message }
    else
      TRY_TO (TraverseStmt lhs v) fun _ v =>
      let leftValue := v.sonValue
      let v := { v with sonValue := Json.null }
      TRY_TO (TraverseStmt rhs v) fun _ v =>
      let rightValue := v.sonValue
      let (binOpValue, v) := createBinOpValue opString leftValue rightValue v
      let binOpValue := addPos binOpValue loc
      Res.ok () { v with sonValue := Json.obj binOpValue }
  -- TraverseCXXOperatorCallExpr
  | Stmt.CXXOperatorCallExpr loc callee args =>
    match callee with
    | none => Res.ok () v
    | some functionName =>
      if functionName = PRINT_NAME || functionName = READ_NAME then
        let isFirst := !v.iofunctionStarted
        let v := { v with iofunctionStarted := true }
        TRY_TO (TraverseOperatorArgs args 0 [] v) fun arrayValue v =>
        if !isFirst then
          Res.ok () { v with sonValue := Json.arr arrayValue }
        else
          let v := { v with iofunctionStarted := false }
          let (functionValue, v) := addId [] v
          let functionValue := addPos functionValue loc
          let functionValue := functionValue ++ [("type", Json.str "function-call")]
          let functionValue := functionValue ++
            [("name", Json.str (if functionName = PRINT_NAME then "print" else "read"))]
          let functionValue := functionValue ++ [("arguments", Json.arr arrayValue)]
          Res.ok () { v with sonValue := Json.obj functionValue }
      else if functionName = VECTOR_POS_NAME then
        match args with
        | arg0 :: arg1 :: _ =>
          TRY_TO (TraverseStmt arg0 v) fun _ v =>
          let leftValue := v.sonValue
          let v := { v with sonValue := Json.null }
          TRY_TO (TraverseStmt arg1 v) fun _ v =>
          let rightValue := v.sonValue
          let (binOpValue, v) := createBinOpValue "[]" leftValue rightValue v
          Res.ok () { v with sonValue := Json.obj binOpValue }
        | _ => Res.abort
      else Res.ok () v
  -- TraverseCXXMemberCallExpr
  | Stmt.CXXMemberCallExpr loc methodName objectExpr args =>
    let (rightValue, v) := addId [] v
    let rightValue := addPos rightValue loc
    let rightValue := rightValue ++
      [("type", Json.str "function-call"), ("name", Json.str methodName)]
    TRY_TO (TraversePushArgs args [] v) fun arrayValue v =>
    let rightValue := rightValue ++ [("arguments", Json.arr arrayValue)]
    TRY_TO (TraverseStmt objectExpr v) fun _ v =>
    let (memberCallValue, v) := createBinOpValue "." v.sonValue (Json.obj rightValue) v
    let memberCallValue := addPos memberCallValue loc
    Res.ok () { v with sonValue := Json.obj memberCallValue }
  -- TraverseMemberExpr
  | Stmt.MemberExpr loc base memberDecl =>
    let opString := "[]"
    TRY_TO (TraverseStmt base v) fun _ v =>
    let leftValue := v.sonValue
    let v := { v with sonValue := Json.null }
    TRY_TO (TraverseDecl memberDecl v) fun _ v =>
    match memberRewrite v.sonValue with
    | none => Res.abort
    | some rightValue =>
      let (memberExprValue, v) := createBinOpValue opString leftValue (Json.obj rightValue) v
      let memberExprValue := addPos memberExprValue loc
      Res.ok () { v with sonValue := Json.obj memberExprValue }
  -- TraverseDeclRefExpr
  | Stmt.DeclRefExpr loc name typeName =>
    if typeName = PRINT_TYPE || typeName = READ_TYPE ||
        (typeName = PRINT_FLAG_TYPE && name != "endl") then Res.ok () v
    else if typeName = PRINT_FLAG_TYPE then
      let (identifierValue, v) := addId [] v
      let identifierValue := addPos identifierValue loc
      let identifierValue :=
        if name = "endl" then
          identifierValue ++ [("type", Json.str "string"), ("value", Json.str "\n")]
        else identifierValue
      Res.ok () { v with sonValue := Json.obj identifierValue }
    else
      let (identifierValue, v) := addId (createIdentifierValue name) v
      let identifierValue := addPos identifierValue loc
      Res.ok () { v with sonValue := Json.obj identifierValue }
  -- TraverseIntegerLiteral
  | Stmt.IntegerLiteral loc value =>
    let (integerValue, v) := addId (createIntegerValue value) v
    Res.ok () { v with sonValue := Json.obj (addPos integerValue loc) }
  -- TraverseFloatingLiteral
  | Stmt.FloatingLiteral loc bits =>
    let (floatingValue, v) := addId (createFloatingValue bits) v
    Res.ok () { v with sonValue := Json.obj (addPos floatingValue loc) }
  -- TraverseCharacterLiteral
  | Stmt.CharacterLiteral loc value =>
    let (stringValue, v) :=
      addId (createStringValue (String.singleton (Char.ofNat (value % 256)))) v
    Res.ok () { v with sonValue := Json.obj (addPos stringValue loc) }
  -- TraverseStringLiteral
  | Stmt.StringLiteral loc value =>
    let (stringValue, v) := addId (createStringValue value) v
    Res.ok () { v with sonValue := Json.obj (addPos stringValue loc) }
  -- TraverseCXXBoolLiteralExpr
  | Stmt.CXXBoolLiteralExpr loc value =>
    let (boolValue, v) := addId (createBoolValue value) v
    Res.ok () { v with sonValue := Json.obj (addPos boolValue loc) }
  -- TraverseCallExpr
  | Stmt.CallExpr loc callee args =>
    match callee with
    | none => Res.ok () v
    | some functionName =>
      let (functionCallValue, v) := addId [] v
      let functionCallValue := addPos functionCallValue loc
      let functionCallValue := functionCallValue ++
        [("type", Json.str "function-call"), ("name", Json.str functionName)]
      TRY_TO (TraversePushArgs args [] v) fun argumentsValue v =>
      let functionCallValue := functionCallValue ++ [("arguments", Json.arr argumentsValue)]
      Res.ok () { v with sonValue := Json.obj functionCallValue }
  -- TraverseDeclStmt
  | Stmt.DeclStmt _ decls =>
    if decls.length = 1 then
      -- isSingleDecl: the group holds exactly one declaration
      match decls with
      | singleDecl :: _ => TraverseDecl singleDecl v
      | [] => Res.abort
    else
      TRY_TO (TraversePushDecls decls [] v) fun arrayValue v =>
      Res.ok () { v with sonValue := Json.arr arrayValue }
  -- TraverseBreakStmt
  | Stmt.BreakStmt loc =>
    let (message, v) := createMessageValue loc "error" "break statement"
      "Breaks are not allowed" v
    Res.ok () { v with sonValue := message }
  -- TraverseLabelStmt
  | Stmt.LabelStmt loc _ =>
    let (message, v) := createMessageValue loc "error" "label" "Labels are not allowed" v
    Res.ok () { v with sonValue := message }
  -- TraverseGotoStmt
  | Stmt.GotoStmt loc =>
    let (message, v) := createMessageValue loc "error" "goto" "Goto is not allowed" v
    Res.ok () { v with sonValue := message }
  -- no override: the default traversal visits the operand
  | Stmt.ImplicitCastExpr _ subExpr => TraverseStmt subExpr v
  -- no override: the default traversal visits the children
  | Stmt.other _ children => TraverseChildren children v

/-- The loop of `TraverseCompoundStmt` over the remaining statements of the
body, with the array built so far. -/
def TraverseCompoundBody (body : List Stmt) (arrayValue : List Json) (v : Visitor) :
    Res (List Json) :=
  match body with
  | [] => Res.ok arrayValue v
  | stmt :: rest =>
    TRY_TO (TraverseStmt stmt v) fun _ v =>
    match v.sonValue with
    | Json.arr elems =>
      let (arrayValue, elems) := addElemsToArray arrayValue elems
      TraverseCompoundBody rest arrayValue { v with sonValue := Json.arr elems }
    | sonValue =>
      TraverseCompoundBody rest (arrayValue ++ [sonValue]) { v with sonValue := Json.null }

/-- The loop of `TraverseCXXOperatorCallExpr` over the arguments `i`, `i + 1`,
... of a print or read operator call, with the array built so far. -/
def TraverseOperatorArgs (args : List Stmt) (i : Nat) (arrayValue : List Json)
    (v : Visitor) : Res (List Json) :=
  match args with
  | [] => Res.ok arrayValue v
  | arg :: rest =>
    TRY_TO (TraverseStmt arg v) fun _ v =>
    if i = 0 then
      match v.sonValue with
      | Json.arr elems =>
        TraverseOperatorArgs rest (i + 1) elems { v with sonValue := Json.null }
      | _ => TraverseOperatorArgs rest (i + 1) arrayValue v
    else
      TraverseOperatorArgs rest (i + 1) (arrayValue ++ [v.sonValue])
        { v with sonValue := Json.null }

/-- The argument loops of `TraverseCallExpr` and `TraverseCXXMemberCallExpr`:
lower each argument and push the result slot. -/
def TraversePushArgs (args : List Stmt) (arrayValue : List Json) (v : Visitor) :
    Res (List Json) :=
  match args with
  | [] => Res.ok arrayValue v
  | arg :: rest =>
    TRY_TO (TraverseStmt arg v) fun _ v =>
    TraversePushArgs rest (arrayValue ++ [v.sonValue]) { v with sonValue := Json.null }

/-- Default traversal of the children of a statement without override. -/
def TraverseChildren (children : List Stmt) (v : Visitor) : Res Unit :=
  match children with
  | [] => Res.ok () v
  | child :: rest =>
    TRY_TO (TraverseStmt child v) fun _ v => TraverseChildren rest v

/-- Mirror of `SuperastCPP::TraverseDecl` together with the dispatch of
`RecursiveASTVisitor::TraverseDecl` to the `Traverse*` function of the class of
the declaration; each arm is the body of that function. -/
def TraverseDecl (D : Decl) (v : Visitor) : Res Unit :=
  if !D.loc.inMain then Res.ok () v else
  match D with
  -- TraverseFunctionDecl
  | Decl.FunctionDecl loc functionName callResultType params isDefinition body =>
    let (functionValue, v) := addId [] v
    let functionValue := addPos functionValue loc
    let functionValue := functionValue ++
      [("type", Json.str "function-declaration"), ("name", Json.str functionName)]
    TRY_TO (createTypeValue callResultType v) fun returnType v =>
    let functionValue := functionValue ++ [("return-type", returnType)]
    TRY_TO (TraversePushDecls params [] v) fun parametersValue v =>
    let functionValue := functionValue ++ [("parameters", Json.arr parametersValue)]
    if isDefinition then
      TRY_TO (TraverseStmt body v) fun _ v =>
      let v := ensureSonIsArray v
      let (blockValue, v) := createBlockValue v.sonValue { v with sonValue := Json.null }
      let functionValue := functionValue ++ [("block", blockValue)]
      Res.ok () { v with sonValue := Json.obj functionValue }
    else
      let (blockValue, v) := createBlockValue (Json.arr []) v
      let functionValue := functionValue ++ [("block", blockValue)]
      Res.ok () { v with sonValue := Json.obj functionValue }
  -- TraverseVarDecl (also reached through TraverseParmVarDecl)
  | Decl.VarDecl loc isParm varName type hasInit init initStyle =>
    let (varValue, v) := addId [] v
    let varValue := addPos varValue loc
    let varValue :=
      if !isParm then varValue ++ [("type", Json.str "variable-declaration")] else varValue
    let varValue := varValue ++ [("name", Json.str varName)]
    let isConst := type.declConst || type.nonLValueConst
    TRY_TO (createTypeValue type.type v) fun dataType v =>
    let varValue := varValue ++ [("data-type", dataType),
      ("is-reference", Json.bool type.isReferenceType), ("is-const", Json.bool isConst)]
    if hasInit && !type.type.isStructureType && !isSTLVectorType type.type.canonical then
      TRY_TO (TraverseStmt init v) fun _ v =>
      match initStyle with
      | InitializationStyle.CInit | InitializationStyle.CallInit =>
        if !v.sonValue.IsNull then
          Res.ok () { v with sonValue := Json.obj (varValue ++ [("init", v.sonValue)]) }
        else Res.ok () { v with sonValue := Json.obj varValue }
      | InitializationStyle.ListInit =>
        Res.ok () { v with sonValue := Json.obj varValue }
    else Res.ok () { v with sonValue := Json.obj varValue }
  -- TraverseFieldDecl
  | Decl.FieldDecl loc varName type =>
    let (varValue, v) := addId [] v
    let varValue := addPos varValue loc
    let varValue := varValue ++ [("name", Json.str varName)]
    TRY_TO (createTypeValue type v) fun dataType v =>
    let varValue := varValue ++ [("data-type", dataType)]
    match v.sonValue with
    | Json.arr elems => Res.ok () { v with sonValue := Json.arr (elems ++ [Json.obj varValue]) }
    | _ => Res.ok () { v with sonValue := Json.obj varValue }
  -- TraverseCXXRecordDecl
  | Decl.CXXRecordDecl loc isImplicit structName decls =>
    if isImplicit then Res.ok () v else
    let (structValue, v) := addId [] v
    let structValue := addPos structValue loc
    let structValue := structValue ++
      [("type", Json.str "struct-declaration"), ("name", Json.str structName)]
    let v := { v with sonValue := Json.arr [] }
    match TraverseDeclContext decls v with
    | Res.ok _ v =>
      Res.ok () { v with sonValue := Json.obj (structValue ++ [("attributes", v.sonValue)]) }
    | Res.stop v =>
      Res.stop { v with sonValue := Json.obj (structValue ++ [("attributes", v.sonValue)]) }
    | Res.abort => Res.abort
    | Res.hang => Res.hang
  -- TraverseCXXMethodDecl
  | Decl.CXXMethodDecl _ => Res.ok () v
  -- no override: the default traversal visits the child declarations and the body
  | Decl.other _ decls body =>
    TRY_TO (TraverseDeclContext decls v) fun _ v => TraverseStmt body v

/-- The loops of `TraverseFunctionDecl` over the parameters and of
`TraverseDeclStmt` over a declaration group: lower each declaration and push
the result slot. -/
def TraversePushDecls (decls : List Decl) (arrayValue : List Json) (v : Visitor) :
    Res (List Json) :=
  match decls with
  | [] => Res.ok arrayValue v
  | decl :: rest =>
    TRY_TO (TraverseDecl decl v) fun _ v =>
    TraversePushDecls rest (arrayValue ++ [v.sonValue]) { v with sonValue := Json.null }

/-- Default traversal of the child declarations of a declaration context. -/
def TraverseDeclContext (decls : List Decl) (v : Visitor) : Res Unit :=
  match decls with
  | [] => Res.ok () v
  | decl :: rest =>
    TRY_TO (TraverseDecl decl v) fun _ v => TraverseDeclContext rest v

end

/-- The loop of `TraverseTranslationUnitDecl` over the remaining top-level
declarations, with the array `document["statements"]` built so far. -/
def TraverseTopLevel (decls : List Decl) (statements : List Json) (v : Visitor) :
    Res (List Json) :=
  match decls with
  | [] => Res.ok statements v
  | declaration :: rest =>
    TRY_TO (TraverseDecl declaration v) fun _ v =>
    if !v.sonValue.IsNull then
      match v.sonValue with
      | Json.arr elems =>
        let (statements, elems) := addElemsToArray statements elems
        TraverseTopLevel rest statements { v with sonValue := Json.arr elems }
      | sonValue =>
        TraverseTopLevel rest (statements ++ [sonValue]) { v with sonValue := Json.null }
    else TraverseTopLevel rest statements v

/-- Mirror of `SuperastCPP::TraverseTranslationUnitDecl`; the result is the
global `document`. -/
def TraverseTranslationUnitDecl (unitDecl : TranslationUnit) (v : Visitor) : Res Json :=
  let (document, v) := addId [] v
  TRY_TO (TraverseTopLevel unitDecl [] v) fun statements v =>
  Res.ok (Json.obj (document ++ [("statements", Json.arr statements)])) v

/-! ## Vocabulary of the specification -/

/-- The content of the result slot `sonValue` after a traversal that returned `true`. -/
def Res.son? {α : Type} : Res α → Option Json
  | Res.ok _ v => some v.sonValue
  | _ => none

/-- The member `key` of the node left in the result slot. -/
def Res.sonField? {α : Type} (r : Res α) (key : String) : Option Json :=
  r.son?.bind (Json.field key)

/-- The value of the id counter after a traversal that returned `true`. -/
def Res.currentId? {α : Type} : Res α → Option Nat
  | Res.ok _ v => some v.currentId
  | _ => none

/-- The node that `createMessageValue` builds when the id counter holds `id`. -/
def messageNode (loc : Loc) (type value description : String) (id : Nat) : Json :=
  Json.obj (addPos [("id", idValue id)] loc ++
    [("type", Json.str type), ("value", Json.str value),
     ("description", Json.str description)])

/-- The id that a member of an object contributes by itself: the integer held
by a member named `id`. -/
def Json.idOfMember (key : String) (value : Json) : List Int :=
  if key = "id" then
    match value with
    | Json.int n => [n]
    | _ => []
  else []

mutual
/-- The `id` values of all nodes of a JSON value, in document order. -/
def Json.ids : Json → List Int
  | Json.arr elems => Json.idsOfElems elems
  | Json.obj members => Json.idsOfMembers members
  | _ => []
/-- The `id` values inside the elements of an array. -/
def Json.idsOfElems : List Json → List Int
  | [] => []
  | elem :: rest => elem.ids ++ Json.idsOfElems rest
/-- The `id` values inside an object: the id of the object and the ids inside
the values of its members. -/
def Json.idsOfMembers : List (String × Json) → List Int
  | [] => []
  | (key, value) :: rest =>
    Json.idOfMember key value ++ value.ids ++ Json.idsOfMembers rest
end

/-! ## Nested container signatures -/

/-- The text of `d` container prefixes `class std::vector<` in a row. -/
def nestPrefix : Nat → List Char
  | 0 => []
  | d + 1 => VECTOR_TYPE.data ++ nestPrefix d

/-- A printed type made of `d` container prefixes, an element text, a comma and
the rest of the template arguments. -/
def vectorSignature (d : Nat) (elem rest : String) : String :=
  String.mk (nestPrefix d ++ (elem.data ++ ',' :: rest.data))

/-- The type node of a container of depth `depth` over a leaf named `elem`,
built when the id counter holds `c`: the leaf takes the first id and every
wrapper the next one, from the innermost to the outermost. -/
def vectorType (elem : String) (c : Nat) : Nat → Json
  | 0 => Json.obj [("id", idValue c), ("name", Json.str elem)]
  | depth + 1 =>
    Json.obj [("id", idValue (c + depth + 1)), ("name", Json.str "vector"),
      ("data-type", vectorType elem c depth)]

/-! ## Vocabulary for declarations -/

/-- The name of a declaration that is a field of the main file. -/
def Decl.fieldName? : Decl → Option String
  | Decl.FieldDecl loc name _ => if loc.inMain then some name else none
  | _ => none

/-- The members the claim on record declarations speaks of: fields of the main
file, method declarations, and the implicit record a class holds for its own
name. -/
def Decl.isRecordMember : Decl → Bool
  | Decl.FieldDecl loc _ _ => loc.inMain
  | Decl.CXXMethodDecl _ => true
  | Decl.CXXRecordDecl _ isImplicit _ _ => isImplicit
  | _ => false

/-- The name of a declaration that is a parameter of the main file. -/
def Decl.parmName? : Decl → Option String
  | Decl.VarDecl loc isParm name _ _ _ _ => if loc.inMain && isParm then some name else none
  | _ => none

/-- What the result of one top-level declaration adds to the statements of the
root: nothing when there is no node, its elements when it is an array, itself
otherwise. -/
def contribution : Json → List Json
  | Json.null => []
  | Json.arr elems => elems
  | node => [node]

/-- The result slot once the result of a top-level declaration has been moved
into the statements of the root. -/
def afterMove (v : Visitor) : Visitor :=
  match v.sonValue with
  | Json.arr elems => { v with sonValue := Json.arr (elems.map fun _ => Json.null) }
  | _ => { v with sonValue := Json.null }

/-- The per-declaration results of a sequence of top-level declarations: what
the result slot holds after each declaration, in source order. -/
def topLevelResults : List Decl → Visitor → List Json
  | [], _ => []
  | declaration :: rest, v =>
    match TraverseDecl declaration v with
    | Res.ok _ w => w.sonValue :: topLevelResults rest (afterMove w)
    | _ => []

/-! ## Ids of a document as multisets -/

/-- The ids of a JSON value as a multiset. -/
def Json.idm (j : Json) : Multiset Int := (j.ids : Multiset Int)

/-- The ids inside the elements of an array as a multiset. -/
def idmE (l : List Json) : Multiset Int := (Json.idsOfElems l : Multiset Int)

/-- The ids inside the members of an object as a multiset. -/
def idmM (ms : Members) : Multiset Int := (Json.idsOfMembers ms : Multiset Int)

/-- The id that `addId` writes when `c` ids have been handed out. -/
def idOf (c : Nat) : Multiset Int := {((c % UINT_MOD : Nat) : Int)}

/-- The ids of `m` are pairwise distinct and were all handed out before the
counter reached `c`: each is one of `0`, ..., `c - 1`. -/
def Good (c : Nat) (m : Multiset Int) : Prop :=
  m.Nodup ∧ ∀ i ∈ m, 0 ≤ i ∧ i < (c : Int)

/-- What a traversal from `v` to `w` guarantees about ids, for any ids `F` held
outside the result slot: the counter does not decrease, and if it ends within
the range of the 32-bit counter, distinctness and freshness carry over. -/
def Post (F : Multiset Int) (v w : Visitor) : Prop :=
  v.currentId ≤ w.currentId ∧
    (w.currentId ≤ UINT_MOD → Good v.currentId (F + v.sonValue.idm) →
      Good w.currentId (F + w.sonValue.idm))

/-- The guarantee of `Post` for a loop that collects lowered nodes in an array,
from the array `acc` to the array `acc'`. -/
def PostArr (F : Multiset Int) (acc : List Json) (v : Visitor) (acc' : List Json)
    (w : Visitor) : Prop :=
  v.currentId ≤ w.currentId ∧
    (w.currentId ≤ UINT_MOD → Good v.currentId (F + idmE acc + v.sonValue.idm) →
      Good w.currentId (F + idmE acc' + w.sonValue.idm))

/-- The guarantee of `Post` for the type mapper, which returns the node `j` and
leaves the result slot alone. -/
def PostType (v : Visitor) (j : Json) (w : Visitor) : Prop :=
  v.currentId ≤ w.currentId ∧ w.sonValue = v.sonValue ∧
    (w.currentId ≤ UINT_MOD → ∀ X, Good v.currentId X → Good w.currentId (X + j.idm))

/-! ## Order of the ids of a node and of its children -/

/-- The id of a node: the integer held by its member `id`. -/
def Json.id? (j : Json) : Option Int :=
  match j.field "id" with
  | some (Json.int n) => some n
  | _ => none

/-- Whether the node `j` has an id and a member `key`, and the id is greater
than every id inside that member: the node got its id after the member was
lowered. -/
def Json.idAfter (key : String) (j : Json) : Bool :=
  match j.id?, j.field key with
  | some n, some child => child.ids.all fun i => decide (i < n)
  | _, _ => false

/-- Whether the node `j` has an id and a member `key`, and the id is smaller
than every id inside that member: the node got its id before the member was
lowered. -/
def Json.idBefore (key : String) (j : Json) : Bool :=
  match j.id?, j.field key with
  | some n, some child => child.ids.all fun i => decide (n < i)
  | _, _ => false

/-- The statements whose lowering ends with `createBinOpValue`: a binary
operator other than the comma, a subscript through `operator[]`, a member
access and a member-function call, of the main file. -/
def Stmt.buildsBinOp : Stmt → Bool
  | Stmt.BinaryOperator loc opcode _ _ => loc.inMain && binaryOpString opcode != ","
  | Stmt.CXXOperatorCallExpr loc (some functionName) _ =>
    loc.inMain && functionName != PRINT_NAME && functionName != READ_NAME &&
      functionName == VECTOR_POS_NAME
  | Stmt.MemberExpr loc _ _ => loc.inMain
  | Stmt.CXXMemberCallExpr loc _ _ _ => loc.inMain
  | _ => false

/-! ## Sample inputs -/

namespace Sample

/-- A position in the main file. -/
def at_ (line col : Nat) : Loc := { inMain := true, pos := some (line, col) }

/-- The type `int`. -/
def intType : TypeDesc :=
  { canonical := "int", isBooleanType := false, isIntegerType := true,
    isFloatingType := false, isVoidType := false, isAnyCharacterType := false,
    isStructureType := false, recordName := "", typeClassName := "Builtin" }

/-- A use of the `int` variable `name` as a value: the reference under its
lvalue-to-rvalue cast. -/
def intVar (loc : Loc) (name : String) : Stmt :=
  Stmt.ImplicitCastExpr loc (Stmt.DeclRefExpr loc name "int")

/-- The stream `cout`. -/
def cout (loc : Loc) : Stmt := Stmt.DeclRefExpr loc "cout" PRINT_TYPE

/-- The declaration `int name;` as one declarator of a declaration statement. -/
def intDecl (loc : Loc) (name : String) : Decl :=
  Decl.VarDecl loc false name
    { declConst := false, isReferenceType := false, nonLValueConst := false, type := intType }
    false Stmt.null InitializationStyle.CInit

/-- The statement `if (x > 0) { return x; } else { return 0; }`, its nine
nodes at the positions `pos 0`, ..., `pos 8` of the main file. -/
def ifExample (pos : Nat → Option (Nat × Nat)) : Stmt :=
  let loc := fun (k : Nat) => ({ inMain := true, pos := pos k } : Loc)
  Stmt.IfStmt (loc 0) none
    (Stmt.BinaryOperator (loc 1) BinaryOpcode.GT (intVar (loc 2) "x")
      (Stmt.IntegerLiteral (loc 3) 0))
    (Stmt.CompoundStmt (loc 4) [Stmt.ReturnStmt (loc 5) (intVar (loc 6) "x")])
    (Stmt.CompoundStmt (loc 7) [Stmt.ReturnStmt (loc 8) (Stmt.IntegerLiteral (loc 8) 0)])

/-- The members `line` and `column` of a node at position `p` of the main file. -/
def posOf (p : Option (Nat × Nat)) : Members :=
  addPos [] { inMain := true, pos := p }

/-- The document node expected for `ifExample` when the id counter holds `c`. -/
def ifExpected (pos : Nat → Option (Nat × Nat)) (c : Nat) : Json :=
  let id := fun (k : Nat) => ("id", idValue (c + k))
  let identifierX := fun (k n : Nat) =>
    Json.obj ([("type", Json.str "identifier"), ("value", Json.str "x"), id k] ++ posOf (pos n))
  let literal0 := fun (k n : Nat) =>
    Json.obj ([("type", Json.str "int"), ("value", Json.int 0), id k] ++ posOf (pos n))
  Json.obj ([id 0] ++ posOf (pos 0) ++
    [("type", Json.str "conditional"),
     ("condition", Json.obj ([id 3, ("type", Json.str ">"),
        ("left", identifierX 1 2), ("right", literal0 2 3)] ++ posOf (pos 1))),
     ("then", Json.obj [id 6, ("statements", Json.arr
        [Json.obj ([id 4] ++ posOf (pos 5) ++
          [("type", Json.str "return"), ("expression", identifierX 5 6)])])]),
     ("else", Json.obj [id 9, ("statements", Json.arr
        [Json.obj ([id 7] ++ posOf (pos 8) ++
          [("type", Json.str "return"), ("expression", literal0 8 8)])])])])

/-- The declaration `const int& r = x;`. -/
def constRefInt : Decl :=
  Decl.VarDecl (at_ 5 3) false "r"
    { declConst := false, isReferenceType := true, nonLValueConst := true, type := intType }
    true (Stmt.DeclRefExpr (at_ 5 18) "x" "int") InitializationStyle.CInit

/-- The expression `p.first` over a variable `p` of type `std::pair<int, int>`:
the field `first` is declared in a header of the standard library. -/
def pairFirst : Stmt :=
  Stmt.MemberExpr (at_ 4 10) (Stmt.DeclRefExpr (at_ 4 10) "p" "pair<int, int>")
    (Decl.FieldDecl { inMain := false, pos := some (102, 11) } "first" intType)

/-- The expression `s.n` over a variable `s` of a record type `S` declared in
the main file with a field `int n`. -/
def structField : Stmt :=
  Stmt.MemberExpr (at_ 9 10) (Stmt.DeclRefExpr (at_ 9 10) "s" "struct S")
    (Decl.FieldDecl (at_ 2 7) "n" intType)

/-- The statement `cout << a;` at line `line`. -/
def printA (line : Nat) : Stmt :=
  Stmt.CXXOperatorCallExpr (at_ line 3) (some PRINT_NAME)
    [cout (at_ line 3), intVar (at_ line 11) "a"]

/-- The block `{ int a, b; cout << a; }`. -/
def declThenPrint : Stmt :=
  Stmt.CompoundStmt (at_ 1 12)
    [Stmt.DeclStmt (at_ 2 3) [intDecl (at_ 2 3) "a", intDecl (at_ 2 10) "b"],
     printA 3]

/-- The definition `void f() { int a, b; typedef int A, B; }`; a typedef is a
declaration without override. -/
def typedefAfterDecls : Decl :=
  Decl.FunctionDecl (at_ 1 1) "f"
    { intType with canonical := "void", isIntegerType := false, isVoidType := true }
    [] true
    (Stmt.CompoundStmt (at_ 1 10)
      [Stmt.DeclStmt (at_ 2 3) [intDecl (at_ 2 3) "a", intDecl (at_ 2 10) "b"],
       Stmt.DeclStmt (at_ 3 3)
        [Decl.other (at_ 3 3) [] Stmt.null, Decl.other (at_ 3 18) [] Stmt.null]])

/-- The node of a declaration `int name;` of a declaration statement, lowered
when the id counter holds `id`. -/
def intDeclNode (id line col : Nat) (name : String) : Json :=
  Json.obj [("id", Json.int id), ("line", Json.int line), ("column", Json.int col),
    ("type", Json.str "variable-declaration"), ("name", Json.str name),
    ("data-type", Json.obj [("id", Json.int (id + 1)), ("name", Json.str "int")]),
    ("is-reference", Json.bool false), ("is-const", Json.bool false)]

/-- The expression `x++`. -/
def postIncX : Stmt :=
  Stmt.UnaryOperator (at_ 1 1) UnaryOpcode.PostInc (Stmt.DeclRefExpr (at_ 1 1) "x" "int")

/-- The text after the first comma of the canonical type of `vector<vector<int>>`. -/
def allocatorRest : String :=
  " class std::allocator<int> >, " ++
  "class std::allocator<class std::vector<int, class std::allocator<int> > > >"

/-- The two declarators of the statement `int a, b;` at line 2. -/
def twoDecls : Stmt :=
  Stmt.DeclStmt (at_ 2 3) [intDecl (at_ 2 3) "a", intDecl (at_ 2 10) "b"]

/-- The block `{ int a, b; while (int c = a) ; }`; the empty statement is a
statement without override and without children. -/
def declThenWhileVar : Stmt :=
  Stmt.CompoundStmt (at_ 1 12)
    [twoDecls,
     Stmt.WhileStmt (at_ 3 3) (some (at_ 3 10)) (intVar (at_ 3 14) "c")
       (Stmt.other (at_ 3 21) [])]

/-- The block `{ int a, b; for (;;) { } }`. -/
def declThenFor : Stmt :=
  Stmt.CompoundStmt (at_ 1 12)
    [twoDecls,
     Stmt.ForStmt (at_ 3 3) Stmt.null Stmt.null Stmt.null (Stmt.CompoundStmt (at_ 3 12) [])]

/-- The block `{ int a, b; return; }`. -/
def declThenReturn : Stmt :=
  Stmt.CompoundStmt (at_ 1 12) [twoDecls, Stmt.ReturnStmt (at_ 3 3) Stmt.null]

/-- The block `{ int a, b; int n = sizeof(int); }`; the `sizeof` expression is
an expression without override and without children, under its integral cast. -/
def declThenSizeof : Stmt :=
  Stmt.CompoundStmt (at_ 1 12)
    [twoDecls,
     Stmt.DeclStmt (at_ 3 3) [Decl.VarDecl (at_ 3 3) false "n"
       { declConst := false, isReferenceType := false, nonLValueConst := false,
         type := intType }
       true (Stmt.ImplicitCastExpr (at_ 3 11) (Stmt.other (at_ 3 11) []))
       InitializationStyle.CInit]]

/-- The top-level declarations `S::S() { int a, b; }` and `typedef int T;`: a
constructor definition is a declaration without override whose default
traversal visits its body, a typedef one without children. -/
def constructorThenTypedef : TranslationUnit :=
  [Decl.other (at_ 1 1) [] (Stmt.CompoundStmt (at_ 1 8) [twoDecls]),
   Decl.other (at_ 4 1) [] Stmt.null]

/-- The type `char`: a character type, which the front end also classifies as
an integer type. -/
def charType : TypeDesc :=
  { intType with canonical := "char", isAnyCharacterType := true }

/-- A type whose printed form holds the container prefix and no comma. -/
def vectorWithoutComma : TypeDesc :=
  { intType with canonical := "class std::vector<int>", isIntegerType := false,
                 typeClassName := "Record" }

/-- The parameter `int name` at column `col` of line 1. -/
def intParm (col : Nat) (name : String) : Decl :=
  Decl.VarDecl (at_ 1 col) true name
    { declConst := false, isReferenceType := false, nonLValueConst := false, type := intType }
    false Stmt.null InitializationStyle.CInit

/-- The node of a parameter `int name` at column `col` of line 1, lowered when
the id counter holds `id`. -/
def intParmNode (id col : Nat) (name : String) : Json :=
  Json.obj [("id", Json.int id), ("line", Json.int 1), ("column", Json.int col),
    ("name", Json.str name),
    ("data-type", Json.obj [("id", Json.int (id + 1)), ("name", Json.str "int")]),
    ("is-reference", Json.bool false), ("is-const", Json.bool false)]

/-- The members of the record `struct P { int x; int y; int norm(); };`, with
the implicit record a class holds for its own name. -/
def pointMembers : List Decl :=
  [Decl.CXXRecordDecl (at_ 1 1) true "P" [],
   Decl.FieldDecl (at_ 1 12) "x" intType,
   Decl.FieldDecl (at_ 1 19) "y" intType,
   Decl.CXXMethodDecl (at_ 1 26)]

/-- The node of a field `int name` at column `col` of line 1, lowered when the
id counter holds `id`. -/
def fieldNode (id col : Nat) (name : String) : Json :=
  Json.obj [("id", Json.int id), ("line", Json.int 1), ("column", Json.int col),
    ("name", Json.str name),
    ("data-type", Json.obj [("id", Json.int (id + 1)), ("name", Json.str "int")])]

/-- The declaration `struct S {};` at the start of a line. -/
def emptyStruct : Decl := Decl.CXXRecordDecl (at_ 1 1) false "S" []

/-- A translation unit of `n` declarations `struct S {};`. -/
def manyStructs (n : Nat) : TranslationUnit := List.replicate n emptyStruct

/-- The node of `struct S {};` with the id `id`. -/
def structNode (id : Nat) : Json :=
  Json.obj [("id", Json.int id), ("line", Json.int 1), ("column", Json.int 1),
    ("type", Json.str "struct-declaration"), ("name", Json.str "S"),
    ("attributes", Json.arr [])]

/-- The translation unit `struct P { int x; int y; int norm(); };`. -/
def recordUnit : TranslationUnit :=
  [Decl.CXXRecordDecl (at_ 1 1) false "P" pointMembers]

/-- The document of `recordUnit`. -/
def recordDocument : Json :=
  Json.obj [("id", Json.int 0), ("statements", Json.arr
    [Json.obj [("id", Json.int 1), ("line", Json.int 1), ("column", Json.int 1),
       ("type", Json.str "struct-declaration"), ("name", Json.str "P"),
       ("attributes", Json.arr [fieldNode 2 12 "x", fieldNode 4 19 "y"])]])]

/-- The expression `s + t` of two `std::string` variables: a call of the
overloaded `operator+`. -/
def stringPlus : Stmt :=
  Stmt.CXXOperatorCallExpr (at_ 4 7) (some "operator+")
    [Stmt.DeclRefExpr (at_ 4 7) "s" "std::string", Stmt.DeclRefExpr (at_ 4 11) "t" "std::string"]

/-- The text after the first comma of the canonical type of `vector<char>`. -/
def charAllocatorRest : String := " class std::allocator<char> >"

/-- The text after the first comma of the canonical type of `vector<float>`. -/
def floatAllocatorRest : String := " class std::allocator<float> >"

/-- The statement `switch (x) { case 1: return; }`: a switch statement and a
case label are statements without override. The children of the switch
statement are its absent condition variable, its condition and its body; the
children of the case label are its value, its absent range end and its
sub-statement. -/
def switchReturn : Stmt :=
  Stmt.other (at_ 2 3)
    [Stmt.null, intVar (at_ 2 11) "x",
     Stmt.CompoundStmt (at_ 2 14)
      [Stmt.other (at_ 3 3)
        [Stmt.IntegerLiteral (at_ 3 8) 1, Stmt.null,
         Stmt.ReturnStmt (at_ 3 11) Stmt.null]]]

/-- The block `{ int p, q; cout << q; }`. -/
def declsThenPrint : Stmt :=
  Stmt.CompoundStmt (at_ 4 1)
    [Stmt.DeclStmt (at_ 5 3) [intDecl (at_ 5 3) "p", intDecl (at_ 5 10) "q"],
     Stmt.CXXOperatorCallExpr (at_ 6 3) (some PRINT_NAME)
      [cout (at_ 6 3), intVar (at_ 6 11) "q"]]

/-- The declaration `int a{1};`. -/
def braceInit : Decl :=
  Decl.VarDecl (at_ 1 1) false "a"
    { declConst := false, isReferenceType := false, nonLValueConst := false, type := intType }
    true (Stmt.IntegerLiteral (at_ 1 7) 1) InitializationStyle.ListInit

/-- The statement `for (int i, j; ; ) {}`. -/
def forTwoDecls : Stmt :=
  Stmt.ForStmt (at_ 5 3)
    (Stmt.DeclStmt (at_ 5 8) [intDecl (at_ 5 8) "i", intDecl (at_ 5 15) "j"])
    Stmt.null Stmt.null (Stmt.CompoundStmt (at_ 5 24) [])

/-- The statement `while (x) { y; }`. -/
def whileBlock : Stmt :=
  Stmt.WhileStmt (at_ 2 3) none (intVar (at_ 2 10) "x")
    (Stmt.CompoundStmt (at_ 2 13) [intVar (at_ 2 15) "y"])

/-- The expression `1 + 2`. -/
def onePlusTwo : Stmt :=
  Stmt.BinaryOperator (at_ 1 9) BinaryOpcode.Add
    (Stmt.IntegerLiteral (at_ 1 9) 1) (Stmt.IntegerLiteral (at_ 1 13) 2)

/-- The call `f(1)`. -/
def callOne : Stmt :=
  Stmt.CallExpr (at_ 3 3) (some "f") [Stmt.IntegerLiteral (at_ 3 5) 1]

/-- The document of the translation unit `int a{1};`. -/
def braceInitDocument : Json :=
  Json.obj [("id", Json.int 0), ("statements", Json.arr [intDeclNode 1 1 1 "a"])]

/-- The node of `Sample.onePlusTwo` with the ids `id`, `left` and `right` for
the `+` node and its operands. -/
def onePlusTwoNode (id left right : Int) : Json :=
  Json.obj [("id", Json.int id), ("type", Json.str "+"),
    ("left", Json.obj [("type", Json.str "int"), ("value", Json.int 1),
      ("id", Json.int left), ("line", Json.int 1), ("column", Json.int 9)]),
    ("right", Json.obj [("type", Json.str "int"), ("value", Json.int 2),
      ("id", Json.int right), ("line", Json.int 1), ("column", Json.int 13)]),
    ("line", Json.int 1), ("column", Json.int 9)]

/-- The node of `Sample.callOne` lowered by a fresh visitor. -/
def callOneNode : Json :=
  Json.obj [("id", Json.int 0), ("line", Json.int 3), ("column", Json.int 3),
    ("type", Json.str "function-call"), ("name", Json.str "f"),
    ("arguments", Json.arr [Json.obj [("type", Json.str "int"), ("value", Json.int 1),
      ("id", Json.int 1), ("line", Json.int 3), ("column", Json.int 5)]])]

/-- The node of the identifier `a` of `Sample.printA 3` lowered by a fresh visitor. -/
def identifierA : Json :=
  Json.obj [("type", Json.str "identifier"), ("value", Json.str "a"), ("id", Json.int 0),
    ("line", Json.int 3), ("column", Json.int 11)]

/-- The node of `Sample.printA 3` lowered by a fresh visitor. -/
def printANode : Json :=
  Json.obj [("id", Json.int 1), ("line", Json.int 3), ("column", Json.int 3),
    ("type", Json.str "function-call"), ("name", Json.str "print"),
    ("arguments", Json.arr [Json.obj [("type", Json.str "identifier"),
      ("value", Json.str "a"), ("id", Json.int 0), ("line", Json.int 3),
      ("column", Json.int 11)]])]

/-- The node of `Sample.whileBlock` lowered by a fresh visitor. -/
def whileBlockNode : Json :=
  Json.obj [("id", Json.int 0), ("line", Json.int 2), ("column", Json.int 3),
    ("type", Json.str "while"),
    ("condition", Json.obj [("type", Json.str "identifier"), ("value", Json.str "x"),
      ("id", Json.int 1), ("line", Json.int 2), ("column", Json.int 10)]),
    ("block", Json.obj [("id", Json.int 3), ("statements", Json.arr
      [Json.obj [("type", Json.str "identifier"), ("value", Json.str "y"),
        ("id", Json.int 2), ("line", Json.int 2), ("column", Json.int 15)]])])]

/-- The printed form `class std::vector<class std::vector<int> >` of a container
of containers declared with one template parameter: it holds the container
prefix twice and no comma. -/
def nestedWithoutComma : String := "class std::vector<class std::vector<int> >"

/-- The type `std::pair<int, std::vector<int>>`, a record type whose canonical
form holds a comma before the container prefix. -/
def pairOfVector : TypeDesc :=
  { canonical := "struct std::pair<int, class std::vector<int, class std::allocator<int> > >",
    isBooleanType := false, isIntegerType := false, isFloatingType := false,
    isVoidType := false, isAnyCharacterType := false, isStructureType := true,
    recordName := "pair", typeClassName := "Record" }

/-- The block `{ return p.second; }` over a variable `p` of type
`std::pair<int, int>`: the field `second` is declared in a header of the
standard library. -/
def returnPairSecond : Stmt :=
  Stmt.CompoundStmt (at_ 3 1)
    [Stmt.ReturnStmt (at_ 4 3)
      (Stmt.ImplicitCastExpr (at_ 4 10)
        (Stmt.MemberExpr (at_ 4 10) (Stmt.DeclRefExpr (at_ 4 10) "p" "pair<int, int>")
          (Decl.FieldDecl { inMain := false, pos := some (103, 11) } "second" intType)))]


/-- The block `{ int a, b; return n; }` of a member function: the base of the
access to the field `n` is the implicit `this`, an expression without override
and without children, and the access is under its lvalue-to-rvalue cast. -/
def declThenReturnMember : Stmt :=
  Stmt.CompoundStmt (at_ 1 12)
    [twoDecls,
     Stmt.ReturnStmt (at_ 3 3)
      (Stmt.ImplicitCastExpr (at_ 3 10)
        (Stmt.MemberExpr (at_ 3 10) (Stmt.other (at_ 3 10) [])
          (Decl.FieldDecl (at_ 9 7) "n" intType)))]

/-- The block `{ int a, b; return -sizeof(int); }`; the `sizeof` expression is
an expression without override and without children, and the negation is under
its integral cast. -/
def declThenReturnNegSizeof : Stmt :=
  Stmt.CompoundStmt (at_ 1 12)
    [twoDecls,
     Stmt.ReturnStmt (at_ 3 3)
      (Stmt.ImplicitCastExpr (at_ 3 10)
        (Stmt.UnaryOperator (at_ 3 10) UnaryOpcode.Minus (Stmt.other (at_ 3 11) [])))]

/-- The type `void`. -/
def voidType : TypeDesc :=
  { intType with canonical := "void", isIntegerType := false, isVoidType := true }

/-- The top-level declarations `S::S() { int a, b; }` and `void f() = delete;`:
a constructor definition is a declaration without override whose default
traversal visits its body; a deleted function is a definition without body. -/
def constructorThenDeleted : TranslationUnit :=
  [Decl.other (at_ 1 1) [] (Stmt.CompoundStmt (at_ 1 8) [twoDecls]),
   Decl.FunctionDecl (at_ 4 1) "f" voidType [] true Stmt.null]

/-- The members of the record `struct P { int x; P() {} int y; };`, with the
implicit record a class holds for its own name: a constructor is a declaration
without override, whose default traversal visits its parameters and its
body. -/
def membersWithConstructor : List Decl :=
  [Decl.CXXRecordDecl (at_ 1 1) true "P" [],
   Decl.FieldDecl (at_ 1 12) "x" intType,
   Decl.other (at_ 1 19) [] (Stmt.CompoundStmt (at_ 1 23) []),
   Decl.FieldDecl (at_ 1 30) "y" intType]

/-- The members of the record `struct P { int x; P(int a); };`. -/
def membersWithConstructorDecl : List Decl :=
  [Decl.CXXRecordDecl (at_ 1 1) true "P" [],
   Decl.FieldDecl (at_ 1 12) "x" intType,
   Decl.other (at_ 1 19) [intParm 25 "a"] Stmt.null]

end Sample

/-! ## Theorems -/

set_option maxRecDepth 8000

/-- C6: lowering a do-while, break, label or goto statement of the main file
leaves in the result slot the one error message node of its kind, with the
fixed tag and description, whatever the children of the statement are, and the
id counter advances by exactly one: no child is lowered. -/
theorem C6_disallowed_statements (loc : Loc) (body cond subStmt : Stmt) (v : Visitor)
    (h : loc.inMain = true) :
    TraverseStmt (Stmt.DoStmt loc body cond) v =
      Res.ok () { v with
        currentId := v.currentId + 1
        sonValue := messageNode loc "error" "do/while statement"
          "Do/While statements are not allowed" v.currentId } ∧
    TraverseStmt (Stmt.BreakStmt loc) v =
      Res.ok () { v with
        currentId := v.currentId + 1
        sonValue := messageNode loc "error" "break statement"
          "Breaks are not allowed" v.currentId } ∧
    TraverseStmt (Stmt.LabelStmt loc subStmt) v =
      Res.ok () { v with
        currentId := v.currentId + 1
        sonValue := messageNode loc "error" "label" "Labels are not allowed" v.currentId } ∧
    TraverseStmt (Stmt.GotoStmt loc) v =
      Res.ok () { v with
        currentId := v.currentId + 1
        sonValue := messageNode loc "error" "goto" "Goto is not allowed" v.currentId } := by
  obtain ⟨inMain, pos⟩ := loc
  simp only at h
  subst h
  exact ⟨rfl, rfl, rfl, rfl⟩

/-- Witness of C6: a do-while statement at line 3, column 5 whose body is a
return statement, lowered by a fresh visitor. -/
theorem C6_disallowed_statements_witness :
    (Sample.at_ 3 5).inMain = true ∧
    TraverseStmt (Stmt.DoStmt (Sample.at_ 3 5)
        (Stmt.ReturnStmt (Sample.at_ 3 8) (Stmt.IntegerLiteral (Sample.at_ 3 15) 1))
        (Stmt.CXXBoolLiteralExpr (Sample.at_ 3 25) true)) Visitor.init =
      Res.ok () { Visitor.init with
        currentId := 1
        sonValue := Json.obj [("id", Json.int 0), ("line", Json.int 3), ("column", Json.int 5),
          ("type", Json.str "error"), ("value", Json.str "do/while statement"),
          ("description", Json.str "Do/While statements are not allowed")] } :=
  ⟨rfl, (C6_disallowed_statements (Sample.at_ 3 5) _ _ Stmt.null Visitor.init rfl).1⟩

/-- C7: a binary expression of the main file whose operator is the comma
operator lowers to the one warning message node with tag `comma operator`,
whatever its operands are; the id counter advances by exactly one and the node
has neither a `left` nor a `right` member. -/
theorem C7_comma_operator (loc : Loc) (lhs rhs : Stmt) (v : Visitor)
    (h : loc.inMain = true) :
    TraverseStmt (Stmt.BinaryOperator loc BinaryOpcode.Comma lhs rhs) v =
      Res.ok () { v with
        currentId := v.currentId + 1
        sonValue := messageNode loc "warning" "comma operator"
          "We recommend not using the comma operator!" v.currentId } ∧
    (messageNode loc "warning" "comma operator"
      "We recommend not using the comma operator!" v.currentId).hasField "left" = false ∧
    (messageNode loc "warning" "comma operator"
      "We recommend not using the comma operator!" v.currentId).hasField "right" = false := by
  obtain ⟨inMain, pos⟩ := loc
  simp only at h
  subst h
  exact ⟨rfl, rfl, rfl⟩

/-- Witness of C7: the expression `x++, 0` at line 2, column 7, lowered by a
fresh visitor. -/
theorem C7_comma_operator_witness :
    (Sample.at_ 2 7).inMain = true ∧
    TraverseStmt (Stmt.BinaryOperator (Sample.at_ 2 7) BinaryOpcode.Comma
        (Stmt.UnaryOperator (Sample.at_ 2 7) UnaryOpcode.PostInc
          (Stmt.DeclRefExpr (Sample.at_ 2 7) "x" "int"))
        (Stmt.IntegerLiteral (Sample.at_ 2 12) 0)) Visitor.init =
      Res.ok () { Visitor.init with
        currentId := 1
        sonValue := Json.obj [("id", Json.int 0), ("line", Json.int 2), ("column", Json.int 7),
          ("type", Json.str "warning"), ("value", Json.str "comma operator"),
          ("description", Json.str "We recommend not using the comma operator!")] } :=
  ⟨rfl, (C7_comma_operator (Sample.at_ 2 7) _ _ Visitor.init rfl).1⟩

/-! ### The type mapper leaves the result slot alone -/

theorem wrapVector_visitor (depth : Nat) (actTypeValue : Json) (v : Visitor) :
    (wrapVector depth actTypeValue v).2 = { v with currentId := v.currentId + depth } := by
  induction depth generalizing actTypeValue v with
  | zero => rfl
  | succ n ih =>
    simp only [wrapVector, addId, ih]
    congr 1
    omega

theorem createVectorValue_visitor {typeName : String} {v v1 : Visitor} {j : Json}
    (h : createVectorValue typeName v = Res.ok j v1) :
    v1.sonValue = v.sonValue ∧ v1.iofunctionStarted = v.iofunctionStarted ∧
      v.currentId < v1.currentId := by
  unfold createVectorValue at h
  split at h
  · cases h
  · split at h
    · cases h
    · cases h
    · simp only [addId] at h
      injection h with h1 h2
      rw [← h2, wrapVector_visitor]
      simp
      omega

theorem createTypeValue_visitor {type : TypeDesc} {v v1 : Visitor} {j : Json}
    (h : createTypeValue type v = Res.ok j v1) :
    v1.sonValue = v.sonValue ∧ v1.iofunctionStarted = v.iofunctionStarted ∧
      v.currentId < v1.currentId := by
  unfold createTypeValue at h
  split at h
  · exact createVectorValue_visitor h
  · simp only [createTypeValueStr, addId] at h
    injection h with h1 h2
    rw [← h2]
    simp

/-! ### Claims -/

/-- C1, evaluated at the block `{ int a, b; cout << a; }`: the print call has
three arguments, two `Null` values left in the result slot by the declaration
statement and then the lowering of `a`, where the claim has exactly one. -/
theorem C1_print_after_declarations :
    TraverseStmt Sample.declThenPrint Visitor.init =
      Res.ok () { Visitor.init with
        currentId := 6
        sonValue := Json.arr [Sample.intDeclNode 0 2 3 "a", Sample.intDeclNode 2 2 10 "b",
          Json.obj [("id", Json.int 5), ("line", Json.int 3), ("column", Json.int 3),
            ("type", Json.str "function-call"), ("name", Json.str "print"),
            ("arguments", Json.arr [Json.null, Json.null,
              Json.obj [("type", Json.str "identifier"), ("value", Json.str "a"),
                ("id", Json.int 4), ("line", Json.int 3), ("column", Json.int 11)]])]] } := by
  rfl

/-- C3, evaluated at the definition `void f() { int a, b; typedef int A, B; }`:
the statements of the block of the function are the two variable declarations,
then an array of two `Null` values and a `Null` value, where the claim has
object nodes only. -/
theorem C3_block_with_array_and_null :
    (TraverseDecl Sample.typedefAfterDecls Visitor.init).sonField? "block" =
      some (Json.obj [("id", Json.int 6), ("statements", Json.arr
        [Sample.intDeclNode 2 2 3 "a", Sample.intDeclNode 4 2 10 "b",
         Json.arr [Json.null, Json.null], Json.null])]) := by
  rfl

/-- A member access `a.b` of the main file whose member `b` is a field declared
in the main file lowers to a `[]` node whose `left` is what the result slot
holds once `a` has been traversed, the node of `a` when `a` produces one, and
whose `right` is the lowered field with `type` set to `string`, its name under
`value`, and neither `data-type` nor `name`. -/
theorem memberExpr_main_file_field (loc fieldLoc : Loc) (base : Stmt) (fieldName : String)
    (fieldType : TypeDesc) (v v1 v2 : Visitor) (dataType : Json)
    (h : loc.inMain = true) (hfield : fieldLoc.inMain = true)
    (hbase : TraverseStmt base v = Res.ok () v1)
    (htype : createTypeValue fieldType (addId [] { v1 with sonValue := Json.null }).2
      = Res.ok dataType v2) :
    TraverseStmt (Stmt.MemberExpr loc base (Decl.FieldDecl fieldLoc fieldName fieldType)) v =
      Res.ok () { v2 with
        currentId := v2.currentId + 1
        sonValue := Json.obj (addPos
          [("id", idValue v2.currentId), ("type", Json.str "[]"),
           ("left", v1.sonValue),
           ("right", Json.obj (addPos [("id", idValue v1.currentId)] fieldLoc ++
              [("type", Json.str "string"), ("value", Json.str fieldName)]))] loc) } ∧
    (Json.obj (addPos [("id", idValue v1.currentId)] fieldLoc ++
      [("type", Json.str "string"), ("value", Json.str fieldName)])).hasField "data-type"
        = false ∧
    (Json.obj (addPos [("id", idValue v1.currentId)] fieldLoc ++
      [("type", Json.str "string"), ("value", Json.str fieldName)])).hasField "name"
        = false := by
  have hv := createTypeValue_visitor htype
  simp only [addId] at htype hv
  refine ⟨?_, ?_, ?_⟩
  · simp only [TraverseStmt, TraverseDecl, Stmt.skipped, Stmt.loc?, Decl.loc, h, hfield, hbase,
      TRY_TO, addId, htype]
    rw [hv.1]
    simp [memberRewrite, Json.eraseMember, Json.findMember, Json.nullMember, addPos, addLine,
      addCol, createBinOpValue, addId]
  · simp [Json.hasField, Json.field, Json.findMember, addPos, addLine, addCol]
  · simp [Json.hasField, Json.field, Json.findMember, addPos, addLine, addCol]

/-- The access `s.n` to a field declared in the main file, lowered by a fresh
visitor. -/
theorem memberExpr_main_file_field_example :
    (Sample.at_ 9 10).inMain = true ∧ (Sample.at_ 2 7).inMain = true ∧
    TraverseStmt Sample.structField Visitor.init =
      Res.ok () { Visitor.init with
        currentId := 4
        sonValue := Json.obj
          [("id", Json.int 3), ("type", Json.str "[]"),
           ("left", Json.obj [("type", Json.str "identifier"), ("value", Json.str "s"),
              ("id", Json.int 0), ("line", Json.int 9), ("column", Json.int 10)]),
           ("right", Json.obj [("id", Json.int 1), ("line", Json.int 2), ("column", Json.int 7),
              ("type", Json.str "string"), ("value", Json.str "n")]),
           ("line", Json.int 9), ("column", Json.int 10)] } :=
  ⟨rfl, rfl, (memberExpr_main_file_field (Sample.at_ 9 10) (Sample.at_ 2 7)
    (Stmt.DeclRefExpr (Sample.at_ 9 10) "s" "struct S") "n" Sample.intType Visitor.init
    { Visitor.init with
      currentId := 1
      sonValue := Json.obj [("type", Json.str "identifier"), ("value", Json.str "s"),
        ("id", Json.int 0), ("line", Json.int 9), ("column", Json.int 10)] }
    { Visitor.init with currentId := 3 }
    (Json.obj [("id", Json.int 2), ("name", Json.str "int")]) rfl rfl rfl rfl).1⟩

/-- C4, evaluated at `p.first` for a `std::pair` variable `p`: the field is
declared outside the main file, `TraverseDecl` skips it, and the rewriting of
the empty result slot fails an assertion of the JSON library, where the claim
has a `[]` node. -/
theorem C4_member_of_header_record :
    TraverseStmt Sample.pairFirst Visitor.init = Res.abort := by
  rfl

/-- The access to the field `n` through the implicit `this`, in the block
`{ int a, b; return n; }` of a member function: the base lowers to no node, and
the `left` of the `[]` node is the array of two `Null` values that the
declaration statement left in the result slot. -/
theorem memberExpr_implicit_this :
    TraverseStmt Sample.declThenReturnMember Visitor.init =
      Res.ok () { Visitor.init with
        currentId := 8
        sonValue := Json.arr [Sample.intDeclNode 0 2 3 "a", Sample.intDeclNode 2 2 10 "b",
          Json.obj [("id", Json.int 4), ("line", Json.int 3), ("column", Json.int 3),
            ("type", Json.str "return"),
            ("expression", Json.obj [("id", Json.int 7), ("type", Json.str "[]"),
              ("left", Json.arr [Json.null, Json.null]),
              ("right", Json.obj [("id", Json.int 5), ("line", Json.int 9),
                ("column", Json.int 7), ("type", Json.str "string"),
                ("value", Json.str "n")]),
              ("line", Json.int 3), ("column", Json.int 10)])]] } := by
  rfl

/-- C8: a variable declaration of the main file lowers to a node whose
`is-reference` tells whether the declared type is a reference type, whose
`is-const` is true exactly when the declared type or its non-reference type is
const-qualified, and whose `data-type` is the node the type mapper returns for
the non-reference type; the declaration `const int& r = x;` gets
`is-reference` and `is-const` true and a `data-type` node named `int`. -/
theorem C8_variable_flags (loc : Loc) (isParm : Bool) (name : String) (type : VarType)
    (hasInit : Bool) (init : Stmt) (initStyle : InitializationStyle) (v v1 v2 : Visitor)
    (dataType : Json) (h : loc.inMain = true)
    (htype : createTypeValue type.type (addId [] v).2 = Res.ok dataType v1)
    (hinit : TraverseStmt init v1 = Res.ok () v2) :
    (∃ v3, TraverseDecl (Decl.VarDecl loc isParm name type hasInit init initStyle) v
        = Res.ok () v3 ∧
      v3.sonValue.field "is-reference" = some (Json.bool type.isReferenceType) ∧
      v3.sonValue.field "is-const" = some (Json.bool (type.declConst || type.nonLValueConst)) ∧
      v3.sonValue.field "data-type" = some dataType) ∧
    (TraverseDecl Sample.constRefInt Visitor.init).sonField? "is-reference"
      = some (Json.bool true) ∧
    (TraverseDecl Sample.constRefInt Visitor.init).sonField? "is-const"
      = some (Json.bool true) ∧
    (TraverseDecl Sample.constRefInt Visitor.init).sonField? "data-type"
      = some (Json.obj [("id", Json.int 1), ("name", Json.str "int")]) := by
  refine ⟨?_, rfl, rfl, rfl⟩
  simp only [addId] at htype
  simp only [TraverseDecl, Decl.loc, h, addId, htype, TRY_TO, hinit]
  cases isParm <;> cases hasInit <;> cases initStyle <;>
    cases h1 : type.type.isStructureType <;> cases h2 : isSTLVectorType type.type.canonical <;>
    cases h3 : v2.sonValue.IsNull <;>
    simp [Json.field, Json.findMember, addPos, addLine, addCol, h3]

/-- Witness of C8: the parameter `const double& d` at line 1, column 14,
lowered by a fresh visitor. -/
theorem C8_variable_flags_witness :
    (Sample.at_ 1 14).inMain = true ∧
    ∃ v3, TraverseDecl (Decl.VarDecl (Sample.at_ 1 14) true "d"
        { declConst := false, isReferenceType := true, nonLValueConst := true,
          type := { Sample.intType with
            canonical := "double", isIntegerType := false, isFloatingType := true } }
        false Stmt.null InitializationStyle.CInit) Visitor.init = Res.ok () v3 ∧
      v3.sonValue.field "is-reference" = some (Json.bool true) ∧
      v3.sonValue.field "is-const" = some (Json.bool (false || true)) ∧
      v3.sonValue.field "data-type"
        = some (Json.obj [("id", Json.int 1), ("name", Json.str "double")]) :=
  ⟨rfl, (C8_variable_flags (Sample.at_ 1 14) true "d"
    { declConst := false, isReferenceType := true, nonLValueConst := true,
      type := { Sample.intType with
        canonical := "double", isIntegerType := false, isFloatingType := true } }
    false Stmt.null InitializationStyle.CInit Visitor.init
    { Visitor.init with currentId := 2 } { Visitor.init with currentId := 2 }
    (Json.obj [("id", Json.int 1), ("name", Json.str "double")]) rfl rfl rfl).1⟩

/-- C9: the statement `if (x > 0) { return x; } else { return 0; }` lowers to
one `conditional` node whose condition is a `>` node over the identifier `x` and
the integer literal `0`, whose `then` is a block of one `return` node over the
identifier `x`, and whose `else` is a block of one `return` node over the
integer literal `0`; this holds from every visitor state and for every
placement of the nodes in the main file. -/
theorem C9_conditional_example (pos : Nat → Option (Nat × Nat)) (v : Visitor) :
    TraverseStmt (Sample.ifExample pos) v =
      Res.ok () { currentId := v.currentId + 10,
                  sonValue := Sample.ifExpected pos v.currentId,
                  iofunctionStarted := v.iofunctionStarted } := by
  simp [Sample.ifExample, Sample.intVar, TraverseStmt, TraverseCompoundBody, Stmt.skipped,
    Stmt.loc?, TRY_TO, Stmt.isNonNull, addId, createBlockValue, ensureSonIsArray,
    createBinOpValue, binaryOpString, mapFind, BINARY_OP_MAPPING, BinaryOpcode.getOpcodeStr,
    List.lookup, PRINT_TYPE, READ_TYPE, PRINT_FLAG_TYPE, createIdentifierValue,
    createIntegerValue, Json.IsArray, Json.IsNull, Sample.ifExpected, Sample.posOf, addPos,
    addLine, addCol, Nat.add_assoc]


/-- C10, as amended: for an increment or decrement of the main file whose
operand lowers, the node type has the underscore where the operand stands:
before the symbol for the postfix forms (`x++` gives `_++`, `x--` gives `_--`)
and after it for the prefix forms (`++x` gives `++_`, `--x` gives `--_`); the
member `expression` is the lowered operand. -/
theorem C10_increment_names (loc : Loc) (subExpr : Stmt) (v v1 : Visitor)
    (h : loc.inMain = true) (hsub : TraverseStmt subExpr v = Res.ok () v1) :
    (TraverseStmt (Stmt.UnaryOperator loc UnaryOpcode.PostInc subExpr) v).sonField? "type"
      = some (Json.str "_++") ∧
    (TraverseStmt (Stmt.UnaryOperator loc UnaryOpcode.PreInc subExpr) v).sonField? "type"
      = some (Json.str "++_") ∧
    (TraverseStmt (Stmt.UnaryOperator loc UnaryOpcode.PostDec subExpr) v).sonField? "type"
      = some (Json.str "_--") ∧
    (TraverseStmt (Stmt.UnaryOperator loc UnaryOpcode.PreDec subExpr) v).sonField? "type"
      = some (Json.str "--_") ∧
    ∀ opcode, (TraverseStmt (Stmt.UnaryOperator loc opcode subExpr) v).sonField? "expression"
      = some v1.sonValue := by
  refine ⟨?_, ?_, ?_, ?_, ?_⟩
  all_goals
    simp [TraverseStmt, Stmt.skipped, Stmt.loc?, h, hsub, TRY_TO, addId, unaryOpString, mapFind,
      UNARY_OP_MAPPING, UnaryOpcode.getOpcodeStr, UnaryOpcode.isPrefixOp, List.lookup,
      Res.sonField?, Res.son?, Json.field, Json.findMember, addPos, addLine, addCol]

/-- Witness of C10: the increments and decrements of the variable `x` at
line 1, column 1, lowered by a fresh visitor. -/
theorem C10_increment_names_witness :
    (Sample.at_ 1 1).inMain = true ∧
    (TraverseStmt (Stmt.UnaryOperator (Sample.at_ 1 1) UnaryOpcode.PreInc
      (Stmt.DeclRefExpr (Sample.at_ 1 1) "x" "int")) Visitor.init).sonField? "type"
      = some (Json.str "++_") :=
  ⟨rfl, (C10_increment_names (Sample.at_ 1 1) (Stmt.DeclRefExpr (Sample.at_ 1 1) "x" "int")
    Visitor.init
    { Visitor.init with
      currentId := 1
      sonValue := Json.obj [("type", Json.str "identifier"), ("value", Json.str "x"),
        ("id", Json.int 0), ("line", Json.int 1), ("column", Json.int 1)] }
    rfl rfl).2.1⟩

/-- C10, as stated, fails at `x++`: the node type is `_++`, not `++_`. -/
theorem C10_postfix_counterexample :
    (TraverseStmt Sample.postIncX Visitor.init).sonField? "type" = some (Json.str "_++") ∧
    (TraverseStmt Sample.postIncX Visitor.init).sonField? "type" ≠ some (Json.str "++_") := by
  have h : (TraverseStmt Sample.postIncX Visitor.init).sonField? "type"
      = some (Json.str "_++") := by rfl
  refine ⟨h, ?_⟩
  rw [h]
  simp

/-! ### The scanning loop of `createVectorValue` on nested signatures -/

theorem VECTOR_TYPE_length : VECTOR_TYPE.data.length = 18 := by decide

theorem nestPrefix_length (d : Nat) : (nestPrefix d).length = 18 * d := by
  induction d with
  | zero => rfl
  | succ n ih => simp only [nestPrefix, List.length_append, ih, VECTOR_TYPE_length]; omega

theorem findAux_of_isPrefixOf (pat : List Char) (c : Char) (cs : List Char) (i : Nat)
    (h : pat.isPrefixOf (c :: cs) = true) : findAux pat (c :: cs) i = i := by
  simp [findAux, h]

theorem findAux_char (c : Char) (a rest : List Char) (i : Nat) (h : c ∉ a) :
    findAux [c] (a ++ c :: rest) i = i + a.length := by
  induction a generalizing i with
  | nil => simp [findAux, List.isPrefixOf]
  | cons x a ih =>
    have hx : c ≠ x := fun e => h (by simp [e])
    have ha : c ∉ a := fun e => h (by simp [e])
    simp only [List.cons_append, findAux, List.isPrefixOf, List.length_cons]
    have : (c == x) = false := by simpa using hx
    simp only [this, Bool.false_and, ite_false, Bool.false_eq_true]
    have := ih (i + 1) ha
    simp only [List.append_eq] at this ⊢
    rw [this]
    omega

theorem findAux_result (pat s : List Char) (i : Nat) :
    findAux pat s i = npos ∨
      ∃ j, j ≤ s.length ∧ findAux pat s i = i + j ∧ pat.isPrefixOf (s.drop j) = true := by
  induction s generalizing i with
  | nil =>
    by_cases hp : pat.isEmpty = true
    · right
      refine ⟨0, Nat.le_refl _, by simp [findAux, hp], ?_⟩
      cases pat with
      | nil => rfl
      | cons p ps => simp at hp
    · left
      simp [findAux, hp]
  | cons c cs ih =>
    by_cases hp : pat.isPrefixOf (c :: cs) = true
    · right
      exact ⟨0, Nat.zero_le _, by simp [findAux, hp], by simpa using hp⟩
    · simp only [findAux, hp, ite_false, Bool.false_eq_true]
      rcases ih (i + 1) with h | ⟨j, hj, he, hpre⟩
      · left; exact h
      · right
        refine ⟨j + 1, by simp; omega, by rw [he]; omega, by simpa using hpre⟩

theorem isPrefixOf_append_cons (pat e rest : List Char) (c : Char)
    (h : pat.isPrefixOf (e ++ c :: rest) = true) : pat.isPrefixOf e = true ∨ c ∈ pat := by
  induction pat generalizing e with
  | nil => left; simp [List.isPrefixOf]
  | cons p ps ih =>
    cases e with
    | nil =>
      simp only [List.nil_append, List.isPrefixOf, Bool.and_eq_true, beq_iff_eq] at h
      right; simp [h.1]
    | cons x e =>
      simp only [List.cons_append, List.isPrefixOf, Bool.and_eq_true, beq_iff_eq] at h
      rcases ih e h.2 with h1 | h1
      · left; simp [List.isPrefixOf, h.1, h1]
      · right; simp [h1]

theorem findAux_npos (pat s : List Char) (i : Nat) (hi : i + s.length < npos)
    (h : findAux pat s i = npos) : ∀ j, j ≤ s.length → pat.isPrefixOf (s.drop j) = false := by
  induction s generalizing i with
  | nil =>
    intro j _
    by_cases hp : pat.isEmpty = true
    · simp [findAux, hp] at h
      simp at hi
      omega
    · cases pat with
      | nil => simp at hp
      | cons p ps => simp [List.isPrefixOf]
  | cons c cs ih =>
    intro j hj
    by_cases hp : pat.isPrefixOf (c :: cs) = true
    · simp [findAux, hp] at h
      simp at hi
      omega
    · simp only [findAux, hp, ite_false, Bool.false_eq_true] at h
      cases j with
      | zero => simpa only [List.drop_zero, Bool.not_eq_true] using hp
      | succ j =>
        simp only [List.drop_succ_cons]
        exact ih (i + 1) (by simp at hi; omega) h j (by simp at hj; omega)


theorem nestPrefix_succ_add (m k : Nat) :
    nestPrefix (m + 1 + k) = VECTOR_TYPE.data ++ nestPrefix (m + k) := by
  rw [Nat.add_right_comm]
  rfl

theorem drop_nestPrefix (m k : Nat) (t : List Char) :
    (nestPrefix (m + k) ++ t).drop (18 * m) = nestPrefix k ++ t := by
  induction m with
  | zero => simp
  | succ m ih =>
    rw [nestPrefix_succ_add, List.append_assoc,
      show 18 * (m + 1) = VECTOR_TYPE.data.length + 18 * m by rw [VECTOR_TYPE_length]; omega,
      List.drop_append, ih]

theorem strFind_nest (pat : List Char) (m k : Nat) (t : List Char) :
    strFind (nestPrefix (m + k) ++ t) pat (18 * m) = findAux pat (nestPrefix k ++ t) (18 * m) := by
  unfold strFind
  rw [drop_nestPrefix]
  have : ¬ 18 * m > (nestPrefix (m + k) ++ t).length := by
    rw [List.length_append, nestPrefix_length]
    omega
  simp only [this, ite_false]

theorem comma_not_mem_nestPrefix (k : Nat) : ',' ∉ nestPrefix k := by
  induction k with
  | zero => simp [nestPrefix]
  | succ k ih =>
    simp only [nestPrefix, List.mem_append, not_or]
    exact ⟨by decide, ih⟩

theorem mapFind_vector (x : String) : mapFind VECTOR_TYPE_MAPPING "vector" x = x := by
  rfl

theorem vectorLoop_nest (elem rest : List Char) (hcomma : ',' ∉ elem)
    (hno : ∀ j, j ≤ elem.length → VECTOR_TYPE.data.isPrefixOf (elem.drop j) = false) (k : Nat) :
    ∀ (m depth fuel : Nat), k < fuel → depth < UINT_MOD →
      (nestPrefix (m + k) ++ (elem ++ ',' :: rest)).length < npos →
      vectorLoop (nestPrefix (m + k) ++ (elem ++ ',' :: rest)) fuel (18 * m) depth
        = VectorScan.done ((depth + k) % UINT_MOD) (String.mk elem) := by
  induction k with
  | zero =>
    intro m depth fuel hfuel hdepth hlen
    obtain ⟨fuel, rfl⟩ : ∃ f, fuel = f + 1 := ⟨fuel - 1, by omega⟩
    have hlen2 : 18 * m + elem.length + 1 + rest.length < npos := by
      simp only [List.length_append, nestPrefix_length, List.length_cons] at hlen
      omega
    have hcommaPos : strFind (nestPrefix (m + 0) ++ (elem ++ ',' :: rest)) [','] (18 * m)
        = 18 * m + elem.length := by
      rw [strFind_nest]
      simp only [nestPrefix, List.nil_append]
      exact findAux_char ',' elem rest _ hcomma
    have hvectorPos : 18 * m + elem.length <
        strFind (nestPrefix (m + 0) ++ (elem ++ ',' :: rest)) VECTOR_TYPE.data (18 * m) := by
      rw [strFind_nest]
      simp only [nestPrefix, List.nil_append]
      rcases findAux_result VECTOR_TYPE.data (elem ++ ',' :: rest) (18 * m) with h | ⟨j, _, he, hp⟩
      · rw [h]; omega
      · rw [he]
        by_contra hle
        have hj : j ≤ elem.length := by omega
        rw [List.drop_append_of_le_length hj] at hp
        rcases isPrefixOf_append_cons _ _ _ _ hp with h1 | h1
        · rw [hno j hj] at h1
          cases h1
        · revert h1
          decide
    have hsub : substr (nestPrefix (m + 0) ++ (elem ++ ',' :: rest)) (18 * m)
        ((18 * m + elem.length + SIZE_MOD - 18 * m) % SIZE_MOD) = some elem := by
      unfold substr
      have h1 : ¬ 18 * m > (nestPrefix (m + 0) ++ (elem ++ ',' :: rest)).length := by
        rw [List.length_append, nestPrefix_length]
        omega
      have h2 : (18 * m + elem.length + SIZE_MOD - 18 * m) % SIZE_MOD = elem.length := by
        have : elem.length < SIZE_MOD := by
          unfold npos at hlen2
          omega
        rw [show 18 * m + elem.length + SIZE_MOD - 18 * m = elem.length + SIZE_MOD by omega,
          Nat.add_mod_right, Nat.mod_eq_of_lt this]
      rw [h2]
      simp only [h1, ite_false, drop_nestPrefix, nestPrefix, List.nil_append]
      simp
    simp only [Nat.add_zero] at hcommaPos hvectorPos hsub ⊢
    rw [← hcommaPos] at hvectorPos
    unfold vectorLoop
    simp only [hvectorPos, ite_true]
    rw [hcommaPos, hsub]
    simp only [mapFind_vector]
    rw [Nat.mod_eq_of_lt hdepth]
  | succ k ih =>
    intro m depth fuel hfuel hdepth hlen
    obtain ⟨fuel, rfl⟩ : ∃ f, fuel = f + 1 := ⟨fuel - 1, by omega⟩
    have hlen2 : 18 * (m + (k + 1)) + elem.length + 1 + rest.length < npos := by
      simp only [List.length_append, nestPrefix_length, List.length_cons] at hlen
      omega
    have hcommaPos : strFind (nestPrefix (m + (k + 1)) ++ (elem ++ ',' :: rest)) [','] (18 * m)
        = 18 * m + (18 * (k + 1) + elem.length) := by
      rw [strFind_nest, ← List.append_assoc,
        findAux_char ',' (nestPrefix (k + 1) ++ elem) rest _
          (by simp only [List.mem_append, not_or]; exact ⟨comma_not_mem_nestPrefix _, hcomma⟩)]
      simp only [List.length_append, nestPrefix_length]
    have hvectorPos :
        strFind (nestPrefix (m + (k + 1)) ++ (elem ++ ',' :: rest)) VECTOR_TYPE.data (18 * m)
          = 18 * m := by
      rw [strFind_nest]
      simp only [nestPrefix, List.append_assoc]
      exact findAux_of_isPrefixOf _ 'c' _ _ (by
        rw [List.isPrefixOf_iff_prefix]
        exact List.prefix_append _ _)
    unfold vectorLoop
    simp only [hcommaPos, hvectorPos]
    have hnot : ¬ (18 * m + (18 * (k + 1) + elem.length) < 18 * m) := by omega
    simp only [hnot, ite_false]
    have hpos : (18 * m + VECTOR_TYPE.length) % SIZE_MOD = 18 * (m + 1) := by
      have : VECTOR_TYPE.length = 18 := VECTOR_TYPE_length
      rw [this, Nat.mod_eq_of_lt]
      · omega
      · unfold npos at hlen2
        omega
    rw [hpos]
    have hrec := ih (m + 1) ((depth + 1) % UINT_MOD) fuel (by omega)
      (Nat.mod_lt _ (by decide)) (by rw [show m + 1 + k = m + (k + 1) by omega]; exact hlen)
    rw [show m + 1 + k = m + (k + 1) by omega] at hrec
    rw [hrec]
    congr 1
    unfold UINT_MOD
    omega


theorem wrapVector_vectorType (elem : String) (c n : Nat) :
    ∀ (k : Nat) (v : Visitor), v.currentId = c + k + 1 →
      wrapVector n (vectorType elem c k) v
        = (vectorType elem c (k + n), { v with currentId := c + k + 1 + n }) := by
  induction n with
  | zero =>
    intro k v hv
    simp only [wrapVector, Nat.add_zero]
    rw [← hv]
  | succ n ih =>
    intro k v hv
    simp only [wrapVector, addId, List.nil_append, List.cons_append, hv]
    have := ih (k + 1) { v with currentId := c + k + 1 + 1 } rfl
    simp only [vectorType] at this
    rw [this]
    simp only [Prod.mk.injEq]
    exact ⟨by rw [Nat.add_assoc k 1 n, Nat.add_comm 1 n], by congr 1; omega⟩

theorem isSTLVectorType_signature (d : Nat) (elem rest : String) (hd : 1 ≤ d) :
    isSTLVectorType (vectorSignature d elem rest) = true := by
  obtain ⟨d, rfl⟩ : ∃ n, d = n + 1 := ⟨d - 1, by omega⟩
  have h : strFind (vectorSignature (d + 1) elem rest).data VECTOR_TYPE.data 0 = 0 := by
    simp only [vectorSignature, nestPrefix, strFind, List.drop_zero]
    simp only [Nat.not_lt_zero, gt_iff_lt, ite_false, List.append_assoc]
    exact findAux_of_isPrefixOf _ 'c' _ _ (by
      rw [List.isPrefixOf_iff_prefix]
      exact List.prefix_append _ _)
  unfold isSTLVectorType
  rw [h]
  decide

theorem createVectorValue_signature (d : Nat) (elem rest : String) (v : Visitor)
    (hd : 1 ≤ d) (hcomma : ',' ∉ elem.data)
    (hvec : strFind elem.data VECTOR_TYPE.data 0 = npos)
    (hlen : (vectorSignature d elem rest).length < npos) :
    createVectorValue (vectorSignature d elem rest) v =
      Res.ok (vectorType elem v.currentId (d % UINT_MOD))
        { v with currentId := v.currentId + d % UINT_MOD + 1 } := by
  have hlen1 : (nestPrefix d ++ (elem.data ++ ',' :: rest.data)).length < npos := hlen
  have hlen2 : 18 * d + elem.data.length + 1 + rest.data.length < npos := by
    simp only [List.length_append, nestPrefix_length, List.length_cons] at hlen1
    omega
  have hno : ∀ j, j ≤ elem.data.length → VECTOR_TYPE.data.isPrefixOf (elem.data.drop j) = false := by
    apply findAux_npos VECTOR_TYPE.data elem.data 0 (by omega)
    simpa [strFind] using hvec
  have hloop := vectorLoop_nest elem.data rest.data hcomma hno d 0 0
    (vectorFuel (vectorSignature d elem rest).data)
    (by
      show d < 2 * (nestPrefix d ++ (elem.data ++ ',' :: rest.data)).length + 4
      simp only [List.length_append, nestPrefix_length]
      omega)
    (by decide) (by rw [Nat.zero_add]; exact hlen1)
  simp only [Nat.zero_add, Nat.mul_zero] at hloop
  unfold createVectorValue
  rw [isSTLVectorType_signature d elem rest hd]
  simp only [Bool.not_true, Bool.false_eq_true, ite_false]
  have hdata : (vectorSignature d elem rest).data = nestPrefix d ++ (elem.data ++ ',' :: rest.data) := rfl
  rw [hdata] at hloop ⊢
  rw [hloop]
  have := wrapVector_vectorType elem v.currentId (d % UINT_MOD) 0
    { v with currentId := v.currentId + 1 } rfl
  simp only [vectorType, Nat.zero_add, Nat.add_zero] at this
  simp only [addId, List.nil_append, List.singleton_append]
  change Res.ok (wrapVector (d % UINT_MOD) (Json.obj [("id", idValue v.currentId),
    ("name", Json.str elem)]) { v with currentId := v.currentId + 1 }).1
    (wrapVector (d % UINT_MOD) (Json.obj [("id", idValue v.currentId),
    ("name", Json.str elem)]) { v with currentId := v.currentId + 1 }).2 = _
  rw [this]
  simp only [Res.ok.injEq, true_and]
  congr 1
  omega

/-- C5, as amended: for every depth `1 <= d < 2^32` and every signature shorter
than `npos` made of `d` container prefixes, an element text with neither a
comma nor the prefix, and a comma, `createVectorValue` returns `d` nested nodes
named `vector`, each holding the next level in `data-type`, around one leaf
node named by the element text. -/
theorem C5_nested_vector (d : Nat) (elem rest : String) (v : Visitor)
    (hd : 1 ≤ d) (hdepth : d < 2 ^ 32) (hcomma : ',' ∉ elem.data)
    (hvec : strFind elem.data VECTOR_TYPE.data 0 = npos)
    (hlen : (vectorSignature d elem rest).length < npos) :
    createVectorValue (vectorSignature d elem rest) v =
      Res.ok (vectorType elem v.currentId d) { v with currentId := v.currentId + d + 1 } := by
  have h := createVectorValue_signature d elem rest v hd hcomma hvec hlen
  have hmod : d % UINT_MOD = d := Nat.mod_eq_of_lt hdepth
  rw [hmod] at h
  exact h

/-- Witness of C5: the canonical type of `vector<vector<int>>`, depth 2 over
`int`, mapped by a fresh visitor. -/
theorem C5_nested_vector_witness :
    (1 ≤ 2 ∧ 2 < 2 ^ 32 ∧ ',' ∉ "int".data ∧
      strFind "int".data VECTOR_TYPE.data 0 = npos ∧
      (vectorSignature 2 "int" Sample.allocatorRest).length < npos) ∧
    vectorSignature 2 "int" Sample.allocatorRest =
      "class std::vector<class std::vector<int, class std::allocator<int> >, " ++
      "class std::allocator<class std::vector<int, class std::allocator<int> > > >" ∧
    createVectorValue (vectorSignature 2 "int" Sample.allocatorRest) Visitor.init =
      Res.ok (Json.obj [("id", Json.int 2), ("name", Json.str "vector"),
          ("data-type", Json.obj [("id", Json.int 1), ("name", Json.str "vector"),
            ("data-type", Json.obj [("id", Json.int 0), ("name", Json.str "int")])])])
        { Visitor.init with currentId := 3 } :=
  ⟨⟨by decide, by decide, by decide, by decide, by decide⟩, by decide,
    C5_nested_vector 2 "int" Sample.allocatorRest Visitor.init (by decide) (by decide)
      (by decide) (by decide) (by decide)⟩

/-- C5, as stated, fails at depth `2^32` over `int`: the 32-bit counter `depth`
is back at 0 when the scan ends, and the result is the bare leaf node, without
any node named `vector`. -/
theorem C5_depth_wraps :
    createVectorValue (vectorSignature (2 ^ 32) "int" Sample.allocatorRest) Visitor.init =
      Res.ok (Json.obj [("id", Json.int 0), ("name", Json.str "int")])
        { Visitor.init with currentId := 1 } := by
  have hlen : (vectorSignature (2 ^ 32) "int" Sample.allocatorRest).length < npos := by
    show (nestPrefix (2 ^ 32) ++ ("int".data ++ ',' :: Sample.allocatorRest.data)).length < npos
    rw [List.length_append, nestPrefix_length]
    decide
  have h := createVectorValue_signature (2 ^ 32) "int" Sample.allocatorRest Visitor.init
    (by decide) (by decide) (by decide) hlen
  have hmod : 2 ^ 32 % UINT_MOD = 0 := by decide
  rw [hmod] at h
  exact h

/-! ### Claims C11 to C20 -/

theorem TRY_TO_eq_ok {α β : Type} {r : Res α} {k : α → Visitor → Res β} {b : β} {w : Visitor}
    (h : TRY_TO r k = Res.ok b w) : ∃ a v1, r = Res.ok a v1 ∧ k a v1 = Res.ok b w := by
  cases r with
  | ok a v1 => exact ⟨a, v1, rfl, h⟩
  | stop v1 => cases h
  | abort => cases h
  | hang => cases h

/-- Operator nodes of the main file are named by the fixed tables: a unary
operator other than an increment or decrement gets `not`, `neg`, `pos` for `!`,
`-`, `+` and its own symbol otherwise; a binary or compound-assignment operator
other than the comma gets `or`, `and` for `||`, `&&` and its own symbol
otherwise. The members `expression`, `left` and `right` hold what the result
slot holds once the operand has been traversed, the node of the operand when
the operand produces one. -/
theorem operator_tables (loc : Loc) (opcode : UnaryOpcode) (bop : BinaryOpcode) (operand rhs : Stmt)
    (v v1 v2 : Visitor) (h : loc.inMain = true)
    (hoperand : TraverseStmt operand v = Res.ok () v1)
    (hrhs : TraverseStmt rhs { v1 with sonValue := Json.null } = Res.ok () v2) :
    (opcode ∉ [UnaryOpcode.PostInc, UnaryOpcode.PostDec, UnaryOpcode.PreInc, UnaryOpcode.PreDec] →
      (TraverseStmt (Stmt.UnaryOperator loc opcode operand) v).sonField? "type" =
        some (Json.str (match opcode with
          | UnaryOpcode.LNot => "not"
          | UnaryOpcode.Minus => "neg"
          | UnaryOpcode.Plus => "pos"
          | other => other.getOpcodeStr))) ∧
    (TraverseStmt (Stmt.UnaryOperator loc opcode operand) v).sonField? "expression"
      = some v1.sonValue ∧
    (bop ≠ BinaryOpcode.Comma →
      (TraverseStmt (Stmt.BinaryOperator loc bop operand rhs) v).sonField? "type" =
        some (Json.str (match bop with
          | BinaryOpcode.LOr => "or"
          | BinaryOpcode.LAnd => "and"
          | other => other.getOpcodeStr)) ∧
      (TraverseStmt (Stmt.BinaryOperator loc bop operand rhs) v).sonField? "left"
        = some v1.sonValue ∧
      (TraverseStmt (Stmt.BinaryOperator loc bop operand rhs) v).sonField? "right"
        = some v2.sonValue) := by
  refine ⟨?_, ?_, ?_⟩
  · intro hop
    cases opcode <;>
      simp_all [TraverseStmt, Stmt.skipped, Stmt.loc?, TRY_TO, addId, unaryOpString, mapFind,
        UNARY_OP_MAPPING, UnaryOpcode.getOpcodeStr, UnaryOpcode.isPrefixOp, List.lookup,
        Res.sonField?, Res.son?, Json.field, Json.findMember, addPos, addLine, addCol]
  · simp [TraverseStmt, Stmt.skipped, Stmt.loc?, h, hoperand, TRY_TO, addId,
      Res.sonField?, Res.son?, Json.field, Json.findMember, addPos, addLine, addCol]
  · intro hop
    cases bop <;>
      simp_all [TraverseStmt, Stmt.skipped, Stmt.loc?, TRY_TO, addId, binaryOpString, mapFind,
        BINARY_OP_MAPPING, BinaryOpcode.getOpcodeStr, List.lookup, createBinOpValue,
        Res.sonField?, Res.son?, Json.field, Json.findMember, addPos, addLine, addCol]

/-- The operators `!x` and `x && 1` at line 1, column 1, lowered by a fresh
visitor. -/
theorem operator_tables_example :
    ((Sample.at_ 1 1).inMain = true ∧
      TraverseStmt (Stmt.DeclRefExpr (Sample.at_ 1 2) "x" "bool") Visitor.init =
        Res.ok () { Visitor.init with
          currentId := 1
          sonValue := Json.obj [("type", Json.str "identifier"), ("value", Json.str "x"),
            ("id", Json.int 0), ("line", Json.int 1), ("column", Json.int 2)] } ∧
      TraverseStmt (Stmt.IntegerLiteral (Sample.at_ 1 7) 1)
          { Visitor.init with currentId := 1 } =
        Res.ok () { Visitor.init with
          currentId := 2
          sonValue := Json.obj [("type", Json.str "int"), ("value", Json.int 1),
            ("id", Json.int 1), ("line", Json.int 1), ("column", Json.int 7)] }) ∧
    (TraverseStmt (Stmt.UnaryOperator (Sample.at_ 1 1) UnaryOpcode.LNot
        (Stmt.DeclRefExpr (Sample.at_ 1 2) "x" "bool")) Visitor.init).sonField? "type"
      = some (Json.str "not") ∧
    (TraverseStmt (Stmt.BinaryOperator (Sample.at_ 1 1) BinaryOpcode.LAnd
        (Stmt.DeclRefExpr (Sample.at_ 1 2) "x" "bool")
        (Stmt.IntegerLiteral (Sample.at_ 1 7) 1)) Visitor.init).sonField? "type"
      = some (Json.str "and") :=
  ⟨⟨rfl, rfl, rfl⟩,
   (operator_tables (Sample.at_ 1 1) UnaryOpcode.LNot BinaryOpcode.LAnd
      (Stmt.DeclRefExpr (Sample.at_ 1 2) "x" "bool") (Stmt.IntegerLiteral (Sample.at_ 1 7) 1)
      Visitor.init _ _ rfl rfl rfl).1 (by decide),
   ((operator_tables (Sample.at_ 1 1) UnaryOpcode.LNot BinaryOpcode.LAnd
      (Stmt.DeclRefExpr (Sample.at_ 1 2) "x" "bool") (Stmt.IntegerLiteral (Sample.at_ 1 7) 1)
      Visitor.init _ _ rfl rfl rfl).2.2 (by decide)).1⟩

/-- C11, evaluated at the block `{ int a, b; return -sizeof(int); }`: the
operand `sizeof(int)` lowers to no node, and the `expression` of the `neg` node
is the array of two `Null` values that the declaration statement left in the
result slot, where the claim has the lowered operand. -/
theorem C11_operand_without_node :
    TraverseStmt Sample.declThenReturnNegSizeof Visitor.init =
      Res.ok () { Visitor.init with
        currentId := 6
        sonValue := Json.arr [Sample.intDeclNode 0 2 3 "a", Sample.intDeclNode 2 2 10 "b",
          Json.obj [("id", Json.int 4), ("line", Json.int 3), ("column", Json.int 3),
            ("type", Json.str "return"),
            ("expression", Json.obj [("id", Json.int 5), ("line", Json.int 3),
              ("column", Json.int 10), ("type", Json.str "neg"),
              ("expression", Json.arr [Json.null, Json.null])])]] } := by
  rfl

/-- The lowering of an `if` or `while` statement of the main file whose
condition declares a variable: the condition is the error node, whatever the
condition expression is, and each arm is wrapped in a block made of what the
result slot holds once the arm has been traversed. -/
theorem conditionVariable_lowering (loc varLoc : Loc) (cond thenS elseS body : Stmt) (v v2 v3 : Visitor)
    (h : loc.inMain = true)
    (hthen : TraverseStmt thenS { v with currentId := v.currentId + 2 } = Res.ok () v2)
    (helse : TraverseStmt elseS
      { v2 with currentId := v2.currentId + 1, sonValue := Json.null } = Res.ok () v3) :
    TraverseStmt (Stmt.IfStmt loc (some varLoc) cond thenS elseS) v =
      Res.ok () (if elseS.isNonNull then
        { v3 with
          currentId := v3.currentId + 1
          sonValue := Json.obj (addPos [("id", idValue v.currentId)] loc ++
            [("type", Json.str "conditional"),
             ("condition", messageNode varLoc "error" "condition-variable"
                "Variable declarations are not allowed in if conditions" (v.currentId + 1)),
             ("then", Json.obj [("id", idValue v2.currentId),
                ("statements", (ensureSonIsArray v2).sonValue)]),
             ("else", Json.obj [("id", idValue v3.currentId),
                ("statements", (ensureSonIsArray v3).sonValue)])]) }
      else
        { v2 with
          currentId := v2.currentId + 1
          sonValue := Json.obj (addPos [("id", idValue v.currentId)] loc ++
            [("type", Json.str "conditional"),
             ("condition", messageNode varLoc "error" "condition-variable"
                "Variable declarations are not allowed in if conditions" (v.currentId + 1)),
             ("then", Json.obj [("id", idValue v2.currentId),
                ("statements", (ensureSonIsArray v2).sonValue)])]) }) ∧
    (TraverseStmt body { v with currentId := v.currentId + 2 } = Res.ok () v2 →
      TraverseStmt (Stmt.WhileStmt loc (some varLoc) cond body) v =
        Res.ok () { v2 with
          currentId := v2.currentId + 1
          sonValue := Json.obj (addPos [("id", idValue v.currentId)] loc ++
            [("type", Json.str "while"),
             ("condition", messageNode varLoc "error" "condition-variable"
                "Variable declarations are not allowed in while conditions" (v.currentId + 1)),
             ("block", Json.obj [("id", idValue v2.currentId),
                ("statements", (ensureSonIsArray v2).sonValue)])]) }) := by
  have e1 : (ensureSonIsArray v2).currentId = v2.currentId := by
    unfold ensureSonIsArray; split <;> rfl
  have e2 : (ensureSonIsArray v2).iofunctionStarted = v2.iofunctionStarted := by
    unfold ensureSonIsArray; split <;> rfl
  have e3 : (ensureSonIsArray v3).currentId = v3.currentId := by
    unfold ensureSonIsArray; split <;> rfl
  have e4 : (ensureSonIsArray v3).iofunctionStarted = v3.iofunctionStarted := by
    unfold ensureSonIsArray; split <;> rfl
  constructor
  · simp only [TraverseStmt, Stmt.skipped, Stmt.loc?, h, addId, createMessageValue,
      createBlockValue, TRY_TO, hthen, e1, e2, List.nil_append, Bool.not_true,
      Bool.false_eq_true, ite_false]
    by_cases hn : elseS.isNonNull = true
    · simp [hn, helse, TRY_TO, e3, e4, messageNode, addPos, addLine, addCol]
    · simp [hn, messageNode, addPos, addLine, addCol]
  · intro hbody
    simp [TraverseStmt, Stmt.skipped, Stmt.loc?, h, addId, createMessageValue,
      createBlockValue, TRY_TO, hbody, e1, e2, messageNode, addPos, addLine, addCol]

/-- C12, evaluated at the block `{ int a, b; while (int c = a) ; }`: the
condition of the loop is the error node, and the block of the loop wraps the
two `Null` values that the declaration statement left in the result slot,
where the arm has no statement to lower. -/
theorem C12_empty_arm_after_declarations :
    TraverseStmt Sample.declThenWhileVar Visitor.init =
      Res.ok () { Visitor.init with
        currentId := 7
        sonValue := Json.arr [Sample.intDeclNode 0 2 3 "a", Sample.intDeclNode 2 2 10 "b",
          Json.obj [("id", Json.int 4), ("line", Json.int 3), ("column", Json.int 3),
            ("type", Json.str "while"),
            ("condition", Json.obj [("id", Json.int 5), ("line", Json.int 3),
              ("column", Json.int 10), ("type", Json.str "error"),
              ("value", Json.str "condition-variable"),
              ("description",
                Json.str "Variable declarations are not allowed in while conditions")]),
            ("block", Json.obj [("id", Json.int 6),
              ("statements", Json.arr [Json.null, Json.null])])]] } := by
  rfl

/-- C13, evaluated at the block `{ int a, b; for (;;) { } }`: the empty
initializer gets the error node `compoundStmt`, because the result slot still
holds the array that the declaration statement left. -/
theorem C13_empty_init_after_declarations :
    TraverseStmt Sample.declThenFor Visitor.init =
      Res.ok () { Visitor.init with
        currentId := 7
        sonValue := Json.arr [Sample.intDeclNode 0 2 3 "a", Sample.intDeclNode 2 2 10 "b",
          Json.obj [("id", Json.int 4), ("line", Json.int 3), ("column", Json.int 3),
            ("type", Json.str "for"),
            ("init", Json.obj [("id", Json.int 5), ("line", Json.int 3),
              ("column", Json.int 3), ("type", Json.str "error"),
              ("value", Json.str "compoundStmt"),
              ("description",
                Json.str "Compound Statements are not allowed in for loop init")]),
            ("condition", Json.null), ("post", Json.null),
            ("block", Json.obj [("id", Json.int 6), ("statements", Json.arr [])])]] } := by
  rfl

/-- C14, evaluated at the block `{ int a, b; return; }`: the `expression` of
the return node is the array of two `Null` values that the declaration
statement left in the result slot. -/
theorem C14_return_after_declarations :
    TraverseStmt Sample.declThenReturn Visitor.init =
      Res.ok () { Visitor.init with
        currentId := 5
        sonValue := Json.arr [Sample.intDeclNode 0 2 3 "a", Sample.intDeclNode 2 2 10 "b",
          Json.obj [("id", Json.int 4), ("line", Json.int 3), ("column", Json.int 3),
            ("type", Json.str "return"),
            ("expression", Json.arr [Json.null, Json.null])]] } := by
  rfl

theorem parm_shape (loc : Loc) (name : String) (type : VarType) (hasInit : Bool) (init : Stmt)
    (initStyle : InitializationStyle) (v w : Visitor) (h : loc.inMain = true)
    (hr : TraverseDecl (Decl.VarDecl loc true name type hasInit init initStyle) v
      = Res.ok () w) :
    w.sonValue.field "name" = some (Json.str name) ∧ w.sonValue.hasField "type" = false := by
  unfold TraverseDecl at hr
  simp only [Decl.loc, h, addId, Bool.not_true, Bool.false_eq_true, ite_false,
    List.nil_append] at hr
  obtain ⟨dt, v1, _, h2⟩ := TRY_TO_eq_ok hr
  split at h2
  · obtain ⟨_, v2, _, h4⟩ := TRY_TO_eq_ok h2
    cases initStyle <;> simp only at h4
    all_goals first
      | (split at h4 <;>
          (simp only [Res.ok.injEq, true_and] at h4
           subst h4
           simp [Json.hasField, Json.field, Json.findMember, addPos, addLine, addCol]))
      | (simp only [Res.ok.injEq, true_and] at h4
         subst h4
         simp [Json.hasField, Json.field, Json.findMember, addPos, addLine, addCol])
  · simp only [Res.ok.injEq, true_and] at h2
    subst h2
    simp [Json.hasField, Json.field, Json.findMember, addPos, addLine, addCol]

theorem pushDecls_parms (decls : List Decl) :
    ∀ (acc ps : List Json) (v w : Visitor),
      (∀ d ∈ decls, d.parmName?.isSome = true) →
      TraversePushDecls decls acc v = Res.ok ps w →
      ∃ new, ps = acc ++ new ∧
        new.map (Json.field "name")
          = (decls.filterMap Decl.parmName?).map (fun n => some (Json.str n)) ∧
        ∀ p ∈ new, p.hasField "type" = false := by
  induction decls with
  | nil =>
    intro acc ps v w _ h
    simp only [TraversePushDecls, Res.ok.injEq] at h
    exact ⟨[], by simp [h.1], rfl, by simp⟩
  | cons d rest ih =>
    intro acc ps v w hmem h
    simp only [TraversePushDecls] at h
    obtain ⟨_, v1, h1, h2⟩ := TRY_TO_eq_ok h
    have hd := hmem d (List.mem_cons_self _ _)
    obtain ⟨new, hps, hn, ht⟩ := ih _ ps _ w (fun x hx => hmem x (List.mem_cons_of_mem _ hx)) h2
    cases d with
    | VarDecl loc isParm name type hasInit init initStyle =>
      simp only [Decl.parmName?] at hd
      have hl : loc.inMain = true := by
        cases hl : loc.inMain <;> simp [hl] at hd ⊢
      have hp : isParm = true := by
        cases hp : isParm <;> simp [hp] at hd ⊢
      subst hp
      obtain ⟨s1, s2⟩ := parm_shape loc name type hasInit init initStyle v v1 hl h1
      refine ⟨v1.sonValue :: new, by rw [hps]; simp, ?_, ?_⟩
      · simp [Decl.parmName?, hl, hn, s1]
      · intro p hp
        rcases List.mem_cons.1 hp with rfl | hp
        · exact s2
        · exact ht p hp
    | FunctionDecl => simp [Decl.parmName?] at hd
    | FieldDecl => simp [Decl.parmName?] at hd
    | CXXRecordDecl => simp [Decl.parmName?] at hd
    | CXXMethodDecl => simp [Decl.parmName?] at hd
    | other => simp [Decl.parmName?] at hd

/-- A function declaration of the main file whose `k` parameters are parameters
of the main file lowers to a `function-declaration` node with its name, the
node of its return type, a `parameters` array of the `k` lowered parameters in
source order, none with a `type` member, and a `block` that wraps an empty
array for a forward declaration and, for a definition, what
`ensureSonIsArray` makes of the result slot once the body has been
traversed. -/
theorem functionDecl_node (loc : Loc) (functionName : String) (callResultType : TypeDesc)
    (params : List Decl) (body : Stmt) (v v1 v2 v3 : Visitor) (returnType : Json)
    (ps : List Json) (h : loc.inMain = true)
    (hparams : ∀ d ∈ params, d.parmName?.isSome = true)
    (htype : createTypeValue callResultType (addId [] v).2 = Res.ok returnType v1)
    (hps : TraversePushDecls params [] v1 = Res.ok ps v2)
    (hbody : TraverseStmt body v2 = Res.ok () v3) :
    TraverseDecl (Decl.FunctionDecl loc functionName callResultType params true body) v =
      Res.ok () { v3 with
        currentId := v3.currentId + 1
        sonValue := Json.obj (addPos [("id", idValue v.currentId)] loc ++
          [("type", Json.str "function-declaration"), ("name", Json.str functionName),
           ("return-type", returnType), ("parameters", Json.arr ps),
           ("block", Json.obj [("id", idValue v3.currentId),
              ("statements", (ensureSonIsArray v3).sonValue)])]) } ∧
    TraverseDecl (Decl.FunctionDecl loc functionName callResultType params false body) v =
      Res.ok () { v2 with
        currentId := v2.currentId + 1
        sonValue := Json.obj (addPos [("id", idValue v.currentId)] loc ++
          [("type", Json.str "function-declaration"), ("name", Json.str functionName),
           ("return-type", returnType), ("parameters", Json.arr ps),
           ("block", Json.obj [("id", idValue v2.currentId),
              ("statements", Json.arr [])])]) } ∧
    ps.length = params.length ∧
    ps.map (Json.field "name")
      = (params.filterMap Decl.parmName?).map (fun n => some (Json.str n)) ∧
    ∀ p ∈ ps, p.hasField "type" = false := by
  have e1 : (ensureSonIsArray v3).currentId = v3.currentId := by
    unfold ensureSonIsArray; split <;> rfl
  have e2 : (ensureSonIsArray v3).iofunctionStarted = v3.iofunctionStarted := by
    unfold ensureSonIsArray; split <;> rfl
  simp only [addId] at htype
  obtain ⟨new, hnew, hn, ht⟩ := pushDecls_parms params [] ps v1 v2 hparams hps
  simp only [List.nil_append] at hnew
  subst hnew
  refine ⟨?_, ?_, ?_, hn, ht⟩
  · unfold TraverseDecl
    simp [Decl.loc, h, addId, htype, hps, hbody, TRY_TO, createBlockValue, e1, e2, addPos,
      addLine, addCol]
  · unfold TraverseDecl
    simp [Decl.loc, h, addId, htype, hps, TRY_TO, createBlockValue, addPos, addLine, addCol]
  · have hlen := congrArg List.length hn
    simp only [List.length_map] at hlen
    rw [hlen]
    have : params.filterMap Decl.parmName? = params.map (fun d => (d.parmName?).getD "") := by
      clear hps hn ht hlen
      induction params with
      | nil => rfl
      | cons d rest ih =>
        have hd := hparams d (List.mem_cons_self _ _)
        obtain ⟨n, hn⟩ := Option.isSome_iff_exists.1 hd
        simp [List.filterMap_cons, hn, ih (fun x hx => hparams x (List.mem_cons_of_mem _ hx))]
    rw [this, List.length_map]

/-- The forward declaration `int f(int x, int y);`, lowered by a fresh
visitor. -/
theorem functionDecl_node_example :
    ((Sample.at_ 1 1).inMain = true ∧
      (∀ d ∈ [Sample.intParm 7 "x", Sample.intParm 14 "y"], d.parmName?.isSome = true) ∧
      createTypeValue Sample.intType (addId [] Visitor.init).2 =
        Res.ok (Json.obj [("id", Json.int 1), ("name", Json.str "int")])
          { Visitor.init with currentId := 2 } ∧
      TraversePushDecls [Sample.intParm 7 "x", Sample.intParm 14 "y"] []
          { Visitor.init with currentId := 2 } =
        Res.ok [Sample.intParmNode 2 7 "x", Sample.intParmNode 4 14 "y"]
          { Visitor.init with currentId := 6 } ∧
      TraverseStmt Stmt.null { Visitor.init with currentId := 6 } =
        Res.ok () { Visitor.init with currentId := 6 }) ∧
    TraverseDecl (Decl.FunctionDecl (Sample.at_ 1 1) "f" Sample.intType
        [Sample.intParm 7 "x", Sample.intParm 14 "y"] false Stmt.null) Visitor.init =
      Res.ok () { Visitor.init with
        currentId := 7
        sonValue := Json.obj [("id", Json.int 0), ("line", Json.int 1), ("column", Json.int 1),
          ("type", Json.str "function-declaration"), ("name", Json.str "f"),
          ("return-type", Json.obj [("id", Json.int 1), ("name", Json.str "int")]),
          ("parameters", Json.arr [Sample.intParmNode 2 7 "x", Sample.intParmNode 4 14 "y"]),
          ("block", Json.obj [("id", Json.int 6), ("statements", Json.arr [])])] } :=
  ⟨⟨rfl, fun d hd => by
      simp only [List.mem_cons, List.mem_singleton, List.not_mem_nil, or_false] at hd
      rcases hd with rfl | rfl <;> rfl,
    rfl, rfl, rfl⟩,
   (functionDecl_node (Sample.at_ 1 1) "f" Sample.intType
      [Sample.intParm 7 "x", Sample.intParm 14 "y"] Stmt.null Visitor.init _ _ _ _ _ rfl
      (fun d hd => by
        simp only [List.mem_cons, List.mem_singleton, List.not_mem_nil, or_false] at hd
        rcases hd with rfl | rfl <;> rfl)
      rfl rfl rfl).2.1⟩

/-- C15, evaluated at the translation unit `S::S() { int a, b; }
void f() = delete;`: the deleted function is a definition without body, and
its block wraps the array of two `Null` values that the constructor body left
in the result slot, where the claim has a block wrapping the lowered body. -/
theorem C15_deleted_function_after_constructor :
    TraverseTranslationUnitDecl Sample.constructorThenDeleted Visitor.init =
      Res.ok (Json.obj [("id", Json.int 0), ("statements", Json.arr
          [Sample.intDeclNode 1 2 3 "a", Sample.intDeclNode 3 2 10 "b",
           Json.obj [("id", Json.int 5), ("line", Json.int 4), ("column", Json.int 1),
             ("type", Json.str "function-declaration"), ("name", Json.str "f"),
             ("return-type", Json.obj [("id", Json.int 6), ("name", Json.str "void")]),
             ("parameters", Json.arr []),
             ("block", Json.obj [("id", Json.int 7),
               ("statements", Json.arr [Json.null, Json.null])])]])])
        { Visitor.init with currentId := 8 } := by
  rfl

/-- The `init` member of a lowered variable declaration of the main file, in
terms of what the result slot holds once the initializer has been traversed. -/
theorem varDecl_init_member (loc : Loc) (isParm : Bool) (name : String) (type : VarType)
    (hasInit : Bool) (init : Stmt) (initStyle : InitializationStyle) (v v1 v2 : Visitor)
    (dataType : Json) (h : loc.inMain = true)
    (htype : createTypeValue type.type (addId [] v).2 = Res.ok dataType v1)
    (hinit : TraverseStmt init v1 = Res.ok () v2) :
    ∃ v3, TraverseDecl (Decl.VarDecl loc isParm name type hasInit init initStyle) v
        = Res.ok () v3 ∧
      (v3.sonValue.hasField "init" = true ↔
        (hasInit = true ∧ type.type.isStructureType = false ∧
          isSTLVectorType type.type.canonical = false ∧
          initStyle ≠ InitializationStyle.ListInit ∧ v2.sonValue.IsNull = false)) ∧
      (v3.sonValue.hasField "init" = true → v3.sonValue.field "init" = some v2.sonValue) := by
  simp only [addId] at htype
  simp only [TraverseDecl, Decl.loc, h, addId, htype, TRY_TO, hinit]
  cases isParm <;> cases hasInit <;> cases initStyle <;>
    cases h1 : type.type.isStructureType <;> cases h2 : isSTLVectorType type.type.canonical <;>
    cases h3 : v2.sonValue.IsNull <;>
    simp [Json.hasField, Json.field, Json.findMember, addPos, addLine, addCol, h3]

/-- C16, evaluated at the block `{ int a, b; int n = sizeof(int); }`: the
initializer lowers to no node, and the node of `n` has an `init` member all the
same, the array of two `Null` values that the declaration statement left in
the result slot. -/
theorem C16_init_after_declarations :
    TraverseStmt Sample.declThenSizeof Visitor.init =
      Res.ok () { Visitor.init with
        currentId := 6
        sonValue := Json.arr [Sample.intDeclNode 0 2 3 "a", Sample.intDeclNode 2 2 10 "b",
          Json.obj [("id", Json.int 4), ("line", Json.int 3), ("column", Json.int 3),
            ("type", Json.str "variable-declaration"), ("name", Json.str "n"),
            ("data-type", Json.obj [("id", Json.int 5), ("name", Json.str "int")]),
            ("is-reference", Json.bool false), ("is-const", Json.bool false),
            ("init", Json.arr [Json.null, Json.null])]] } := by
  rfl

theorem recordMembers_attributes (decls : List Decl) :
    ∀ (acc : List Json) (v w : Visitor), v.sonValue = Json.arr acc →
      (∀ d ∈ decls, d.isRecordMember = true) →
      TraverseDeclContext decls v = Res.ok () w →
      ∃ attrs, w.sonValue = Json.arr (acc ++ attrs) ∧
        attrs.map (Json.field "name")
          = (decls.filterMap Decl.fieldName?).map (fun n => some (Json.str n)) ∧
        ∀ a ∈ attrs, a.hasField "data-type" = true := by
  induction decls with
  | nil =>
    intro acc v w hv _ h
    simp only [TraverseDeclContext, Res.ok.injEq, true_and] at h
    subst h
    exact ⟨[], by simpa using hv, rfl, by simp⟩
  | cons d rest ih =>
    intro acc v w hv hmem h
    simp only [TraverseDeclContext] at h
    obtain ⟨_, v1, h1, h2⟩ := TRY_TO_eq_ok h
    have hd := hmem d (List.mem_cons_self _ _)
    have hrest : ∀ d ∈ rest, d.isRecordMember = true :=
      fun x hx => hmem x (List.mem_cons_of_mem _ hx)
    cases d with
    | FieldDecl loc name type =>
      simp only [Decl.isRecordMember] at hd
      unfold TraverseDecl at h1
      simp only [Decl.loc, hd, addId, Bool.not_true, Bool.false_eq_true, ite_false,
        List.nil_append] at h1
      obtain ⟨dt, v2, h3, h4⟩ := TRY_TO_eq_ok h1
      have hv2 := (createTypeValue_visitor h3).1
      simp only [hv] at hv2
      simp only [hv2, Res.ok.injEq, true_and] at h4
      obtain ⟨attrs, ha, hn, hdt⟩ := ih _ v1 w (by rw [← h4]) hrest h2
      refine ⟨Json.obj (addPos [("id", idValue v.currentId)] loc ++ [("name", Json.str name)] ++
        [("data-type", dt)]) :: attrs, by rw [ha]; simp, ?_, ?_⟩
      · simp [Decl.fieldName?, hd, hn, Json.field, Json.findMember, addPos, addLine, addCol]
      · intro a ha'
        rcases List.mem_cons.1 ha' with rfl | ha'
        · simp [Json.hasField, Json.field, Json.findMember, addPos, addLine, addCol]
        · exact hdt a ha'
    | CXXMethodDecl loc =>
      unfold TraverseDecl at h1
      simp only [ite_self, Res.ok.injEq, true_and] at h1
      subst h1
      simpa [Decl.fieldName?] using ih acc v w hv hrest h2
    | CXXRecordDecl loc isImplicit name ds =>
      simp only [Decl.isRecordMember] at hd
      unfold TraverseDecl at h1
      simp only [hd, ite_true, ite_self, Res.ok.injEq, true_and] at h1
      subst h1
      simpa [Decl.fieldName?] using ih acc v w hv hrest h2
    | FunctionDecl => simp [Decl.isRecordMember] at hd
    | VarDecl => simp [Decl.isRecordMember] at hd
    | other => simp [Decl.isRecordMember] at hd

/-- A record declaration of the main file that is not implicit and whose
members are fields of the main file, declarations of class `CXXMethodDecl` and
implicit records lowers to a `struct-declaration` node with its name and an
`attributes` array of one node per field, in declaration order, each with the
name of its field and a `data-type`; an implicit record lowers to nothing and
takes no id. -/
theorem recordDecl_attributes (loc : Loc) (structName : String) (decls : List Decl) (v w : Visitor)
    (h : loc.inMain = true) (hmembers : ∀ d ∈ decls, d.isRecordMember = true)
    (hret : TraverseDeclContext decls
      { v with currentId := v.currentId + 1, sonValue := Json.arr [] } = Res.ok () w) :
    (∃ attrs, TraverseDecl (Decl.CXXRecordDecl loc false structName decls) v =
        Res.ok () { w with
          sonValue := Json.obj (addPos [("id", idValue v.currentId)] loc ++
            [("type", Json.str "struct-declaration"), ("name", Json.str structName),
             ("attributes", Json.arr attrs)]) } ∧
      attrs.length = (decls.filterMap Decl.fieldName?).length ∧
      attrs.map (Json.field "name")
        = (decls.filterMap Decl.fieldName?).map (fun n => some (Json.str n)) ∧
      ∀ a ∈ attrs, a.hasField "data-type" = true) ∧
    ∀ loc' name' decls' v', TraverseDecl (Decl.CXXRecordDecl loc' true name' decls') v'
      = Res.ok () v' := by
  constructor
  · obtain ⟨attrs, ha, hn, hdt⟩ := recordMembers_attributes decls [] _ w rfl hmembers hret
    refine ⟨attrs, ?_, ?_, hn, hdt⟩
    · unfold TraverseDecl
      simp only [Decl.loc, h, addId, hret, List.nil_append, Bool.not_true, Bool.false_eq_true,
        ite_false, ha]
      rfl
    · have := congrArg List.length hn
      simpa using this
  · intro loc' name' decls' v'
    unfold TraverseDecl
    simp

/-- The record `struct P { int x; int y; int norm(); };`, lowered by a fresh
visitor. -/
theorem recordDecl_attributes_example :
    ((Sample.at_ 1 1).inMain = true ∧
      (∀ d ∈ Sample.pointMembers, d.isRecordMember = true) ∧
      TraverseDeclContext Sample.pointMembers
          { Visitor.init with currentId := 1, sonValue := Json.arr [] } =
        Res.ok () { Visitor.init with
          currentId := 5
          sonValue := Json.arr [Sample.fieldNode 1 12 "x", Sample.fieldNode 3 19 "y"] }) ∧
    ∃ attrs, TraverseDecl (Decl.CXXRecordDecl (Sample.at_ 1 1) false "P" Sample.pointMembers)
        Visitor.init =
        Res.ok () { Visitor.init with
          currentId := 5
          sonValue := Json.obj (addPos [("id", idValue 0)] (Sample.at_ 1 1) ++
            [("type", Json.str "struct-declaration"), ("name", Json.str "P"),
             ("attributes", Json.arr attrs)]) } ∧
      attrs.length = 2 :=
  ⟨⟨rfl, fun d hd => by
      simp only [Sample.pointMembers, List.mem_cons, List.mem_singleton, List.not_mem_nil,
        or_false] at hd
      rcases hd with rfl | rfl | rfl | rfl <;> rfl,
    rfl⟩,
   (recordDecl_attributes (Sample.at_ 1 1) "P" Sample.pointMembers Visitor.init _ rfl
      (fun d hd => by
        simp only [Sample.pointMembers, List.mem_cons, List.mem_singleton, List.not_mem_nil,
          or_false] at hd
        rcases hd with rfl | rfl | rfl | rfl <;> rfl)
      (rfl : _ = Res.ok () { Visitor.init with
          currentId := 5
          sonValue := Json.arr [Sample.fieldNode 1 12 "x", Sample.fieldNode 3 19 "y"] })).1.imp
      fun _ h => ⟨h.1, h.2.1⟩⟩

/-- C17, evaluated at the records `struct P { int x; P() {} int y; };` and
`struct P { int x; P(int a); };`: a constructor is not skipped, its default
traversal lowers its body and its parameters into the result slot that holds
the fields collected so far. The first record gets the attributes `[y]`, one
node where the claim has the two fields `x` and `y`; the second gets the node
of the parameter `a` as `attributes`, which is not an array. -/
theorem C17_constructor_overwrites_attributes :
    (TraverseDecl (Decl.CXXRecordDecl (Sample.at_ 1 1) false "P" Sample.membersWithConstructor)
        Visitor.init).sonField? "attributes" =
      some (Json.arr [Sample.fieldNode 3 30 "y"]) ∧
    (TraverseDecl (Decl.CXXRecordDecl (Sample.at_ 1 1) false "P"
        Sample.membersWithConstructorDecl) Visitor.init).sonField? "attributes" =
      some (Sample.intParmNode 3 25 "a") ∧
    Sample.membersWithConstructor.filterMap Decl.fieldName? = ["x", "y"] ∧
    Sample.membersWithConstructorDecl.filterMap Decl.fieldName? = ["x"] := by
  refine ⟨rfl, rfl, rfl, rfl⟩

theorem topLevel_results (decls : List Decl) :
    ∀ (statements out : List Json) (v w : Visitor),
      TraverseTopLevel decls statements v = Res.ok out w →
      out = statements ++ (topLevelResults decls v).flatMap contribution := by
  induction decls with
  | nil =>
    intro statements out v w h
    simp only [TraverseTopLevel, Res.ok.injEq] at h
    simp [topLevelResults, h.1]
  | cons d rest ih =>
    intro statements out v w h
    simp only [TraverseTopLevel] at h
    obtain ⟨_, v1, h1, h2⟩ := TRY_TO_eq_ok h
    simp only [topLevelResults, h1, List.flatMap_cons]
    have hnull : v1.sonValue = Json.null →
        ({ v1 with sonValue := Json.null } : Visitor) = v1 := by
      intro hs
      cases v1
      simp_all
    cases hs : v1.sonValue <;>
      simp only [hs, Json.IsNull, addElemsToArray, Bool.not_true, Bool.not_false,
        Bool.false_eq_true, ite_false, ite_true] at h2 <;>
      have := ih _ out _ w h2 <;>
      simp [this, afterMove, hs, contribution, hnull]

/-- The statements of the root, in terms of what the result slot holds after
each top-level declaration: an array gives its elements, `Null` gives nothing,
any other value gives itself; the root takes the first id. -/
theorem translationUnit_statements (unitDecl : TranslationUnit) (v w : Visitor) (document : Json)
    (h : TraverseTranslationUnitDecl unitDecl v = Res.ok document w) :
    document = Json.obj [("id", idValue v.currentId),
      ("statements", Json.arr
        ((topLevelResults unitDecl { v with currentId := v.currentId + 1 }).flatMap
          contribution))] ∧
    (v = Visitor.init → document.field "id" = some (Json.int 0)) := by
  unfold TraverseTranslationUnitDecl at h
  simp only [addId, List.nil_append] at h
  obtain ⟨statements, v1, h1, h2⟩ := TRY_TO_eq_ok h
  simp only [Res.ok.injEq] at h2
  have := topLevel_results unitDecl [] statements _ v1 h1
  simp only [List.nil_append] at this
  subst this
  refine ⟨by rw [← h2.1]; rfl, ?_⟩
  intro hv
  subst hv
  rw [← h2.1]
  rfl

/-- C18, evaluated at the top-level declarations `S::S() { int a, b; }` and
`typedef int T;`: the typedef produces no node and adds two `Null` values to
the statements of the root, the moved-out elements of the array that the
constructor body left in the result slot. -/
theorem C18_typedef_after_constructor :
    TraverseTranslationUnitDecl Sample.constructorThenTypedef Visitor.init =
      Res.ok (Json.obj [("id", Json.int 0), ("statements", Json.arr
          [Sample.intDeclNode 1 2 3 "a", Sample.intDeclNode 3 2 10 "b",
           Json.null, Json.null])])
        { Visitor.init with
          currentId := 5
          sonValue := Json.arr [Json.null, Json.null] } := by
  rfl

/-- C19, evaluated at the type `char`: the node is named `int`, not `string`,
because the test for integer types comes before the test for character
types. -/
theorem C19_char_is_int :
    createTypeValue Sample.charType Visitor.init =
      Res.ok (Json.obj [("id", Json.int 0), ("name", Json.str "int")])
        { Visitor.init with currentId := 1 } := by
  rfl

/-- The rules of `createTypeValue`: a container type is handed to
`createVectorValue`, whatever else it is; for every other type
`createTypeValue` returns a node with the next id and the name of the first
rule that applies, in the order boolean, integer, floating, void, character,
`std::string`, record, and the name `Unknown: (kind)` when none applies. -/
theorem createTypeValue_rules (type : TypeDesc) (v : Visitor) :
    (isSTLVectorType type.canonical = true →
      createTypeValue type v = createVectorValue type.canonical v) ∧
    (isSTLVectorType type.canonical = false →
      ∃ name, createTypeValue type v =
          Res.ok (Json.obj [("id", idValue v.currentId), ("name", Json.str name)])
            { v with currentId := v.currentId + 1 } ∧
        (type.isBooleanType = true → name = "bool") ∧
        (type.isBooleanType = false → type.isIntegerType = true → name = "int") ∧
        (type.isBooleanType = false → type.isIntegerType = false →
          type.isFloatingType = true → name = "double") ∧
        (type.isBooleanType = false → type.isIntegerType = false →
          type.isFloatingType = false → type.isVoidType = true → name = "void") ∧
        (type.isBooleanType = false → type.isIntegerType = false →
          type.isFloatingType = false → type.isVoidType = false →
          (type.isAnyCharacterType = true ∨ type.canonical = STRING_TYPE) → name = "string") ∧
        (type.isBooleanType = false → type.isIntegerType = false →
          type.isFloatingType = false → type.isVoidType = false →
          type.isAnyCharacterType = false → type.canonical ≠ STRING_TYPE →
          type.isStructureType = true → name = type.recordName) ∧
        (type.isBooleanType = false → type.isIntegerType = false →
          type.isFloatingType = false → type.isVoidType = false →
          type.isAnyCharacterType = false → type.canonical ≠ STRING_TYPE →
          type.isStructureType = false →
          name = "Unknown: (" ++ type.typeClassName ++ ")")) := by
  constructor
  · intro h
    simp [createTypeValue, h]
  · intro h
    refine ⟨if type.isBooleanType then "bool"
      else if type.isIntegerType then "int"
      else if type.isFloatingType then "double"
      else if type.isVoidType then "void"
      else if type.isAnyCharacterType then "string"
      else if type.canonical = STRING_TYPE then "string"
      else if type.isStructureType then type.recordName
      else "Unknown: (" ++ type.typeClassName ++ ")", ?_, ?_⟩
    · simp only [createTypeValue, h, createTypeValueStr, addId, List.nil_append,
        Bool.false_eq_true, ite_false]
      rfl
    · cases type.isBooleanType <;> cases type.isIntegerType <;> cases type.isFloatingType <;>
        cases type.isVoidType <;> cases type.isAnyCharacterType <;>
        cases type.isStructureType <;> by_cases hs : type.canonical = STRING_TYPE <;>
        simp [hs]

theorem vectorWithoutComma_cycle (fuel depth : Nat) :
    vectorLoop Sample.vectorWithoutComma.canonical.data fuel 17 depth = VectorScan.running := by
  induction fuel generalizing depth with
  | zero => rfl
  | succ n ih =>
    unfold vectorLoop
    have h1 : strFind Sample.vectorWithoutComma.canonical.data VECTOR_TYPE.data 17 = npos := by
      decide
    have h2 : strFind Sample.vectorWithoutComma.canonical.data [','] 17 = npos := by decide
    have h3 : (npos + VECTOR_TYPE.length) % SIZE_MOD = 17 := by decide
    simp only [h1, h2, lt_irrefl, ite_false, h3]
    exact ih _

/-- C20, evaluated at a type printed `class std::vector<int>`: the scan of
`createVectorValue` never ends, for any number of iterations, so
`createTypeValue` returns nothing, where the claim has it total. -/
theorem C20_container_scan_never_ends :
    createTypeValue Sample.vectorWithoutComma Visitor.init = Res.hang ∧
    ∀ fuel, vectorLoop Sample.vectorWithoutComma.canonical.data fuel 0 0
      = VectorScan.running := by
  refine ⟨rfl, fun fuel => ?_⟩
  cases fuel with
  | zero => rfl
  | succ n =>
    cases n with
    | zero => rfl
    | succ m =>
      unfold vectorLoop
      have h1 : strFind Sample.vectorWithoutComma.canonical.data VECTOR_TYPE.data 0 = 0 := by
        decide
      have h2 : strFind Sample.vectorWithoutComma.canonical.data [','] 0 = npos := by decide
      have h3 : ¬ npos < 0 := by decide
      have h4 : (0 + VECTOR_TYPE.length) % SIZE_MOD = 18 := by decide
      simp only [h1, h2, h3, ite_false, h4]
      unfold vectorLoop
      have h5 : strFind Sample.vectorWithoutComma.canonical.data VECTOR_TYPE.data 18 = npos := by
        decide
      have h6 : strFind Sample.vectorWithoutComma.canonical.data [','] 18 = npos := by decide
      have h7 : (npos + VECTOR_TYPE.length) % SIZE_MOD = 17 := by decide
      simp only [h5, h6, lt_irrefl, ite_false, h7]
      exact vectorWithoutComma_cycle _ _

theorem wrapVector_node (depth : Nat) :
    ∀ (actTypeValue : Json) (v : Visitor), 0 < v.currentId →
      (∃ name rest, actTypeValue = Json.obj
        (("id", idValue (v.currentId - 1)) :: ("name", Json.str name) :: rest)) →
      v.currentId ≤ (wrapVector depth actTypeValue v).2.currentId ∧
      ∃ name rest, (wrapVector depth actTypeValue v).1 = Json.obj
        (("id", idValue ((wrapVector depth actTypeValue v).2.currentId - 1)) ::
          ("name", Json.str name) :: rest) := by
  induction depth with
  | zero =>
    intro actTypeValue v _ h
    exact ⟨le_refl _, h⟩
  | succ n ih =>
    intro actTypeValue v hv _
    unfold wrapVector
    simp only [addId, List.nil_append]
    have := ih (Json.obj ([("id", idValue v.currentId)] ++
        [("name", Json.str "vector"), ("data-type", actTypeValue)]))
      { v with currentId := v.currentId + 1 } (Nat.succ_pos _)
      ⟨"vector", [("data-type", actTypeValue)], rfl⟩
    exact ⟨Nat.le_of_succ_le this.1, this.2⟩

/-- Every type node that `createTypeValue` returns, the node of a container
included, starts with an `id` member and a `name` member, and its id is the last
one the call has taken, so none handed out before the call. -/
theorem createTypeValue_node (type : TypeDesc) (v w : Visitor) (typeValue : Json)
    (h : createTypeValue type v = Res.ok typeValue w) :
    v.currentId < w.currentId ∧
    ∃ name rest, typeValue = Json.obj
      (("id", idValue (w.currentId - 1)) :: ("name", Json.str name) :: rest) := by
  unfold createTypeValue at h
  split at h
  · unfold createVectorValue at h
    split at h
    · cases h
    · split at h
      · cases h
      · cases h
      · rename_i depth innerMostType _
        simp only [addId, List.nil_append, Res.ok.injEq] at h
        have := wrapVector_node depth
          (Json.obj ([("id", idValue v.currentId)] ++ [("name", Json.str innerMostType)]))
          { v with currentId := v.currentId + 1 } (Nat.succ_pos _) ⟨innerMostType, [], rfl⟩
        rw [h.1, h.2] at this
        exact ⟨this.1, this.2⟩
  · simp only [createTypeValueStr, addId, List.nil_append, Res.ok.injEq] at h
    rw [← h.1, ← h.2]
    exact ⟨Nat.lt_succ_self _, _, [], rfl⟩

/-! ## Claim C2: distinct ids -/

/-! ### Ids of the nodes the factory builds -/

theorem idm_null : Json.null.idm = 0 := rfl
theorem idm_str (s : String) : (Json.str s).idm = 0 := rfl
theorem idm_bool (b : Bool) : (Json.bool b).idm = 0 := rfl
theorem idm_int (n : Int) : (Json.int n).idm = 0 := rfl
theorem idm_double (n : Nat) : (Json.double n).idm = 0 := rfl
theorem idm_idValue (c : Nat) : (idValue c).idm = 0 := rfl

theorem idm_arr (l : List Json) : (Json.arr l).idm = idmE l := by
  simp [Json.idm, idmE, Json.ids]

theorem idm_obj (ms : Members) : (Json.obj ms).idm = idmM ms := by
  simp [Json.idm, idmM, Json.ids]

theorem idmE_nil : idmE [] = 0 := rfl

theorem idmE_cons (x : Json) (l : List Json) : idmE (x :: l) = x.idm + idmE l := by
  simp [Json.idm, idmE, Json.idsOfElems]

theorem idmE_append (a b : List Json) : idmE (a ++ b) = idmE a + idmE b := by
  induction a with
  | nil => simp [idmE_nil]
  | cons x a ih => simp [idmE_cons, ih, add_assoc]

theorem idmE_map_null (l : List Json) : idmE (l.map fun _ => Json.null) = 0 := by
  induction l with
  | nil => rfl
  | cons x l ih => rw [List.map_cons, idmE_cons, ih, idm_null, zero_add]

theorem idmE_replicate_null (n : Nat) : idmE (List.replicate n Json.null) = 0 := by
  induction n with
  | zero => rfl
  | succ n ih => rw [List.replicate_succ, idmE_cons, ih, idm_null, zero_add]

theorem idmM_nil : idmM [] = 0 := rfl

theorem idmM_cons (k : String) (x : Json) (ms : Members) :
    idmM ((k, x) :: ms) = (Json.idOfMember k x : Multiset Int) + x.idm + idmM ms := by
  simp [Json.idm, idmM, Json.idsOfMembers, add_assoc]

theorem idmM_append (a b : Members) : idmM (a ++ b) = idmM a + idmM b := by
  induction a with
  | nil => simp [idmM_nil]
  | cons x a ih =>
    obtain ⟨k, x⟩ := x
    simp [idmM_cons, ih, add_assoc]

theorem idmM_id (c : Nat) (ms : Members) :
    idmM (("id", idValue c) :: ms) = idOf c + idmM ms := by
  rw [idmM_cons, idm_idValue]
  simp [Json.idOfMember, idValue, idOf]

theorem idmM_other (k : String) (x : Json) (ms : Members) (h : k ≠ "id") :
    idmM ((k, x) :: ms) = x.idm + idmM ms := by
  rw [idmM_cons]
  simp [Json.idOfMember, h]

theorem idmM_addPos (ms : Members) (loc : Loc) : idmM (addPos ms loc) = idmM ms := by
  simp [addPos, addLine, addCol, idmM_append, idmM_other, idm_int, idmM_nil]

theorem ensureSonIsArray_idm (v : Visitor) :
    (ensureSonIsArray v).sonValue.idm = v.sonValue.idm := by
  unfold ensureSonIsArray
  cases hv : v.sonValue <;>
    simp [hv, Json.IsArray, Json.IsNull, idm_arr, idmE_cons, idmE_nil, idm_null]

theorem ensureSonIsArray_currentId (v : Visitor) :
    (ensureSonIsArray v).currentId = v.currentId := by
  unfold ensureSonIsArray
  split <;> rfl

/-! ### Fresh ids -/

theorem Good.mono {c c' : Nat} {m : Multiset Int} (h : Good c m) (hc : c ≤ c') : Good c' m :=
  ⟨h.1, fun i hi => ⟨(h.2 i hi).1, lt_of_lt_of_le (h.2 i hi).2 (by exact_mod_cast hc)⟩⟩

theorem Good.sub {c : Nat} {m m' : Multiset Int} (h : Good c m) (hm : m' ≤ m) : Good c m' :=
  ⟨Multiset.nodup_of_le hm h.1, fun i hi => h.2 i (Multiset.mem_of_le hm hi)⟩

theorem Good.congr {c : Nat} {m m' : Multiset Int} (h : Good c m) (hm : m = m') : Good c m' :=
  hm ▸ h

theorem Good.drop {c : Nat} {m d : Multiset Int} (h : Good c (m + d)) : Good c m :=
  h.sub (Multiset.le_add_right _ _)

theorem Good.step {c : Nat} {m : Multiset Int} (h : Good c m) (hc : c < UINT_MOD) :
    Good (c + 1) (idOf c + m) := by
  unfold idOf
  rw [Nat.mod_eq_of_lt hc, Multiset.singleton_add]
  refine ⟨Multiset.nodup_cons.2 ⟨fun hmem => lt_irrefl _ (h.2 _ hmem).2, h.1⟩, ?_⟩
  intro i hi
  rcases Multiset.mem_cons.1 hi with rfl | hi
  · exact ⟨Int.ofNat_nonneg c, by exact_mod_cast Nat.lt_succ_self c⟩
  · exact ⟨(h.2 i hi).1, lt_trans (h.2 i hi).2 (by exact_mod_cast Nat.lt_succ_self c)⟩

theorem Post.refl (F : Multiset Int) (v : Visitor) : Post F v v :=
  ⟨Nat.le_refl _, fun _ h => h⟩

theorem Post.trans {F : Multiset Int} {v v1 w : Visitor} (h1 : Post F v v1) (h2 : Post F v1 w) :
    Post F v w :=
  ⟨Nat.le_trans h1.1 h2.1, fun hw hg => h2.2 hw (h1.2 (Nat.le_trans h2.1 hw) hg)⟩

/-- Use of a `Post` fact when the ids at hand are known up to rearrangement. -/
theorem Post.good {F X : Multiset Int} {v w : Visitor} {c : Nat} (h : Post F v w)
    (hM : w.currentId ≤ UINT_MOD) (hc : c = v.currentId)
    (hg : Good c X) (hX : X = F + v.sonValue.idm) : Good w.currentId (F + w.sonValue.idm) :=
  h.2 hM (hX ▸ hc ▸ hg)

theorem PostArr.goodArr {F X : Multiset Int} {acc acc' : List Json} {v w : Visitor} {c : Nat}
    (h : PostArr F acc v acc' w) (hM : w.currentId ≤ UINT_MOD) (hc : c = v.currentId)
    (hg : Good c X) (hX : X = F + idmE acc + v.sonValue.idm) :
    Good w.currentId (F + idmE acc' + w.sonValue.idm) :=
  h.2 hM (hX ▸ hc ▸ hg)

/-- A leaf arm: the slot is replaced by a node that holds the one new id. -/
theorem Post.leaf (F : Multiset Int) (v : Visitor) (son : Json) (b : Bool)
    (hson : son.idm = idOf v.currentId) :
    Post F v { currentId := v.currentId + 1, sonValue := son, iofunctionStarted := b } := by
  refine ⟨Nat.le_succ _, fun hM hg => ?_⟩
  simp only at hM ⊢
  rw [hson, add_comm F]
  exact hg.drop.step (by omega)

theorem idm_messageValue (loc : Loc) (t x d : String) (v : Visitor) :
    (createMessageValue loc t x d v).1.idm = idOf v.currentId := by
  simp [createMessageValue, addId, idm_obj, idmM_append, idmM_addPos, idmM_id, idmM_other,
    idmM_nil, idm_str]

theorem createMessageValue_visitor (loc : Loc) (t x d : String) (v : Visitor) :
    (createMessageValue loc t x d v).2 = { v with currentId := v.currentId + 1 } := by
  simp [createMessageValue, addId]

/-! ### Ids kept by the rewriting of a member declaration -/

theorem idmM_eraseMember (k : String) :
    ∀ (ms ms' : Members), Json.eraseMember k ms = some ms' → idmM ms' ≤ idmM ms := by
  intro ms
  induction ms with
  | nil => intro ms' h; cases h
  | cons m rest ih =>
    intro ms' h
    obtain ⟨k', x⟩ := m
    simp only [Json.eraseMember] at h
    split at h
    · cases h
      rw [idmM_cons]
      exact Multiset.le_add_left _ _
    · cases hr : Json.eraseMember k rest with
      | none => simp [hr] at h
      | some r =>
        simp only [hr, Option.map_some', Option.some.injEq] at h
        subst h
        rw [idmM_cons, idmM_cons]
        exact add_le_add_left (ih r hr) _

theorem idmM_nullMember (k : String) (hk : k ≠ "id") :
    ∀ (ms : Members) (x : Json), Json.findMember k ms = some x →
      idmM (Json.nullMember k ms) + x.idm = idmM ms := by
  intro ms
  induction ms with
  | nil => intro x h; cases h
  | cons m rest ih =>
    intro x h
    obtain ⟨k', y⟩ := m
    simp only [Json.findMember] at h
    simp only [Json.nullMember]
    split at h
    · rename_i hkk
      cases h
      subst hkk
      simp only [ite_true]
      rw [idmM_other _ _ _ hk, idmM_other _ _ _ hk, idm_null]
      abel
    · rename_i hkk
      simp only [hkk, ite_false]
      rw [idmM_cons, idmM_cons, add_assoc, ih x h]

theorem idmM_memberRewrite (x : Json) (ms : Members) (h : memberRewrite x = some ms) :
    idmM ms ≤ x.idm := by
  unfold memberRewrite at h
  cases x with
  | obj ms0 =>
    simp only at h
    cases h1 : Json.eraseMember "data-type" (ms0 ++ [("type", Json.str "string")]) with
    | none => simp [h1] at h
    | some ms1 =>
      simp only [h1] at h
      cases h2 : Json.findMember "name" ms1 with
      | none => simp [h2] at h
      | some nameValue =>
        simp only [h2] at h
        have e1 := idmM_eraseMember _ _ _ h
        have e2 := idmM_nullMember "name" (by decide) ms1 nameValue h2
        have e3 := idmM_eraseMember _ _ _ h1
        rw [idmM_append, idmM_other _ _ _ (by decide), idmM_nil, add_zero] at e1
        rw [e2] at e1
        rw [idmM_append, idmM_other _ _ _ (by decide), idm_str, idmM_nil, add_zero,
          add_zero] at e3
        rw [idm_obj]
        exact le_trans e1 e3
  | _ => simp at h

/-! ### Ids of the nodes the type mapper builds -/

theorem wrapVector_post (n : Nat) :
    ∀ (a : Json) (v : Visitor),
      (wrapVector n a v).2 = { v with currentId := v.currentId + n } ∧
      (v.currentId + n ≤ UINT_MOD → ∀ X, Good v.currentId (X + a.idm) →
        Good (v.currentId + n) (X + (wrapVector n a v).1.idm)) := by
  induction n with
  | zero =>
    intro a v
    exact ⟨rfl, fun _ X h => h⟩
  | succ n ih =>
    intro a v
    simp only [wrapVector, addId, List.nil_append]
    obtain ⟨h1, h2⟩ := ih
      (Json.obj ([("id", idValue v.currentId)] ++
        [("name", Json.str "vector"), ("data-type", a)]))
      { v with currentId := v.currentId + 1 }
    refine ⟨by rw [h1]; simp only [Visitor.mk.injEq, and_true]; omega, fun hM X hg => ?_⟩
    have hlt : v.currentId < UINT_MOD := by omega
    have := h2 (by simp only; omega) X ((hg.step hlt).congr (by
      simp [idm_obj, idmM_append, idmM_id, idmM_other, idmM_nil, idm_str] <;> abel))
    simp only at this
    rw [show v.currentId + (n + 1) = v.currentId + 1 + n by omega]
    exact this

theorem createVectorValue_post {typeName : String} {v w : Visitor} {j : Json}
    (h : createVectorValue typeName v = Res.ok j w) : PostType v j w := by
  unfold createVectorValue at h
  split at h
  · cases h
  · split at h
    · cases h
    · cases h
    · rename_i depth innerMostType _
      simp only [addId, List.nil_append] at h
      injection h with h1 h2
      obtain ⟨w1, w2⟩ := wrapVector_post depth
        (Json.obj ([("id", idValue v.currentId)] ++ [("name", Json.str innerMostType)]))
        { v with currentId := v.currentId + 1 }
      rw [w1] at h2
      subst h1 h2
      refine ⟨by simp only; omega, rfl, fun hM X hg => ?_⟩
      simp only at hM ⊢
      have hlt : v.currentId < UINT_MOD := by omega
      exact w2 hM X ((hg.step hlt).congr (by
        simp [idm_obj, idmM_append, idmM_id, idmM_other, idmM_nil, idm_str] <;> abel))

theorem createTypeValue_post {type : TypeDesc} {v w : Visitor} {j : Json}
    (h : createTypeValue type v = Res.ok j w) : PostType v j w := by
  unfold createTypeValue at h
  split at h
  · exact createVectorValue_post h
  · simp only [createTypeValueStr, addId, List.nil_append] at h
    injection h with h1 h2
    subst h1 h2
    refine ⟨Nat.le_succ _, rfl, fun hM X hg => ?_⟩
    simp only at hM ⊢
    exact (hg.step (by omega)).congr (by
      simp [idm_obj, idmM_append, idmM_id, idmM_other, idmM_nil, idm_str] <;> abel)

/-! ### Distinct ids along the traversal -/

theorem TraverseStmt_skipped (S : Stmt) (v : Visitor) (h : S.skipped = true) :
    TraverseStmt S v = Res.ok () v := by
  unfold TraverseStmt
  simp only [h, ite_true]

theorem TraverseDecl_skipped (D : Decl) (v : Visitor) (h : D.loc.inMain = false) :
    TraverseDecl D v = Res.ok () v := by
  unfold TraverseDecl
  simp [h]

set_option maxHeartbeats 4000000

mutual
theorem TraverseStmt_post (S : Stmt) (F : Multiset Int) (v w : Visitor)
    (h : TraverseStmt S v = Res.ok () w) : Post F v w := by
  by_cases hs : S.skipped = true
  · rw [TraverseStmt_skipped S v hs] at h
    cases h
    exact Post.refl _ _
  · unfold TraverseStmt at h
    simp only [hs, ite_false, Bool.false_eq_true] at h
    cases S with
    | null => simp [Stmt.skipped, Stmt.loc?] at hs
    | ImplicitCastExpr loc subExpr =>
      exact TraverseStmt_post subExpr F v w h
    | other loc children =>
      exact TraverseChildren_post children F v w h
    | DoStmt loc body cond =>
      simp only [addId, createBlockValue, createMessageValue, createBinOpValue, List.nil_append] at h
      simp only [Res.ok.injEq, true_and] at h
      subst h
      exact Post.leaf F v _ _ (by simp [idm_obj, idm_arr, idmM_append, idmM_addPos, idmM_id, idmM_other, idmM_nil, idmE_nil, idmE_cons, idmE_append, idmE_map_null, idmE_replicate_null, idm_null, idm_str, idm_bool, idm_int, idm_double, ensureSonIsArray_idm, ensureSonIsArray_currentId, createIntegerValue])
    | BreakStmt loc =>
      simp only [addId, createBlockValue, createMessageValue, createBinOpValue, List.nil_append] at h
      simp only [Res.ok.injEq, true_and] at h
      subst h
      exact Post.leaf F v _ _ (by simp [idm_obj, idm_arr, idmM_append, idmM_addPos, idmM_id, idmM_other, idmM_nil, idmE_nil, idmE_cons, idmE_append, idmE_map_null, idmE_replicate_null, idm_null, idm_str, idm_bool, idm_int, idm_double, ensureSonIsArray_idm, ensureSonIsArray_currentId, createIntegerValue])
    | LabelStmt loc subStmt =>
      simp only [addId, createBlockValue, createMessageValue, createBinOpValue, List.nil_append] at h
      simp only [Res.ok.injEq, true_and] at h
      subst h
      exact Post.leaf F v _ _ (by simp [idm_obj, idm_arr, idmM_append, idmM_addPos, idmM_id, idmM_other, idmM_nil, idmE_nil, idmE_cons, idmE_append, idmE_map_null, idmE_replicate_null, idm_null, idm_str, idm_bool, idm_int, idm_double, ensureSonIsArray_idm, ensureSonIsArray_currentId, createIntegerValue])
    | GotoStmt loc =>
      simp only [addId, createBlockValue, createMessageValue, createBinOpValue, List.nil_append] at h
      simp only [Res.ok.injEq, true_and] at h
      subst h
      exact Post.leaf F v _ _ (by simp [idm_obj, idm_arr, idmM_append, idmM_addPos, idmM_id, idmM_other, idmM_nil, idmE_nil, idmE_cons, idmE_append, idmE_map_null, idmE_replicate_null, idm_null, idm_str, idm_bool, idm_int, idm_double, ensureSonIsArray_idm, ensureSonIsArray_currentId, createIntegerValue])
    | IntegerLiteral loc value =>
      simp only [addId, createBlockValue, createMessageValue, createBinOpValue, List.nil_append] at h
      simp only [Res.ok.injEq, true_and] at h
      subst h
      exact Post.leaf F v _ _ (by simp [idm_obj, idm_arr, idmM_append, idmM_addPos, idmM_id, idmM_other, idmM_nil, idmE_nil, idmE_cons, idmE_append, idmE_map_null, idmE_replicate_null, idm_null, idm_str, idm_bool, idm_int, idm_double, ensureSonIsArray_idm, ensureSonIsArray_currentId, createIntegerValue])
    | FloatingLiteral loc bits =>
      simp only [addId, createBlockValue, createMessageValue, createBinOpValue, List.nil_append] at h
      simp only [Res.ok.injEq, true_and] at h
      subst h
      exact Post.leaf F v _ _ (by simp [idm_obj, idm_arr, idmM_append, idmM_addPos, idmM_id, idmM_other, idmM_nil, idmE_nil, idmE_cons, idmE_append, idmE_map_null, idmE_replicate_null, idm_null, idm_str, idm_bool, idm_int, idm_double, ensureSonIsArray_idm, ensureSonIsArray_currentId, createFloatingValue])
    | CharacterLiteral loc value =>
      simp only [addId, createBlockValue, createMessageValue, createBinOpValue, List.nil_append] at h
      simp only [Res.ok.injEq, true_and] at h
      subst h
      exact Post.leaf F v _ _ (by simp [idm_obj, idm_arr, idmM_append, idmM_addPos, idmM_id, idmM_other, idmM_nil, idmE_nil, idmE_cons, idmE_append, idmE_map_null, idmE_replicate_null, idm_null, idm_str, idm_bool, idm_int, idm_double, ensureSonIsArray_idm, ensureSonIsArray_currentId, createStringValue])
    | StringLiteral loc value =>
      simp only [addId, createBlockValue, createMessageValue, createBinOpValue, List.nil_append] at h
      simp only [Res.ok.injEq, true_and] at h
      subst h
      exact Post.leaf F v _ _ (by simp [idm_obj, idm_arr, idmM_append, idmM_addPos, idmM_id, idmM_other, idmM_nil, idmE_nil, idmE_cons, idmE_append, idmE_map_null, idmE_replicate_null, idm_null, idm_str, idm_bool, idm_int, idm_double, ensureSonIsArray_idm, ensureSonIsArray_currentId, createStringValue])
    | CXXBoolLiteralExpr loc value =>
      simp only [addId, createBlockValue, createMessageValue, createBinOpValue, List.nil_append] at h
      simp only [Res.ok.injEq, true_and] at h
      subst h
      exact Post.leaf F v _ _ (by simp [idm_obj, idm_arr, idmM_append, idmM_addPos, idmM_id, idmM_other, idmM_nil, idmE_nil, idmE_cons, idmE_append, idmE_map_null, idmE_replicate_null, idm_null, idm_str, idm_bool, idm_int, idm_double, ensureSonIsArray_idm, ensureSonIsArray_currentId, createBoolValue])
    | DeclRefExpr loc name typeName =>
      simp only [addId, createBlockValue, createMessageValue, createBinOpValue, List.nil_append] at h
      split at h
      · cases h
        exact Post.refl _ _
      · split at h
        · simp only [Res.ok.injEq, true_and] at h
          subst h
          exact Post.leaf F v _ _ (by
            split <;> simp [idm_obj, idm_arr, idmM_append, idmM_addPos, idmM_id, idmM_other, idmM_nil, idmE_nil, idmE_cons, idmE_append, idmE_map_null, idmE_replicate_null, idm_null, idm_str, idm_bool, idm_int, idm_double, ensureSonIsArray_idm, ensureSonIsArray_currentId])
        · simp only [Res.ok.injEq, true_and] at h
          subst h
          exact Post.leaf F v _ _ (by simp [idm_obj, idm_arr, idmM_append, idmM_addPos, idmM_id, idmM_other, idmM_nil, idmE_nil, idmE_cons, idmE_append, idmE_map_null, idmE_replicate_null, idm_null, idm_str, idm_bool, idm_int, idm_double, ensureSonIsArray_idm, ensureSonIsArray_currentId, createIdentifierValue])
    | ReturnStmt loc retValue =>
      simp only [addId, createBlockValue, createMessageValue, createBinOpValue, List.nil_append] at h
      obtain ⟨_, v1, h1, h2⟩ := TRY_TO_eq_ok h
      have p1 := TraverseStmt_post retValue (idOf v.currentId + F) _ v1 h1
      simp only [Res.ok.injEq, true_and] at h2
      subst h2
      have m1 := p1.1
      simp only at m1
      refine ⟨by simp only; omega, fun hM hg => ?_⟩
      simp only at hM ⊢
      have g1 := p1.good hM rfl (hg.step (by omega)) (by simp [idm_obj, idm_arr, idmM_append, idmM_addPos, idmM_id, idmM_other, idmM_nil, idmE_nil, idmE_cons, idmE_append, idmE_map_null, idmE_replicate_null, idm_null, idm_str, idm_bool, idm_int, idm_double, ensureSonIsArray_idm, ensureSonIsArray_currentId] <;> abel)
      exact g1.congr (by simp [idm_obj, idm_arr, idmM_append, idmM_addPos, idmM_id, idmM_other, idmM_nil, idmE_nil, idmE_cons, idmE_append, idmE_map_null, idmE_replicate_null, idm_null, idm_str, idm_bool, idm_int, idm_double, ensureSonIsArray_idm, ensureSonIsArray_currentId] <;> abel)
    | UnaryOperator loc opcode subExpr =>
      simp only [addId, createBlockValue, createMessageValue, createBinOpValue, List.nil_append] at h
      obtain ⟨_, v1, h1, h2⟩ := TRY_TO_eq_ok h
      have p1 := TraverseStmt_post subExpr F _ v1 h1
      simp only [Res.ok.injEq, true_and] at h2
      subst h2
      have m1 := p1.1
      refine ⟨by simp only; omega, fun hM hg => ?_⟩
      simp only at hM ⊢
      have g1 := p1.good (by omega) rfl hg rfl
      exact (g1.step (by omega)).congr (by simp [idm_obj, idm_arr, idmM_append, idmM_addPos, idmM_id, idmM_other, idmM_nil, idmE_nil, idmE_cons, idmE_append, idmE_map_null, idmE_replicate_null, idm_null, idm_str, idm_bool, idm_int, idm_double, ensureSonIsArray_idm, ensureSonIsArray_currentId] <;> abel)
    | BinaryOperator loc opcode lhs rhs =>
      simp only [addId, createBlockValue, createMessageValue, createBinOpValue, List.nil_append] at h
      split at h
      · simp only [Res.ok.injEq, true_and] at h
        subst h
        exact Post.leaf F v _ _ (by simp [idm_obj, idm_arr, idmM_append, idmM_addPos, idmM_id, idmM_other, idmM_nil, idmE_nil, idmE_cons, idmE_append, idmE_map_null, idmE_replicate_null, idm_null, idm_str, idm_bool, idm_int, idm_double, ensureSonIsArray_idm, ensureSonIsArray_currentId])
      · obtain ⟨_, v1, h1, h2⟩ := TRY_TO_eq_ok h
        obtain ⟨_, v2, h3, h4⟩ := TRY_TO_eq_ok h2
        have p1 := TraverseStmt_post lhs F _ v1 h1
        have p2 := TraverseStmt_post rhs (F + v1.sonValue.idm) _ v2 h3
        simp only [Res.ok.injEq, true_and] at h4
        subst h4
        have m1 := p1.1
        have m2 := p2.1
        simp only at m2
        refine ⟨by simp only; omega, fun hM hg => ?_⟩
        simp only at hM ⊢
        have g1 := p1.good (by omega) rfl hg rfl
        have g2 := p2.good (by omega) rfl g1 (by simp [idm_obj, idm_arr, idmM_append, idmM_addPos, idmM_id, idmM_other, idmM_nil, idmE_nil, idmE_cons, idmE_append, idmE_map_null, idmE_replicate_null, idm_null, idm_str, idm_bool, idm_int, idm_double, ensureSonIsArray_idm, ensureSonIsArray_currentId] <;> abel)
        exact (g2.step (by omega)).congr (by simp [idm_obj, idm_arr, idmM_append, idmM_addPos, idmM_id, idmM_other, idmM_nil, idmE_nil, idmE_cons, idmE_append, idmE_map_null, idmE_replicate_null, idm_null, idm_str, idm_bool, idm_int, idm_double, ensureSonIsArray_idm, ensureSonIsArray_currentId] <;> abel)
    | IfStmt loc conditionVariable cond thenS elseS =>
      simp only [addId, createBlockValue, createMessageValue, createBinOpValue, List.nil_append] at h
      cases conditionVariable with
      | some varLoc =>
        simp only at h
        obtain ⟨_, v2, h3, h4⟩ := TRY_TO_eq_ok h
        have p3 := TraverseStmt_post thenS (idOf v.currentId + idOf (v.currentId + 1) + F) _ v2 h3
        have m3 := p3.1
        simp only at m3
        split at h4
        · obtain ⟨_, v3, h5, h6⟩ := TRY_TO_eq_ok h4
          have p5 := TraverseStmt_post elseS
            (idOf v.currentId + idOf (v.currentId + 1) + F + idOf v2.currentId + v2.sonValue.idm)
            _ v3 h5
          simp only [ensureSonIsArray_currentId] at p5
          have m5 := p5.1
          simp only at m5
          simp only [Res.ok.injEq, true_and] at h6
          subst h6
          refine ⟨by simp only [ensureSonIsArray_currentId]; omega, fun hM hg => ?_⟩
          simp only [ensureSonIsArray_currentId] at hM ⊢
          have g3 := p3.good (by omega) rfl ((hg.step (by omega)).step (by omega)) (by simp [idm_obj, idm_arr, idmM_append, idmM_addPos, idmM_id, idmM_other, idmM_nil, idmE_nil, idmE_cons, idmE_append, idmE_map_null, idmE_replicate_null, idm_null, idm_str, idm_bool, idm_int, idm_double, ensureSonIsArray_idm, ensureSonIsArray_currentId] <;> abel)
          have g5 := p5.good (by omega) rfl (g3.step (by omega)) (by simp [idm_obj, idm_arr, idmM_append, idmM_addPos, idmM_id, idmM_other, idmM_nil, idmE_nil, idmE_cons, idmE_append, idmE_map_null, idmE_replicate_null, idm_null, idm_str, idm_bool, idm_int, idm_double, ensureSonIsArray_idm, ensureSonIsArray_currentId] <;> abel)
          exact (g5.step (by omega)).congr (by simp [idm_obj, idm_arr, idmM_append, idmM_addPos, idmM_id, idmM_other, idmM_nil, idmE_nil, idmE_cons, idmE_append, idmE_map_null, idmE_replicate_null, idm_null, idm_str, idm_bool, idm_int, idm_double, ensureSonIsArray_idm, ensureSonIsArray_currentId] <;> abel)
        · simp only [Res.ok.injEq, true_and] at h4
          subst h4
          refine ⟨by simp only [ensureSonIsArray_currentId]; omega, fun hM hg => ?_⟩
          simp only [ensureSonIsArray_currentId] at hM ⊢
          have g3 := p3.good (by omega) rfl ((hg.step (by omega)).step (by omega)) (by simp [idm_obj, idm_arr, idmM_append, idmM_addPos, idmM_id, idmM_other, idmM_nil, idmE_nil, idmE_cons, idmE_append, idmE_map_null, idmE_replicate_null, idm_null, idm_str, idm_bool, idm_int, idm_double, ensureSonIsArray_idm, ensureSonIsArray_currentId] <;> abel)
          exact (g3.step (by omega)).congr (by simp [idm_obj, idm_arr, idmM_append, idmM_addPos, idmM_id, idmM_other, idmM_nil, idmE_nil, idmE_cons, idmE_append, idmE_map_null, idmE_replicate_null, idm_null, idm_str, idm_bool, idm_int, idm_double, ensureSonIsArray_idm, ensureSonIsArray_currentId] <;> abel)
      | none =>
        simp only at h
        obtain ⟨_, v1, h1, h2⟩ := TRY_TO_eq_ok h
        have p1 := TraverseStmt_post cond (idOf v.currentId + F) _ v1 h1
        have m1 := p1.1
        simp only at m1
        obtain ⟨_, v2, h3, h4⟩ := TRY_TO_eq_ok h2
        have p3 := TraverseStmt_post thenS (idOf v.currentId + F + v1.sonValue.idm) _ v2 h3
        have m3 := p3.1
        simp only at m3
        split at h4
        · obtain ⟨_, v3, h5, h6⟩ := TRY_TO_eq_ok h4
          have p5 := TraverseStmt_post elseS
            (idOf v.currentId + F + v1.sonValue.idm + idOf v2.currentId + v2.sonValue.idm)
            _ v3 h5
          simp only [ensureSonIsArray_currentId] at p5
          have m5 := p5.1
          simp only at m5
          simp only [Res.ok.injEq, true_and] at h6
          subst h6
          refine ⟨by simp only [ensureSonIsArray_currentId]; omega, fun hM hg => ?_⟩
          simp only [ensureSonIsArray_currentId] at hM ⊢
          have g1 := p1.good (by omega) rfl (hg.step (by omega)) (by simp [idm_obj, idm_arr, idmM_append, idmM_addPos, idmM_id, idmM_other, idmM_nil, idmE_nil, idmE_cons, idmE_append, idmE_map_null, idmE_replicate_null, idm_null, idm_str, idm_bool, idm_int, idm_double, ensureSonIsArray_idm, ensureSonIsArray_currentId] <;> abel)
          have g3 := p3.good (by omega) rfl g1 (by simp [idm_obj, idm_arr, idmM_append, idmM_addPos, idmM_id, idmM_other, idmM_nil, idmE_nil, idmE_cons, idmE_append, idmE_map_null, idmE_replicate_null, idm_null, idm_str, idm_bool, idm_int, idm_double, ensureSonIsArray_idm, ensureSonIsArray_currentId] <;> abel)
          have g5 := p5.good (by omega) rfl (g3.step (by omega)) (by simp [idm_obj, idm_arr, idmM_append, idmM_addPos, idmM_id, idmM_other, idmM_nil, idmE_nil, idmE_cons, idmE_append, idmE_map_null, idmE_replicate_null, idm_null, idm_str, idm_bool, idm_int, idm_double, ensureSonIsArray_idm, ensureSonIsArray_currentId] <;> abel)
          exact (g5.step (by omega)).congr (by simp [idm_obj, idm_arr, idmM_append, idmM_addPos, idmM_id, idmM_other, idmM_nil, idmE_nil, idmE_cons, idmE_append, idmE_map_null, idmE_replicate_null, idm_null, idm_str, idm_bool, idm_int, idm_double, ensureSonIsArray_idm, ensureSonIsArray_currentId] <;> abel)
        · simp only [Res.ok.injEq, true_and] at h4
          subst h4
          refine ⟨by simp only [ensureSonIsArray_currentId]; omega, fun hM hg => ?_⟩
          simp only [ensureSonIsArray_currentId] at hM ⊢
          have g1 := p1.good (by omega) rfl (hg.step (by omega)) (by simp [idm_obj, idm_arr, idmM_append, idmM_addPos, idmM_id, idmM_other, idmM_nil, idmE_nil, idmE_cons, idmE_append, idmE_map_null, idmE_replicate_null, idm_null, idm_str, idm_bool, idm_int, idm_double, ensureSonIsArray_idm, ensureSonIsArray_currentId] <;> abel)
          have g3 := p3.good (by omega) rfl g1 (by simp [idm_obj, idm_arr, idmM_append, idmM_addPos, idmM_id, idmM_other, idmM_nil, idmE_nil, idmE_cons, idmE_append, idmE_map_null, idmE_replicate_null, idm_null, idm_str, idm_bool, idm_int, idm_double, ensureSonIsArray_idm, ensureSonIsArray_currentId] <;> abel)
          exact (g3.step (by omega)).congr (by simp [idm_obj, idm_arr, idmM_append, idmM_addPos, idmM_id, idmM_other, idmM_nil, idmE_nil, idmE_cons, idmE_append, idmE_map_null, idmE_replicate_null, idm_null, idm_str, idm_bool, idm_int, idm_double, ensureSonIsArray_idm, ensureSonIsArray_currentId] <;> abel)
    | WhileStmt loc conditionVariable cond body =>
      simp only [addId, createBlockValue, createMessageValue, createBinOpValue, List.nil_append] at h
      cases conditionVariable with
      | some varLoc =>
        simp only at h
        obtain ⟨_, v2, h3, h4⟩ := TRY_TO_eq_ok h
        have p3 := TraverseStmt_post body (idOf v.currentId + idOf (v.currentId + 1) + F) _ v2 h3
        have m3 := p3.1
        simp only at m3
        simp only [Res.ok.injEq, true_and] at h4
        subst h4
        refine ⟨by simp only [ensureSonIsArray_currentId]; omega, fun hM hg => ?_⟩
        simp only [ensureSonIsArray_currentId] at hM ⊢
        have g3 := p3.good (by omega) rfl ((hg.step (by omega)).step (by omega)) (by simp [idm_obj, idm_arr, idmM_append, idmM_addPos, idmM_id, idmM_other, idmM_nil, idmE_nil, idmE_cons, idmE_append, idmE_map_null, idmE_replicate_null, idm_null, idm_str, idm_bool, idm_int, idm_double, ensureSonIsArray_idm, ensureSonIsArray_currentId] <;> abel)
        exact (g3.step (by omega)).congr (by simp [idm_obj, idm_arr, idmM_append, idmM_addPos, idmM_id, idmM_other, idmM_nil, idmE_nil, idmE_cons, idmE_append, idmE_map_null, idmE_replicate_null, idm_null, idm_str, idm_bool, idm_int, idm_double, ensureSonIsArray_idm, ensureSonIsArray_currentId] <;> abel)
      | none =>
        simp only at h
        obtain ⟨_, v1, h1, h2⟩ := TRY_TO_eq_ok h
        have p1 := TraverseStmt_post cond (idOf v.currentId + F) _ v1 h1
        have m1 := p1.1
        simp only at m1
        obtain ⟨_, v2, h3, h4⟩ := TRY_TO_eq_ok h2
        have p3 := TraverseStmt_post body (idOf v.currentId + F + v1.sonValue.idm) _ v2 h3
        have m3 := p3.1
        simp only at m3
        simp only [Res.ok.injEq, true_and] at h4
        subst h4
        refine ⟨by simp only [ensureSonIsArray_currentId]; omega, fun hM hg => ?_⟩
        simp only [ensureSonIsArray_currentId] at hM ⊢
        have g1 := p1.good (by omega) rfl (hg.step (by omega)) (by simp [idm_obj, idm_arr, idmM_append, idmM_addPos, idmM_id, idmM_other, idmM_nil, idmE_nil, idmE_cons, idmE_append, idmE_map_null, idmE_replicate_null, idm_null, idm_str, idm_bool, idm_int, idm_double, ensureSonIsArray_idm, ensureSonIsArray_currentId] <;> abel)
        have g3 := p3.good (by omega) rfl g1 (by simp [idm_obj, idm_arr, idmM_append, idmM_addPos, idmM_id, idmM_other, idmM_nil, idmE_nil, idmE_cons, idmE_append, idmE_map_null, idmE_replicate_null, idm_null, idm_str, idm_bool, idm_int, idm_double, ensureSonIsArray_idm, ensureSonIsArray_currentId] <;> abel)
        exact (g3.step (by omega)).congr (by simp [idm_obj, idm_arr, idmM_append, idmM_addPos, idmM_id, idmM_other, idmM_nil, idmE_nil, idmE_cons, idmE_append, idmE_map_null, idmE_replicate_null, idm_null, idm_str, idm_bool, idm_int, idm_double, ensureSonIsArray_idm, ensureSonIsArray_currentId] <;> abel)
    | ForStmt loc init cond inc body =>
      simp only [addId, createBlockValue, createMessageValue, createBinOpValue, List.nil_append] at h
      obtain ⟨_, v1, h1, h2⟩ := TRY_TO_eq_ok h
      have p1 := TraverseStmt_post init (idOf v.currentId + F) _ v1 h1
      have m1 := p1.1
      simp only at m1
      by_cases ha : v1.sonValue.IsArray = true
      · simp only [ha, ite_true] at h2
        obtain ⟨_, v2, h3, h4⟩ := TRY_TO_eq_ok h2
        have p3 := TraverseStmt_post cond (idOf v.currentId + F + idOf v1.currentId) _ v2 h3
        have m3 := p3.1
        simp only at m3
        obtain ⟨_, v3, h5, h6⟩ := TRY_TO_eq_ok h4
        have p5 := TraverseStmt_post inc (idOf v.currentId + F + idOf v1.currentId + v2.sonValue.idm) _ v3 h5
        have m5 := p5.1
        simp only at m5
        obtain ⟨_, v4, h7, h8⟩ := TRY_TO_eq_ok h6
        have p7 := TraverseStmt_post body (idOf v.currentId + F + idOf v1.currentId + v2.sonValue.idm + v3.sonValue.idm) _ v4 h7
        have m7 := p7.1
        simp only at m7
        simp only [Res.ok.injEq, true_and] at h8
        subst h8
        refine ⟨by simp only [ensureSonIsArray_currentId]; omega, fun hM hg => ?_⟩
        simp only [ensureSonIsArray_currentId] at hM ⊢
        have g1 := p1.good (by omega) rfl (hg.step (by omega)) (by simp [idm_obj, idm_arr, idmM_append, idmM_addPos, idmM_id, idmM_other, idmM_nil, idmE_nil, idmE_cons, idmE_append, idmE_map_null, idmE_replicate_null, idm_null, idm_str, idm_bool, idm_int, idm_double, ensureSonIsArray_idm, ensureSonIsArray_currentId] <;> abel)
        have g3 := p3.good (by omega) rfl (g1.drop.step (by omega)) (by simp [idm_obj, idm_arr, idmM_append, idmM_addPos, idmM_id, idmM_other, idmM_nil, idmE_nil, idmE_cons, idmE_append, idmE_map_null, idmE_replicate_null, idm_null, idm_str, idm_bool, idm_int, idm_double, ensureSonIsArray_idm, ensureSonIsArray_currentId] <;> abel)
        have g5 := p5.good (by omega) rfl g3 (by simp [idm_obj, idm_arr, idmM_append, idmM_addPos, idmM_id, idmM_other, idmM_nil, idmE_nil, idmE_cons, idmE_append, idmE_map_null, idmE_replicate_null, idm_null, idm_str, idm_bool, idm_int, idm_double, ensureSonIsArray_idm, ensureSonIsArray_currentId] <;> abel)
        have g7 := p7.good (by omega) rfl g5 (by simp [idm_obj, idm_arr, idmM_append, idmM_addPos, idmM_id, idmM_other, idmM_nil, idmE_nil, idmE_cons, idmE_append, idmE_map_null, idmE_replicate_null, idm_null, idm_str, idm_bool, idm_int, idm_double, ensureSonIsArray_idm, ensureSonIsArray_currentId] <;> abel)
        exact (g7.step (by omega)).congr (by simp [idm_obj, idm_arr, idmM_append, idmM_addPos, idmM_id, idmM_other, idmM_nil, idmE_nil, idmE_cons, idmE_append, idmE_map_null, idmE_replicate_null, idm_null, idm_str, idm_bool, idm_int, idm_double, ensureSonIsArray_idm, ensureSonIsArray_currentId] <;> abel)

      · simp only [ha, ite_false, Bool.false_eq_true] at h2
        obtain ⟨_, v2, h3, h4⟩ := TRY_TO_eq_ok h2
        have p3 := TraverseStmt_post cond (idOf v.currentId + F + v1.sonValue.idm) _ v2 h3
        have m3 := p3.1
        simp only at m3
        obtain ⟨_, v3, h5, h6⟩ := TRY_TO_eq_ok h4
        have p5 := TraverseStmt_post inc (idOf v.currentId + F + v1.sonValue.idm + v2.sonValue.idm) _ v3 h5
        have m5 := p5.1
        simp only at m5
        obtain ⟨_, v4, h7, h8⟩ := TRY_TO_eq_ok h6
        have p7 := TraverseStmt_post body (idOf v.currentId + F + v1.sonValue.idm + v2.sonValue.idm + v3.sonValue.idm) _ v4 h7
        have m7 := p7.1
        simp only at m7
        simp only [Res.ok.injEq, true_and] at h8
        subst h8
        refine ⟨by simp only [ensureSonIsArray_currentId]; omega, fun hM hg => ?_⟩
        simp only [ensureSonIsArray_currentId] at hM ⊢
        have g1 := p1.good (by omega) rfl (hg.step (by omega)) (by simp [idm_obj, idm_arr, idmM_append, idmM_addPos, idmM_id, idmM_other, idmM_nil, idmE_nil, idmE_cons, idmE_append, idmE_map_null, idmE_replicate_null, idm_null, idm_str, idm_bool, idm_int, idm_double, ensureSonIsArray_idm, ensureSonIsArray_currentId] <;> abel)
        have g3 := p3.good (by omega) rfl (g1) (by simp [idm_obj, idm_arr, idmM_append, idmM_addPos, idmM_id, idmM_other, idmM_nil, idmE_nil, idmE_cons, idmE_append, idmE_map_null, idmE_replicate_null, idm_null, idm_str, idm_bool, idm_int, idm_double, ensureSonIsArray_idm, ensureSonIsArray_currentId] <;> abel)
        have g5 := p5.good (by omega) rfl g3 (by simp [idm_obj, idm_arr, idmM_append, idmM_addPos, idmM_id, idmM_other, idmM_nil, idmE_nil, idmE_cons, idmE_append, idmE_map_null, idmE_replicate_null, idm_null, idm_str, idm_bool, idm_int, idm_double, ensureSonIsArray_idm, ensureSonIsArray_currentId] <;> abel)
        have g7 := p7.good (by omega) rfl g5 (by simp [idm_obj, idm_arr, idmM_append, idmM_addPos, idmM_id, idmM_other, idmM_nil, idmE_nil, idmE_cons, idmE_append, idmE_map_null, idmE_replicate_null, idm_null, idm_str, idm_bool, idm_int, idm_double, ensureSonIsArray_idm, ensureSonIsArray_currentId] <;> abel)
        exact (g7.step (by omega)).congr (by simp [idm_obj, idm_arr, idmM_append, idmM_addPos, idmM_id, idmM_other, idmM_nil, idmE_nil, idmE_cons, idmE_append, idmE_map_null, idmE_replicate_null, idm_null, idm_str, idm_bool, idm_int, idm_double, ensureSonIsArray_idm, ensureSonIsArray_currentId] <;> abel)

    | CompoundStmt loc body =>
      simp only at h
      obtain ⟨out, v1, h1, h2⟩ := TRY_TO_eq_ok h
      have p1 := TraverseCompoundBody_post body F [] out v v1 h1
      simp only [Res.ok.injEq, true_and] at h2
      subst h2
      refine ⟨p1.1, fun hM hg => ?_⟩
      simp only at hM ⊢
      have g1 := p1.goodArr hM rfl hg (by simp [idm_obj, idm_arr, idmM_append, idmM_addPos, idmM_id, idmM_other, idmM_nil, idmE_nil, idmE_cons, idmE_append, idmE_map_null, idmE_replicate_null, idm_null, idm_str, idm_bool, idm_int, idm_double, ensureSonIsArray_idm, ensureSonIsArray_currentId] <;> abel)
      exact g1.drop.congr (by simp [idm_obj, idm_arr, idmM_append, idmM_addPos, idmM_id, idmM_other, idmM_nil, idmE_nil, idmE_cons, idmE_append, idmE_map_null, idmE_replicate_null, idm_null, idm_str, idm_bool, idm_int, idm_double, ensureSonIsArray_idm, ensureSonIsArray_currentId] <;> abel)
    | CallExpr loc callee args =>
      cases callee with
      | none =>
        simp only [Res.ok.injEq, true_and] at h
        subst h
        exact Post.refl _ _
      | some functionName =>
        simp only [addId, createBlockValue, createMessageValue, createBinOpValue, List.nil_append] at h
        obtain ⟨out, v1, h1, h2⟩ := TRY_TO_eq_ok h
        have p1 := TraversePushArgs_post args (idOf v.currentId + F) [] out _ v1 h1
        have m1 := p1.1
        simp only at m1
        simp only [Res.ok.injEq, true_and] at h2
        subst h2
        refine ⟨by simp only; omega, fun hM hg => ?_⟩
        simp only at hM ⊢
        have g1 := p1.goodArr hM rfl (hg.step (by omega)) (by simp [idm_obj, idm_arr, idmM_append, idmM_addPos, idmM_id, idmM_other, idmM_nil, idmE_nil, idmE_cons, idmE_append, idmE_map_null, idmE_replicate_null, idm_null, idm_str, idm_bool, idm_int, idm_double, ensureSonIsArray_idm, ensureSonIsArray_currentId] <;> abel)
        exact g1.drop.congr (by simp [idm_obj, idm_arr, idmM_append, idmM_addPos, idmM_id, idmM_other, idmM_nil, idmE_nil, idmE_cons, idmE_append, idmE_map_null, idmE_replicate_null, idm_null, idm_str, idm_bool, idm_int, idm_double, ensureSonIsArray_idm, ensureSonIsArray_currentId] <;> abel)
    | CXXMemberCallExpr loc methodName objectExpr args =>
      simp only [addId, createBlockValue, createMessageValue, createBinOpValue, List.nil_append] at h
      obtain ⟨out, v1, h1, h2⟩ := TRY_TO_eq_ok h
      have p1 := TraversePushArgs_post args (idOf v.currentId + F) [] out _ v1 h1
      have m1 := p1.1
      simp only at m1
      obtain ⟨_, v2, h3, h4⟩ := TRY_TO_eq_ok h2
      have p3 := TraverseStmt_post objectExpr (idOf v.currentId + F + idmE out) _ v2 h3
      have m3 := p3.1
      simp only [Res.ok.injEq, true_and] at h4
      subst h4
      refine ⟨by simp only; omega, fun hM hg => ?_⟩
      simp only at hM ⊢
      have g1 := p1.goodArr (by omega) rfl (hg.step (by omega)) (by simp [idm_obj, idm_arr, idmM_append, idmM_addPos, idmM_id, idmM_other, idmM_nil, idmE_nil, idmE_cons, idmE_append, idmE_map_null, idmE_replicate_null, idm_null, idm_str, idm_bool, idm_int, idm_double, ensureSonIsArray_idm, ensureSonIsArray_currentId] <;> abel)
      have g3 := p3.good (by omega) rfl g1 rfl
      exact (g3.step (by omega)).congr (by simp [idm_obj, idm_arr, idmM_append, idmM_addPos, idmM_id, idmM_other, idmM_nil, idmE_nil, idmE_cons, idmE_append, idmE_map_null, idmE_replicate_null, idm_null, idm_str, idm_bool, idm_int, idm_double, ensureSonIsArray_idm, ensureSonIsArray_currentId] <;> abel)
    | MemberExpr loc base memberDecl =>
      simp only [addId, createBlockValue, createMessageValue, createBinOpValue, List.nil_append] at h
      obtain ⟨_, v1, h1, h2⟩ := TRY_TO_eq_ok h
      have p1 := TraverseStmt_post base F _ v1 h1
      have m1 := p1.1
      obtain ⟨_, v2, h3, h4⟩ := TRY_TO_eq_ok h2
      have p3 := TraverseDecl_post memberDecl (F + v1.sonValue.idm) _ v2 h3
      have m3 := p3.1
      simp only at m3
      cases hr : memberRewrite v2.sonValue with
      | none => simp [hr] at h4
      | some rightValue =>
        simp only [hr, Res.ok.injEq, true_and] at h4
        subst h4
        have hle := idmM_memberRewrite _ _ hr
        refine ⟨by simp only; omega, fun hM hg => ?_⟩
        simp only at hM ⊢
        have g1 := p1.good (by omega) rfl hg rfl
        have g3 := p3.good (by omega) rfl g1 (by simp [idm_obj, idm_arr, idmM_append, idmM_addPos, idmM_id, idmM_other, idmM_nil, idmE_nil, idmE_cons, idmE_append, idmE_map_null, idmE_replicate_null, idm_null, idm_str, idm_bool, idm_int, idm_double, ensureSonIsArray_idm, ensureSonIsArray_currentId] <;> abel)
        have g4 : Good v2.currentId (F + v1.sonValue.idm + idmM rightValue) :=
          g3.sub (add_le_add_left hle _)
        exact (g4.step (by omega)).congr (by simp [idm_obj, idm_arr, idmM_append, idmM_addPos, idmM_id, idmM_other, idmM_nil, idmE_nil, idmE_cons, idmE_append, idmE_map_null, idmE_replicate_null, idm_null, idm_str, idm_bool, idm_int, idm_double, ensureSonIsArray_idm, ensureSonIsArray_currentId] <;> abel)
    | DeclStmt loc decls =>
      simp only at h
      split at h
      · cases decls with
        | nil => cases h
        | cons singleDecl tail => exact TraverseDecl_post singleDecl F v w h
      · obtain ⟨out, v1, h1, h2⟩ := TRY_TO_eq_ok h
        have p1 := TraversePushDecls_post decls F [] out v v1 h1
        simp only [Res.ok.injEq, true_and] at h2
        subst h2
        refine ⟨p1.1, fun hM hg => ?_⟩
        simp only at hM ⊢
        have g1 := p1.goodArr hM rfl hg (by simp [idm_obj, idm_arr, idmM_append, idmM_addPos, idmM_id, idmM_other, idmM_nil, idmE_nil, idmE_cons, idmE_append, idmE_map_null, idmE_replicate_null, idm_null, idm_str, idm_bool, idm_int, idm_double, ensureSonIsArray_idm, ensureSonIsArray_currentId] <;> abel)
        exact g1.drop.congr (by simp [idm_obj, idm_arr, idmM_append, idmM_addPos, idmM_id, idmM_other, idmM_nil, idmE_nil, idmE_cons, idmE_append, idmE_map_null, idmE_replicate_null, idm_null, idm_str, idm_bool, idm_int, idm_double, ensureSonIsArray_idm, ensureSonIsArray_currentId] <;> abel)
    | CXXOperatorCallExpr loc callee args =>
      cases callee with
      | none =>
        simp only [Res.ok.injEq, true_and] at h
        subst h
        exact Post.refl _ _
      | some functionName =>
        simp only at h
        split at h
        · simp only [addId, createBlockValue, createMessageValue, createBinOpValue, List.nil_append] at h
          obtain ⟨out, v1, h1, h2⟩ := TRY_TO_eq_ok h
          have p1 := TraverseOperatorArgs_post args F 0 [] out _ v1 h1
          have m1 := p1.1
          simp only at m1
          split at h2
          · simp only [Res.ok.injEq, true_and] at h2
            subst h2
            refine ⟨m1, fun hM hg => ?_⟩
            simp only at hM ⊢
            have g1 := p1.goodArr hM rfl hg (by simp [idm_obj, idm_arr, idmM_append, idmM_addPos, idmM_id, idmM_other, idmM_nil, idmE_nil, idmE_cons, idmE_append, idmE_map_null, idmE_replicate_null, idm_null, idm_str, idm_bool, idm_int, idm_double, ensureSonIsArray_idm, ensureSonIsArray_currentId] <;> abel)
            exact g1.drop.congr (by simp [idm_obj, idm_arr, idmM_append, idmM_addPos, idmM_id, idmM_other, idmM_nil, idmE_nil, idmE_cons, idmE_append, idmE_map_null, idmE_replicate_null, idm_null, idm_str, idm_bool, idm_int, idm_double, ensureSonIsArray_idm, ensureSonIsArray_currentId] <;> abel)
          · simp only [Res.ok.injEq, true_and] at h2
            subst h2
            refine ⟨by simp only; omega, fun hM hg => ?_⟩
            simp only at hM ⊢
            have g1 := p1.goodArr (by omega) rfl hg (by simp [idm_obj, idm_arr, idmM_append, idmM_addPos, idmM_id, idmM_other, idmM_nil, idmE_nil, idmE_cons, idmE_append, idmE_map_null, idmE_replicate_null, idm_null, idm_str, idm_bool, idm_int, idm_double, ensureSonIsArray_idm, ensureSonIsArray_currentId] <;> abel)
            exact (g1.drop.step (by omega)).congr (by simp [idm_obj, idm_arr, idmM_append, idmM_addPos, idmM_id, idmM_other, idmM_nil, idmE_nil, idmE_cons, idmE_append, idmE_map_null, idmE_replicate_null, idm_null, idm_str, idm_bool, idm_int, idm_double, ensureSonIsArray_idm, ensureSonIsArray_currentId] <;> abel)
        · split at h
          · split at h
            · rename_i arg0 arg1 tail
              simp only [addId, createBlockValue, createMessageValue, createBinOpValue, List.nil_append] at h
              obtain ⟨_, v1, h1, h2⟩ := TRY_TO_eq_ok h
              obtain ⟨_, v2, h3, h4⟩ := TRY_TO_eq_ok h2
              have p1 := TraverseStmt_post arg0 F _ v1 h1
              have p2 := TraverseStmt_post arg1 (F + v1.sonValue.idm) _ v2 h3
              simp only [Res.ok.injEq, true_and] at h4
              subst h4
              have m1 := p1.1
              have m2 := p2.1
              simp only at m2
              refine ⟨by simp only; omega, fun hM hg => ?_⟩
              simp only at hM ⊢
              have g1 := p1.good (by omega) rfl hg rfl
              have g2 := p2.good (by omega) rfl g1 (by simp [idm_obj, idm_arr, idmM_append, idmM_addPos, idmM_id, idmM_other, idmM_nil, idmE_nil, idmE_cons, idmE_append, idmE_map_null, idmE_replicate_null, idm_null, idm_str, idm_bool, idm_int, idm_double, ensureSonIsArray_idm, ensureSonIsArray_currentId] <;> abel)
              exact (g2.step (by omega)).congr (by simp [idm_obj, idm_arr, idmM_append, idmM_addPos, idmM_id, idmM_other, idmM_nil, idmE_nil, idmE_cons, idmE_append, idmE_map_null, idmE_replicate_null, idm_null, idm_str, idm_bool, idm_int, idm_double, ensureSonIsArray_idm, ensureSonIsArray_currentId] <;> abel)
            · cases h
          · simp only [Res.ok.injEq, true_and] at h
            subst h
            exact Post.refl _ _
termination_by sizeOf S

theorem TraversePushArgs_post (args : List Stmt) (F : Multiset Int) (acc out : List Json)
    (v w : Visitor) (h : TraversePushArgs args acc v = Res.ok out w) : PostArr F acc v out w := by
  cases args with
  | nil =>
    simp only [TraversePushArgs, Res.ok.injEq] at h
    obtain ⟨rfl, rfl⟩ := h
    exact ⟨Nat.le_refl _, fun _ hg => hg⟩
  | cons x rest =>
    simp only [TraversePushArgs] at h
    obtain ⟨_, v1, h1, h2⟩ := TRY_TO_eq_ok h
    have p1 := TraverseStmt_post x (F + idmE acc) v v1 h1
    have p2 := TraversePushArgs_post rest F _ out _ w h2
    have m2 := p2.1
    simp only at m2
    refine ⟨Nat.le_trans p1.1 m2, fun hM hg => ?_⟩
    have g1 := p1.good (by omega) rfl hg (by simp [idm_obj, idm_arr, idmM_append, idmM_addPos, idmM_id, idmM_other, idmM_nil, idmE_nil, idmE_cons, idmE_append, idmE_map_null, idmE_replicate_null, idm_null, idm_str, idm_bool, idm_int, idm_double, ensureSonIsArray_idm, ensureSonIsArray_currentId] <;> abel)
    exact p2.goodArr hM rfl g1 (by simp [idm_obj, idm_arr, idmM_append, idmM_addPos, idmM_id, idmM_other, idmM_nil, idmE_nil, idmE_cons, idmE_append, idmE_map_null, idmE_replicate_null, idm_null, idm_str, idm_bool, idm_int, idm_double, ensureSonIsArray_idm, ensureSonIsArray_currentId] <;> abel)
termination_by sizeOf args

theorem TraversePushDecls_post (decls : List Decl) (F : Multiset Int) (acc out : List Json)
    (v w : Visitor) (h : TraversePushDecls decls acc v = Res.ok out w) : PostArr F acc v out w := by
  cases decls with
  | nil =>
    simp only [TraversePushDecls, Res.ok.injEq] at h
    obtain ⟨rfl, rfl⟩ := h
    exact ⟨Nat.le_refl _, fun _ hg => hg⟩
  | cons x rest =>
    simp only [TraversePushDecls] at h
    obtain ⟨_, v1, h1, h2⟩ := TRY_TO_eq_ok h
    have p1 := TraverseDecl_post x (F + idmE acc) v v1 h1
    have p2 := TraversePushDecls_post rest F _ out _ w h2
    have m2 := p2.1
    simp only at m2
    refine ⟨Nat.le_trans p1.1 m2, fun hM hg => ?_⟩
    have g1 := p1.good (by omega) rfl hg (by simp [idm_obj, idm_arr, idmM_append, idmM_addPos, idmM_id, idmM_other, idmM_nil, idmE_nil, idmE_cons, idmE_append, idmE_map_null, idmE_replicate_null, idm_null, idm_str, idm_bool, idm_int, idm_double, ensureSonIsArray_idm, ensureSonIsArray_currentId] <;> abel)
    exact p2.goodArr hM rfl g1 (by simp [idm_obj, idm_arr, idmM_append, idmM_addPos, idmM_id, idmM_other, idmM_nil, idmE_nil, idmE_cons, idmE_append, idmE_map_null, idmE_replicate_null, idm_null, idm_str, idm_bool, idm_int, idm_double, ensureSonIsArray_idm, ensureSonIsArray_currentId] <;> abel)
termination_by sizeOf decls

theorem TraverseCompoundBody_post (body : List Stmt) (F : Multiset Int) (acc out : List Json)
    (v w : Visitor) (h : TraverseCompoundBody body acc v = Res.ok out w) : PostArr F acc v out w := by
  cases body with
  | nil =>
    simp only [TraverseCompoundBody, Res.ok.injEq] at h
    obtain ⟨rfl, rfl⟩ := h
    exact ⟨Nat.le_refl _, fun _ hg => hg⟩
  | cons x rest =>
    simp only [TraverseCompoundBody] at h
    obtain ⟨_, v1, h1, h2⟩ := TRY_TO_eq_ok h
    have p1 := TraverseStmt_post x (F + idmE acc) v v1 h1
    cases hs : v1.sonValue <;>
      simp only [hs, addElemsToArray] at h2 <;>
      have p2 := TraverseCompoundBody_post rest F _ out _ w h2 <;>
      have m2 := p2.1 <;>
      simp only at m2 <;>
      refine ⟨Nat.le_trans p1.1 m2, fun hM hg => ?_⟩ <;>
      have g1 := p1.good (by omega) rfl hg (by simp [idm_obj, idm_arr, idmM_append, idmM_addPos, idmM_id, idmM_other, idmM_nil, idmE_nil, idmE_cons, idmE_append, idmE_map_null, idmE_replicate_null, idm_null, idm_str, idm_bool, idm_int, idm_double, ensureSonIsArray_idm, ensureSonIsArray_currentId] <;> abel) <;>
      exact p2.goodArr hM rfl g1 (by simp [idm_obj, idm_arr, idmM_append, idmM_addPos, idmM_id, idmM_other, idmM_nil, idmE_nil, idmE_cons, idmE_append, idmE_map_null, idmE_replicate_null, idm_null, idm_str, idm_bool, idm_int, idm_double, ensureSonIsArray_idm, ensureSonIsArray_currentId, hs] <;> abel)
termination_by sizeOf body

theorem TraverseOperatorArgs_post (args : List Stmt) (F : Multiset Int) (i : Nat)
    (acc out : List Json) (v w : Visitor)
    (h : TraverseOperatorArgs args i acc v = Res.ok out w) : PostArr F acc v out w := by
  cases args with
  | nil =>
    simp only [TraverseOperatorArgs, Res.ok.injEq] at h
    obtain ⟨rfl, rfl⟩ := h
    exact ⟨Nat.le_refl _, fun _ hg => hg⟩
  | cons x rest =>
    simp only [TraverseOperatorArgs] at h
    obtain ⟨_, v1, h1, h2⟩ := TRY_TO_eq_ok h
    have p1 := TraverseStmt_post x (F + idmE acc) v v1 h1
    by_cases hi : i = 0
    · simp only [hi, ite_true] at h2
      cases hs : v1.sonValue with
      | arr elems =>
        simp only [hs] at h2
        have p2 := TraverseOperatorArgs_post rest F _ _ out _ w h2
        have m2 := p2.1
        simp only at m2
        refine ⟨Nat.le_trans p1.1 m2, fun hM hg => ?_⟩
        have g1 := p1.good (by omega) rfl hg (by simp [idm_obj, idm_arr, idmM_append, idmM_addPos, idmM_id, idmM_other, idmM_nil, idmE_nil, idmE_cons, idmE_append, idmE_map_null, idmE_replicate_null, idm_null, idm_str, idm_bool, idm_int, idm_double, ensureSonIsArray_idm, ensureSonIsArray_currentId] <;> abel)
        have g1' : Good v1.currentId (F + idmE elems) :=
          g1.sub (by
            rw [hs, idm_arr, add_assoc]
            exact add_le_add_left (Multiset.le_add_left _ _) _)
        exact p2.goodArr hM rfl g1' (by simp [idm_obj, idm_arr, idmM_append, idmM_addPos, idmM_id, idmM_other, idmM_nil, idmE_nil, idmE_cons, idmE_append, idmE_map_null, idmE_replicate_null, idm_null, idm_str, idm_bool, idm_int, idm_double, ensureSonIsArray_idm, ensureSonIsArray_currentId] <;> abel)
      | _ =>
        simp only [hs] at h2
        have p2 := TraverseOperatorArgs_post rest F _ _ out _ w h2
        refine ⟨Nat.le_trans p1.1 p2.1, fun hM hg => ?_⟩
        have g1 := p1.good (Nat.le_trans p2.1 hM) rfl hg (by simp [idm_obj, idm_arr, idmM_append, idmM_addPos, idmM_id, idmM_other, idmM_nil, idmE_nil, idmE_cons, idmE_append, idmE_map_null, idmE_replicate_null, idm_null, idm_str, idm_bool, idm_int, idm_double, ensureSonIsArray_idm, ensureSonIsArray_currentId] <;> abel)
        exact p2.goodArr hM rfl g1 (by simp [idm_obj, idm_arr, idmM_append, idmM_addPos, idmM_id, idmM_other, idmM_nil, idmE_nil, idmE_cons, idmE_append, idmE_map_null, idmE_replicate_null, idm_null, idm_str, idm_bool, idm_int, idm_double, ensureSonIsArray_idm, ensureSonIsArray_currentId, hs] <;> abel)
    · simp only [hi, ite_false] at h2
      have p2 := TraverseOperatorArgs_post rest F _ _ out _ w h2
      have m2 := p2.1
      simp only at m2
      refine ⟨Nat.le_trans p1.1 m2, fun hM hg => ?_⟩
      have g1 := p1.good (by omega) rfl hg (by simp [idm_obj, idm_arr, idmM_append, idmM_addPos, idmM_id, idmM_other, idmM_nil, idmE_nil, idmE_cons, idmE_append, idmE_map_null, idmE_replicate_null, idm_null, idm_str, idm_bool, idm_int, idm_double, ensureSonIsArray_idm, ensureSonIsArray_currentId] <;> abel)
      exact p2.goodArr hM rfl g1 (by simp [idm_obj, idm_arr, idmM_append, idmM_addPos, idmM_id, idmM_other, idmM_nil, idmE_nil, idmE_cons, idmE_append, idmE_map_null, idmE_replicate_null, idm_null, idm_str, idm_bool, idm_int, idm_double, ensureSonIsArray_idm, ensureSonIsArray_currentId] <;> abel)
termination_by sizeOf args

theorem TraverseChildren_post (children : List Stmt) (F : Multiset Int) (v w : Visitor)
    (h : TraverseChildren children v = Res.ok () w) : Post F v w := by
  cases children with
  | nil =>
    simp only [TraverseChildren, Res.ok.injEq, true_and] at h
    subst h
    exact Post.refl _ _
  | cons child rest =>
    simp only [TraverseChildren] at h
    obtain ⟨_, v1, h1, h2⟩ := TRY_TO_eq_ok h
    exact (TraverseStmt_post child F v v1 h1).trans (TraverseChildren_post rest F v1 w h2)
termination_by sizeOf children

theorem TraverseDeclContext_post (decls : List Decl) (F : Multiset Int) (v w : Visitor)
    (h : TraverseDeclContext decls v = Res.ok () w) : Post F v w := by
  cases decls with
  | nil =>
    simp only [TraverseDeclContext, Res.ok.injEq, true_and] at h
    subst h
    exact Post.refl _ _
  | cons d rest =>
    simp only [TraverseDeclContext] at h
    obtain ⟨_, v1, h1, h2⟩ := TRY_TO_eq_ok h
    exact (TraverseDecl_post d F v v1 h1).trans (TraverseDeclContext_post rest F v1 w h2)
termination_by sizeOf decls

theorem TraverseDecl_post (D : Decl) (F : Multiset Int) (v w : Visitor)
    (h : TraverseDecl D v = Res.ok () w) : Post F v w := by
  by_cases hs : D.loc.inMain = false
  · rw [TraverseDecl_skipped D v hs] at h
    cases h
    exact Post.refl _ _
  · unfold TraverseDecl at h
    simp only [Bool.not_eq_false] at hs
    simp only [hs, Bool.not_true, Bool.false_eq_true, ite_false] at h
    cases D with
    | CXXMethodDecl loc =>
      simp only [Res.ok.injEq, true_and] at h
      subst h
      exact Post.refl _ _
    | other loc decls body =>
      obtain ⟨_, v1, h1, h2⟩ := TRY_TO_eq_ok h
      exact (TraverseDeclContext_post decls F v v1 h1).trans (TraverseStmt_post body F v1 w h2)
    | FunctionDecl loc functionName callResultType params isDefinition body =>
      simp only [addId, createBlockValue, createMessageValue, createBinOpValue, List.nil_append] at h
      obtain ⟨returnType, v1, h1, h2⟩ := TRY_TO_eq_ok h
      obtain ⟨t1, ts, tg⟩ := createTypeValue_post h1
      simp only at t1 ts tg
      obtain ⟨parametersValue, v2, h3, h4⟩ := TRY_TO_eq_ok h2
      have p3 := TraversePushDecls_post params (idOf v.currentId + F + returnType.idm) []
        parametersValue v1 v2 h3
      have m3 := p3.1
      split at h4
      · obtain ⟨_, v3, h5, h6⟩ := TRY_TO_eq_ok h4
        have p5 := TraverseStmt_post body
          (idOf v.currentId + F + returnType.idm + idmE parametersValue) _ v3 h5
        have m5 := p5.1
        simp only [Res.ok.injEq, true_and] at h6
        subst h6
        refine ⟨by simp only [ensureSonIsArray_currentId]; omega, fun hM hg => ?_⟩
        simp only [ensureSonIsArray_currentId] at hM ⊢
        have g1 := tg (by omega) _ (hg.step (by omega))
        have g3 := p3.goodArr (by omega) rfl g1 (by rw [ts]; simp [idm_obj, idm_arr, idmM_append, idmM_addPos, idmM_id, idmM_other, idmM_nil, idmE_nil, idmE_cons, idmE_append, idmE_map_null, idmE_replicate_null, idm_null, idm_str, idm_bool, idm_int, idm_double, ensureSonIsArray_idm, ensureSonIsArray_currentId] <;> abel)
        have g5 := p5.good (by omega) rfl g3 (by simp [idm_obj, idm_arr, idmM_append, idmM_addPos, idmM_id, idmM_other, idmM_nil, idmE_nil, idmE_cons, idmE_append, idmE_map_null, idmE_replicate_null, idm_null, idm_str, idm_bool, idm_int, idm_double, ensureSonIsArray_idm, ensureSonIsArray_currentId] <;> abel)
        exact (g5.step (by omega)).congr (by simp [idm_obj, idm_arr, idmM_append, idmM_addPos, idmM_id, idmM_other, idmM_nil, idmE_nil, idmE_cons, idmE_append, idmE_map_null, idmE_replicate_null, idm_null, idm_str, idm_bool, idm_int, idm_double, ensureSonIsArray_idm, ensureSonIsArray_currentId] <;> abel)
      · simp only [Res.ok.injEq, true_and] at h4
        subst h4
        refine ⟨by simp only; omega, fun hM hg => ?_⟩
        simp only at hM ⊢
        have g1 := tg (by omega) _ (hg.step (by omega))
        have g3 := p3.goodArr (by omega) rfl g1 (by rw [ts]; simp [idm_obj, idm_arr, idmM_append, idmM_addPos, idmM_id, idmM_other, idmM_nil, idmE_nil, idmE_cons, idmE_append, idmE_map_null, idmE_replicate_null, idm_null, idm_str, idm_bool, idm_int, idm_double, ensureSonIsArray_idm, ensureSonIsArray_currentId] <;> abel)
        exact (g3.drop.step (by omega)).congr (by simp [idm_obj, idm_arr, idmM_append, idmM_addPos, idmM_id, idmM_other, idmM_nil, idmE_nil, idmE_cons, idmE_append, idmE_map_null, idmE_replicate_null, idm_null, idm_str, idm_bool, idm_int, idm_double, ensureSonIsArray_idm, ensureSonIsArray_currentId] <;> abel)
    | VarDecl loc isParm varName type hasInit init initStyle =>
      simp only [addId, createBlockValue, createMessageValue, createBinOpValue, List.nil_append] at h
      obtain ⟨dataType, v1, h1, h2⟩ := TRY_TO_eq_ok h
      obtain ⟨t1, ts, tg⟩ := createTypeValue_post h1
      simp only at t1 ts tg
      have hg1 : v1.currentId ≤ UINT_MOD → Good v.currentId (F + v.sonValue.idm) →
          Good v1.currentId (idOf v.currentId + F + dataType.idm + v1.sonValue.idm) :=
        fun hM hg => (tg hM _ (hg.step (by omega))).congr (by rw [ts]; abel)
      split at h2
      · obtain ⟨_, v2, h3, h4⟩ := TRY_TO_eq_ok h2
        have p3 := TraverseStmt_post init (idOf v.currentId + F + dataType.idm) _ v2 h3
        have m3 := p3.1
        cases initStyle with
        | CInit =>
          simp only at h4
          split at h4
          · simp only [Res.ok.injEq, true_and] at h4
            subst h4
            refine ⟨by simp only; omega, fun hM hg => ?_⟩
            simp only at hM ⊢
            have g3 := p3.good hM rfl (hg1 (by omega) hg) rfl
            exact g3.congr (by cases isParm <;> simp [idm_obj, idm_arr, idmM_append, idmM_addPos, idmM_id, idmM_other, idmM_nil, idmE_nil, idmE_cons, idmE_append, idmE_map_null, idmE_replicate_null, idm_null, idm_str, idm_bool, idm_int, idm_double, ensureSonIsArray_idm, ensureSonIsArray_currentId] <;> abel)
          · simp only [Res.ok.injEq, true_and] at h4
            subst h4
            refine ⟨by simp only; omega, fun hM hg => ?_⟩
            simp only at hM ⊢
            have g3 := p3.good hM rfl (hg1 (by omega) hg) rfl
            exact g3.drop.congr (by cases isParm <;> simp [idm_obj, idm_arr, idmM_append, idmM_addPos, idmM_id, idmM_other, idmM_nil, idmE_nil, idmE_cons, idmE_append, idmE_map_null, idmE_replicate_null, idm_null, idm_str, idm_bool, idm_int, idm_double, ensureSonIsArray_idm, ensureSonIsArray_currentId] <;> abel)
        | CallInit =>
          simp only at h4
          split at h4
          · simp only [Res.ok.injEq, true_and] at h4
            subst h4
            refine ⟨by simp only; omega, fun hM hg => ?_⟩
            simp only at hM ⊢
            have g3 := p3.good hM rfl (hg1 (by omega) hg) rfl
            exact g3.congr (by cases isParm <;> simp [idm_obj, idm_arr, idmM_append, idmM_addPos, idmM_id, idmM_other, idmM_nil, idmE_nil, idmE_cons, idmE_append, idmE_map_null, idmE_replicate_null, idm_null, idm_str, idm_bool, idm_int, idm_double, ensureSonIsArray_idm, ensureSonIsArray_currentId] <;> abel)
          · simp only [Res.ok.injEq, true_and] at h4
            subst h4
            refine ⟨by simp only; omega, fun hM hg => ?_⟩
            simp only at hM ⊢
            have g3 := p3.good hM rfl (hg1 (by omega) hg) rfl
            exact g3.drop.congr (by cases isParm <;> simp [idm_obj, idm_arr, idmM_append, idmM_addPos, idmM_id, idmM_other, idmM_nil, idmE_nil, idmE_cons, idmE_append, idmE_map_null, idmE_replicate_null, idm_null, idm_str, idm_bool, idm_int, idm_double, ensureSonIsArray_idm, ensureSonIsArray_currentId] <;> abel)
        | ListInit =>
          simp only at h4
          simp only [Res.ok.injEq, true_and] at h4
          subst h4
          refine ⟨by simp only; omega, fun hM hg => ?_⟩
          simp only at hM ⊢
          have g3 := p3.good hM rfl (hg1 (by omega) hg) rfl
          exact g3.drop.congr (by cases isParm <;> simp [idm_obj, idm_arr, idmM_append, idmM_addPos, idmM_id, idmM_other, idmM_nil, idmE_nil, idmE_cons, idmE_append, idmE_map_null, idmE_replicate_null, idm_null, idm_str, idm_bool, idm_int, idm_double, ensureSonIsArray_idm, ensureSonIsArray_currentId] <;> abel)
      · simp only [Res.ok.injEq, true_and] at h2
        subst h2
        refine ⟨by simp only; omega, fun hM hg => ?_⟩
        simp only at hM ⊢
        exact (hg1 hM hg).drop.congr (by cases isParm <;> simp [idm_obj, idm_arr, idmM_append, idmM_addPos, idmM_id, idmM_other, idmM_nil, idmE_nil, idmE_cons, idmE_append, idmE_map_null, idmE_replicate_null, idm_null, idm_str, idm_bool, idm_int, idm_double, ensureSonIsArray_idm, ensureSonIsArray_currentId] <;> abel)
    | FieldDecl loc varName type =>
      simp only [addId, createBlockValue, createMessageValue, createBinOpValue, List.nil_append] at h
      obtain ⟨dataType, v1, h1, h2⟩ := TRY_TO_eq_ok h
      obtain ⟨t1, ts, tg⟩ := createTypeValue_post h1
      simp only at t1 ts tg
      have hg1 : v1.currentId ≤ UINT_MOD → Good v.currentId (F + v.sonValue.idm) →
          Good v1.currentId (idOf v.currentId + F + dataType.idm + v1.sonValue.idm) :=
        fun hM hg => (tg hM _ (hg.step (by omega))).congr (by rw [ts]; abel)
      split at h2
      · rename_i elems hs1
        simp only [Res.ok.injEq, true_and] at h2
        subst h2
        refine ⟨by simp only; omega, fun hM hg => ?_⟩
        simp only at hM ⊢
        exact (hg1 hM hg).congr (by rw [hs1]; simp [idm_obj, idm_arr, idmM_append, idmM_addPos, idmM_id, idmM_other, idmM_nil, idmE_nil, idmE_cons, idmE_append, idmE_map_null, idmE_replicate_null, idm_null, idm_str, idm_bool, idm_int, idm_double, ensureSonIsArray_idm, ensureSonIsArray_currentId] <;> abel)
      · simp only [Res.ok.injEq, true_and] at h2
        subst h2
        refine ⟨by simp only; omega, fun hM hg => ?_⟩
        simp only at hM ⊢
        exact (hg1 hM hg).drop.congr (by simp [idm_obj, idm_arr, idmM_append, idmM_addPos, idmM_id, idmM_other, idmM_nil, idmE_nil, idmE_cons, idmE_append, idmE_map_null, idmE_replicate_null, idm_null, idm_str, idm_bool, idm_int, idm_double, ensureSonIsArray_idm, ensureSonIsArray_currentId] <;> abel)
    | CXXRecordDecl loc isImplicit structName decls =>
      simp only [addId, createBlockValue, createMessageValue, createBinOpValue, List.nil_append] at h
      split at h
      · simp only [Res.ok.injEq, true_and] at h
        subst h
        exact Post.refl _ _
      · split at h
        · rename_i u v1 hr
          have p1 := TraverseDeclContext_post decls (idOf v.currentId + F) _ v1 hr
          have m1 := p1.1
          simp only at m1
          simp only [Res.ok.injEq, true_and] at h
          subst h
          refine ⟨by simp only; omega, fun hM hg => ?_⟩
          simp only at hM ⊢
          have g1 := p1.good hM rfl (hg.drop.step (by omega)) (by simp [idm_obj, idm_arr, idmM_append, idmM_addPos, idmM_id, idmM_other, idmM_nil, idmE_nil, idmE_cons, idmE_append, idmE_map_null, idmE_replicate_null, idm_null, idm_str, idm_bool, idm_int, idm_double, ensureSonIsArray_idm, ensureSonIsArray_currentId] <;> abel)
          exact g1.congr (by simp [idm_obj, idm_arr, idmM_append, idmM_addPos, idmM_id, idmM_other, idmM_nil, idmE_nil, idmE_cons, idmE_append, idmE_map_null, idmE_replicate_null, idm_null, idm_str, idm_bool, idm_int, idm_double, ensureSonIsArray_idm, ensureSonIsArray_currentId] <;> abel)
        · cases h
        · cases h
        · cases h
termination_by sizeOf D
end

theorem TraverseTopLevel_post (decls : List Decl) :
    ∀ (F : Multiset Int) (statements out : List Json) (v w : Visitor),
      TraverseTopLevel decls statements v = Res.ok out w → PostArr F statements v out w := by
  induction decls with
  | nil =>
    intro F statements out v w h
    simp only [TraverseTopLevel, Res.ok.injEq] at h
    obtain ⟨rfl, rfl⟩ := h
    exact ⟨Nat.le_refl _, fun _ hg => hg⟩
  | cons d rest ih =>
    intro F statements out v w h
    simp only [TraverseTopLevel] at h
    obtain ⟨_, v1, h1, h2⟩ := TRY_TO_eq_ok h
    have p1 := TraverseDecl_post d (F + idmE statements) v v1 h1
    split at h2
    · split at h2
      · rename_i elems hs
        simp only [addElemsToArray] at h2
        have p2 := ih F _ out _ w h2
        have m2 := p2.1
        simp only at m2
        refine ⟨Nat.le_trans p1.1 m2, fun hM hg => ?_⟩
        have g1 := p1.good (by omega) rfl hg rfl
        exact p2.goodArr hM rfl g1 (by
          rw [hs]
          simp only [idm_arr, idmE_append, idmE_map_null, add_zero, add_assoc])
      · have p2 := ih F _ out _ w h2
        have m2 := p2.1
        simp only at m2
        refine ⟨Nat.le_trans p1.1 m2, fun hM hg => ?_⟩
        have g1 := p1.good (by omega) rfl hg rfl
        exact p2.goodArr hM rfl g1 (by
          simp only [idmE_append, idmE_cons, idmE_nil, idm_null, add_zero, add_assoc])
    · have p2 := ih F _ out _ w h2
      refine ⟨Nat.le_trans p1.1 p2.1, fun hM hg => ?_⟩
      have g1 := p1.good (Nat.le_trans p2.1 hM) rfl hg rfl
      exact p2.goodArr hM rfl g1 rfl

theorem ids_document (id : Int) (statements : List Json) :
    (Json.obj [("id", Json.int id), ("statements", Json.arr statements)]).ids =
      id :: Json.idsOfElems statements := by
  simp [Json.ids, Json.idsOfMembers, Json.idOfMember]

/-- C2, as amended: for every input program whose traversal returns and hands
out at most `2 ^ 32` ids (the final value of the counter, counted without
wrapping, is at most `UINT_MOD`), the ids of all nodes of the document built by
`TraverseTranslationUnitDecl` are pairwise distinct. -/
theorem C2_ids_distinct (unitDecl : TranslationUnit) (document : Json) (w : Visitor)
    (h : TraverseTranslationUnitDecl unitDecl Visitor.init = Res.ok document w)
    (hM : w.currentId ≤ UINT_MOD) : document.ids.Nodup := by
  simp only [TraverseTranslationUnitDecl, addId, Visitor.init, List.nil_append] at h
  obtain ⟨statements, v1, h1, h2⟩ := TRY_TO_eq_ok h
  have p1 := TraverseTopLevel_post unitDecl (idOf 0) [] statements _ v1 h1
  simp only [Res.ok.injEq] at h2
  obtain ⟨rfl, rfl⟩ := h2
  have g0 : Good (0 + 1) (idOf 0 + 0) :=
    Good.step ⟨Multiset.nodup_zero, fun i hi => absurd hi (Multiset.not_mem_zero i)⟩
      (by unfold UINT_MOD; omega)
  have g1 := (p1.goodArr hM rfl g0 (by simp only [idmE_nil, idm_null, add_zero])).drop
  have e : (Json.obj [("id", idValue 0), ("statements", Json.arr statements)]).idm =
      idOf 0 + idmE statements := by
    simp [idm_obj, idmM_id, idmM_other, idmM_nil, idm_arr]
  have g2 := g1.1
  rw [← e] at g2
  exact Multiset.coe_nodup.1 g2

/-- Witness of C2: the translation unit `struct P { int x; int y; int norm(); };`,
lowered by a fresh visitor. -/
theorem C2_ids_distinct_witness :
    (TraverseTranslationUnitDecl Sample.recordUnit Visitor.init =
        Res.ok Sample.recordDocument { Visitor.init with currentId := 6 } ∧
      6 ≤ UINT_MOD) ∧
    Sample.recordDocument.ids.Nodup :=
  ⟨⟨rfl, by unfold UINT_MOD; omega⟩,
   C2_ids_distinct Sample.recordUnit Sample.recordDocument
     { Visitor.init with currentId := 6 } rfl (by show 6 ≤ 2 ^ 32; omega)⟩

/-- Lowering `n` declarations `struct S {};` in a row at the top level. -/
theorem TraverseTopLevel_manyStructs (n : Nat) :
    ∀ (statements : List Json) (c : Nat) (b : Bool),
      TraverseTopLevel (Sample.manyStructs n) statements
          { currentId := c, sonValue := Json.null, iofunctionStarted := b } =
        Res.ok (statements ++ (List.range n).map fun i => Sample.structNode ((c + i) % UINT_MOD))
          { currentId := c + n, sonValue := Json.null, iofunctionStarted := b } := by
  induction n with
  | zero =>
    intro statements c b
    simp [Sample.manyStructs, TraverseTopLevel]
  | succ n ih =>
    intro statements c b
    have hd : TraverseDecl Sample.emptyStruct
        { currentId := c, sonValue := Json.null, iofunctionStarted := b } =
        Res.ok () { currentId := c + 1, sonValue := Sample.structNode (c % UINT_MOD),
                    iofunctionStarted := b } := rfl
    have step : TraverseTopLevel (Sample.emptyStruct :: Sample.manyStructs n) statements
        { currentId := c, sonValue := Json.null, iofunctionStarted := b } =
        TraverseTopLevel (Sample.manyStructs n)
          (statements ++ [Sample.structNode (c % UINT_MOD)])
          { currentId := c + 1, sonValue := Json.null, iofunctionStarted := b } := by
      rw [TraverseTopLevel, hd]
      rfl
    have e1 : c + 1 + n = c + (n + 1) := by omega
    have e2 : statements ++ [Sample.structNode (c % UINT_MOD)] ++
          (List.range n).map (fun i => Sample.structNode ((c + 1 + i) % UINT_MOD)) =
        statements ++ (List.range (n + 1)).map
          (fun i => Sample.structNode ((c + i) % UINT_MOD)) := by
      rw [List.range_succ_eq_map, List.map_cons, List.map_map, List.append_assoc,
        List.singleton_append, Nat.add_zero]
      refine congrArg _ (congrArg _ (List.map_congr_left fun i _ => ?_))
      simp only [Function.comp, Nat.succ_eq_add_one]
      rw [show c + 1 + i = c + (i + 1) by omega]
    have e0 : Sample.manyStructs (n + 1) = Sample.emptyStruct :: Sample.manyStructs n :=
      List.replicate_succ _ _
    rw [e0, step, ih, e1, e2]

theorem idsOfElems_structNodes (f : Nat → Nat) (l : List Nat) :
    Json.idsOfElems (l.map fun i => Sample.structNode (f i)) = l.map fun i => (f i : Int) := by
  induction l with
  | nil => rfl
  | cons x l ih =>
    rw [List.map_cons, List.map_cons, Json.idsOfElems, ih]
    simp [Sample.structNode, Json.ids, Json.idsOfMembers, Json.idOfMember, Json.idsOfElems]

/-- The document of `n` declarations `struct S {};`. -/
theorem translationUnit_manyStructs (n : Nat) :
    TraverseTranslationUnitDecl (Sample.manyStructs n) Visitor.init =
      Res.ok (Json.obj [("id", Json.int 0), ("statements", Json.arr
          ((List.range n).map fun i => Sample.structNode ((1 + i) % UINT_MOD)))])
        { Visitor.init with currentId := 1 + n } := by
  have h := TraverseTopLevel_manyStructs n [] 1 false
  simp only [TraverseTranslationUnitDecl, addId, Visitor.init, List.nil_append]
  rw [h]
  rfl

/-- C2, counterexample: the translation unit of `UINT_MOD = 2 ^ 32` declarations
`struct S {};` is lowered to a document whose root has the id 0 and one of whose
statements has the id 0 again, the 32-bit counter having wrapped. -/
theorem C2_counter_wraps :
    ∃ statements : List Json,
      TraverseTranslationUnitDecl (Sample.manyStructs UINT_MOD) Visitor.init =
        Res.ok (Json.obj [("id", Json.int 0), ("statements", Json.arr statements)])
          { Visitor.init with currentId := 1 + UINT_MOD } ∧
      Sample.structNode 0 ∈ statements ∧
      ¬ (Json.obj [("id", Json.int 0), ("statements", Json.arr statements)]).ids.Nodup := by
  have hlt : UINT_MOD - 1 < UINT_MOD := by
    unfold UINT_MOD
    omega
  have hmod : (1 + (UINT_MOD - 1)) % UINT_MOD = 0 := by
    rw [show 1 + (UINT_MOD - 1) = UINT_MOD by omega, Nat.mod_self]
  refine ⟨(List.range UINT_MOD).map fun i => Sample.structNode ((1 + i) % UINT_MOD),
    translationUnit_manyStructs UINT_MOD, ?_, ?_⟩
  · refine List.mem_map.2 ⟨UINT_MOD - 1, List.mem_range.2 hlt, ?_⟩
    rw [hmod]
  · rw [ids_document, idsOfElems_structNodes, List.nodup_cons]
    intro h
    apply h.1
    refine List.mem_map.2 ⟨UINT_MOD - 1, List.mem_range.2 hlt, ?_⟩
    rw [hmod]
    rfl

/-! ## Claims C21 to C30 -/

/-! ### Identifier references, operator calls, id counts, element renaming -/

/-- C21: an identifier reference of the main file is lowered by its type. With
the output-stream or input-stream type, or with the I/O flag type and a name
other than `endl`, nothing is produced: the result slot and the id counter are
unchanged. With the I/O flag type and the name `endl` the node has type
`string` and the newline as value. Otherwise the node has type `identifier`
and the referenced name as value. Each produced node takes exactly one id. -/
theorem C21_identifier_reference (loc : Loc) (name typeName : String) (v : Visitor)
    (h : loc.inMain = true) :
    ((typeName = PRINT_TYPE ∨ typeName = READ_TYPE ∨
        (typeName = PRINT_FLAG_TYPE ∧ name ≠ "endl")) →
      TraverseStmt (Stmt.DeclRefExpr loc name typeName) v = Res.ok () v) ∧
    (typeName = PRINT_FLAG_TYPE → name = "endl" →
      TraverseStmt (Stmt.DeclRefExpr loc name typeName) v =
        Res.ok () { v with
          currentId := v.currentId + 1
          sonValue := Json.obj (addPos [("id", idValue v.currentId)] loc ++
            [("type", Json.str "string"), ("value", Json.str "\n")]) }) ∧
    (typeName ≠ PRINT_TYPE → typeName ≠ READ_TYPE → typeName ≠ PRINT_FLAG_TYPE →
      TraverseStmt (Stmt.DeclRefExpr loc name typeName) v =
        Res.ok () { v with
          currentId := v.currentId + 1
          sonValue := Json.obj (addPos
            [("type", Json.str "identifier"), ("value", Json.str name),
             ("id", idValue v.currentId)] loc) }) := by
  obtain ⟨inMain, pos⟩ := loc
  simp only at h
  subst h
  refine ⟨fun h1 => ?_, fun h1 h2 => ?_, fun h1 h2 h3 => ?_⟩
  · unfold TraverseStmt
    rcases h1 with h1 | h1 | ⟨h1, h2⟩
    · simp [Stmt.skipped, Stmt.loc?, h1]
    · simp [Stmt.skipped, Stmt.loc?, h1]
    · simp [Stmt.skipped, Stmt.loc?, h1, h2]
  · subst h1 h2
    rfl
  · unfold TraverseStmt
    simp [Stmt.skipped, Stmt.loc?, h1, h2, h3, addId, createIdentifierValue]

/-- Witness of C21: the identifier `x` of type `int` at line 2, column 7,
lowered by a fresh visitor. -/
theorem C21_identifier_reference_witness :
    (Sample.at_ 2 7).inMain = true ∧
    "int" ≠ PRINT_TYPE ∧ "int" ≠ READ_TYPE ∧ "int" ≠ PRINT_FLAG_TYPE ∧
    TraverseStmt (Stmt.DeclRefExpr (Sample.at_ 2 7) "x" "int") Visitor.init =
      Res.ok () { Visitor.init with
        currentId := 1
        sonValue := Json.obj [("type", Json.str "identifier"), ("value", Json.str "x"),
          ("id", Json.int 0), ("line", Json.int 2), ("column", Json.int 7)] } :=
  ⟨rfl, by decide, by decide, by decide,
   (C21_identifier_reference (Sample.at_ 2 7) "x" "int" Visitor.init rfl).2.2
     (by decide) (by decide) (by decide)⟩

/-- C22, as amended: a call of an overloaded operator of the main file whose
target is not resolved to a function, or whose operator is none of `<<`, `>>`
and `[]`, is lowered to nothing: no message node is built, the result slot and
the id counter are unchanged, and the traversal goes on with success. -/
theorem C22_unknown_operator_call (loc : Loc) (functionName : String) (args : List Stmt)
    (v : Visitor) (h : loc.inMain = true) :
    TraverseStmt (Stmt.CXXOperatorCallExpr loc none args) v = Res.ok () v ∧
    (functionName ≠ PRINT_NAME → functionName ≠ READ_NAME →
      functionName ≠ VECTOR_POS_NAME →
      TraverseStmt (Stmt.CXXOperatorCallExpr loc (some functionName) args) v = Res.ok () v) := by
  obtain ⟨inMain, pos⟩ := loc
  simp only at h
  subst h
  refine ⟨?_, fun h1 h2 h3 => ?_⟩
  · unfold TraverseStmt
    simp [Stmt.skipped, Stmt.loc?]
  · unfold TraverseStmt
    simp [Stmt.skipped, Stmt.loc?, h1, h2, h3]

/-- Witness of C22: the call `s + t` of `operator+` on two strings, lowered by a
visitor that holds the node of an earlier integer literal in its result slot. -/
theorem C22_unknown_operator_call_witness :
    (Sample.at_ 4 7).inMain = true ∧
    "operator+" ≠ PRINT_NAME ∧ "operator+" ≠ READ_NAME ∧ "operator+" ≠ VECTOR_POS_NAME ∧
    TraverseStmt Sample.stringPlus
        { Visitor.init with
          currentId := 1
          sonValue := Json.obj [("type", Json.str "int"), ("value", Json.int 1),
            ("id", Json.int 0)] } =
      Res.ok ()
        { Visitor.init with
          currentId := 1
          sonValue := Json.obj [("type", Json.str "int"), ("value", Json.int 1),
            ("id", Json.int 0)] } :=
  ⟨rfl, by decide, by decide, by decide,
   (C22_unknown_operator_call (Sample.at_ 4 7) "operator+" _ _ rfl).2
     (by decide) (by decide) (by decide)⟩

/-- C22, counterexample: the call `s + t` of `operator+`, lowered by a fresh
visitor, leaves the result slot `Null` and the id counter at 0: there is no
message node. -/
theorem C22_no_message_node :
    TraverseStmt Sample.stringPlus Visitor.init = Res.ok () Visitor.init ∧
    Visitor.init.sonValue = Json.null ∧ Visitor.init.currentId = 0 :=
  ⟨rfl, rfl, rfl⟩

theorem Good.card_le {c : Nat} {m : Multiset Int} (h : Good c m) : Multiset.card m ≤ c := by
  have hsub : (⟨m, h.1⟩ : Finset Int) ⊆ Finset.Ico (0 : Int) c := by
    intro i hi
    exact Finset.mem_Ico.2 (h.2 i hi)
  have hcard := Finset.card_le_card hsub
  rw [Int.card_Ico] at hcard
  simpa using hcard

/-- C23, as amended: for every input program whose traversal returns and hands
out at most `2 ^ 32` ids, every id present in the document is one of the ids
allocated during the run, and the number of ids present in the document is at
most the number of ids allocated, the final value of the id counter. -/
theorem C23_ids_at_most_allocated (unitDecl : TranslationUnit) (document : Json)
    (w : Visitor)
    (h : TraverseTranslationUnitDecl unitDecl Visitor.init = Res.ok document w)
    (hM : w.currentId ≤ UINT_MOD) :
    (∀ i ∈ document.ids, 0 ≤ i ∧ i < (w.currentId : Int)) ∧
    document.ids.length ≤ w.currentId := by
  simp only [TraverseTranslationUnitDecl, addId, Visitor.init, List.nil_append] at h
  obtain ⟨statements, v1, h1, h2⟩ := TRY_TO_eq_ok h
  have p1 := TraverseTopLevel_post unitDecl (idOf 0) [] statements _ v1 h1
  simp only [Res.ok.injEq] at h2
  obtain ⟨rfl, rfl⟩ := h2
  have g0 : Good (0 + 1) (idOf 0 + 0) :=
    Good.step ⟨Multiset.nodup_zero, fun i hi => absurd hi (Multiset.not_mem_zero i)⟩
      (by unfold UINT_MOD; omega)
  have g1 := (p1.goodArr hM rfl g0 (by simp only [idmE_nil, idm_null, add_zero])).drop
  have e : (Json.obj [("id", idValue 0), ("statements", Json.arr statements)]).idm =
      idOf 0 + idmE statements := by
    simp [idm_obj, idmM_id, idmM_other, idmM_nil, idm_arr]
  rw [← e] at g1
  exact ⟨fun i hi => g1.2 i (Multiset.mem_coe.2 hi), by simpa using g1.card_le⟩

/-- Witness of C23: the translation unit `struct P { int x; int y; int norm(); };`,
lowered by a fresh visitor. -/
theorem C23_ids_at_most_allocated_witness :
    (TraverseTranslationUnitDecl Sample.recordUnit Visitor.init =
        Res.ok Sample.recordDocument { Visitor.init with currentId := 6 } ∧
      6 ≤ UINT_MOD) ∧
    (∀ i ∈ Sample.recordDocument.ids, 0 ≤ i ∧ i < ((6 : Nat) : Int)) ∧
    Sample.recordDocument.ids.length ≤ 6 :=
  ⟨⟨rfl, by unfold UINT_MOD; omega⟩,
   C23_ids_at_most_allocated Sample.recordUnit Sample.recordDocument
     { Visitor.init with currentId := 6 } rfl (by show 6 ≤ 2 ^ 32; omega)⟩

/-- The declaration statement `int i, j` of the for statement of
`Sample.forTwoDecls`, lowered after the id of the for node is taken. -/
theorem forTwoDecls_init :
    TraverseStmt (Stmt.DeclStmt (Sample.at_ 5 8)
        [Sample.intDecl (Sample.at_ 5 8) "i", Sample.intDecl (Sample.at_ 5 15) "j"])
        { Visitor.init with currentId := 1 } =
      Res.ok () { Visitor.init with
        currentId := 5
        sonValue := Json.arr [Sample.intDeclNode 1 5 8 "i", Sample.intDeclNode 3 5 15 "j"] } := by
  rfl

/-- The lowering of `for (int i, j; ; ) {}` by a fresh visitor. -/
theorem forTwoDecls_run :
    TraverseStmt Sample.forTwoDecls Visitor.init =
      Res.ok () { Visitor.init with
        currentId := 7
        sonValue := Json.obj [("id", Json.int 0), ("line", Json.int 5), ("column", Json.int 3),
          ("type", Json.str "for"),
          ("init", Json.obj [("id", Json.int 5), ("line", Json.int 5), ("column", Json.int 3),
            ("type", Json.str "error"), ("value", Json.str "compoundStmt"),
            ("description", Json.str "Compound Statements are not allowed in for loop init")]),
          ("condition", Json.null), ("post", Json.null),
          ("block", Json.obj [("id", Json.int 6), ("statements", Json.arr [])])] } := by
  have hinit := forTwoDecls_init
  unfold Sample.forTwoDecls
  rw [TraverseStmt]
  simp only [Stmt.skipped, Stmt.loc?, Sample.at_, Bool.not_true, Bool.false_eq_true, ite_false,
    addId, Visitor.init, List.nil_append] at hinit ⊢
  rw [hinit]
  rfl

/-- C23, counterexample: the translation unit `int a{1};` is given four ids and
its document holds three, the node of the initializer being dropped; the
statement `for (int i, j; ; ) {}` is given seven ids and its node holds three;
the member access `s.n` is given four ids and its node holds three. -/
theorem C23_dropped_ids :
    (TraverseTranslationUnitDecl [Sample.braceInit] Visitor.init =
        Res.ok Sample.braceInitDocument { Visitor.init with currentId := 4 } ∧
      Sample.braceInitDocument.ids = [0, 1, 2]) ∧
    ((TraverseStmt Sample.forTwoDecls Visitor.init).currentId? = some 7 ∧
      (TraverseStmt Sample.forTwoDecls Visitor.init).son?.map Json.ids = some [0, 5, 6]) ∧
    ((TraverseStmt Sample.structField Visitor.init).currentId? = some 4 ∧
      (TraverseStmt Sample.structField Visitor.init).son?.map Json.ids = some [3, 0, 1]) := by
  refine ⟨⟨rfl, rfl⟩, ⟨?_, ?_⟩, ⟨rfl, rfl⟩⟩
  · rw [forTwoDecls_run]
    rfl
  · rw [forTwoDecls_run]
    rfl

/-- C24, evaluated at the canonical types of `vector<char>` and of
`vector<float>`: the leaf type nodes are named `char` and `float`, where the
claim has `string` and `double`. -/
theorem C24_element_not_renamed :
    vectorSignature 1 "char" Sample.charAllocatorRest =
      "class std::vector<char, class std::allocator<char> >" ∧
    createVectorValue (vectorSignature 1 "char" Sample.charAllocatorRest) Visitor.init =
      Res.ok (Json.obj [("id", Json.int 1), ("name", Json.str "vector"),
          ("data-type", Json.obj [("id", Json.int 0), ("name", Json.str "char")])])
        { Visitor.init with currentId := 2 } ∧
    vectorSignature 1 "float" Sample.floatAllocatorRest =
      "class std::vector<float, class std::allocator<float> >" ∧
    createVectorValue (vectorSignature 1 "float" Sample.floatAllocatorRest) Visitor.init =
      Res.ok (Json.obj [("id", Json.int 1), ("name", Json.str "vector"),
          ("data-type", Json.obj [("id", Json.int 0), ("name", Json.str "float")])])
        { Visitor.init with currentId := 2 } :=
  ⟨by decide,
   createVectorValue_signature 1 "char" Sample.charAllocatorRest Visitor.init
     (by decide) (by decide) (by decide) (by decide),
   by decide,
   createVectorValue_signature 1 "float" Sample.floatAllocatorRest Visitor.init
     (by decide) (by decide) (by decide) (by decide)⟩

/-! ### Order of ids (claims C25 to C28) -/

theorem mem_idm {j : Json} {i : Int} : i ∈ j.idm ↔ i ∈ j.ids := Multiset.mem_coe

theorem findMember_idm_le {key : String} {child : Json} :
    ∀ {ms : Members}, Json.findMember key ms = some child → child.idm ≤ idmM ms := by
  intro ms
  induction ms with
  | nil => intro h; cases h
  | cons m ms ih =>
    obtain ⟨k, x⟩ := m
    intro h
    rw [idmM_cons]
    simp only [Json.findMember] at h
    split at h
    · cases h
      rw [add_assoc, add_comm]
      rw [add_assoc]
      exact Multiset.le_add_right _ _
    · exact le_trans (ih h) (Multiset.le_add_left _ _)

/-- The ids next to a fresh id `c` are below it. -/
theorem Good.below_last {c : Nat} {m : Multiset Int} (h : Good (c + 1) (idOf c + m))
    (hc : c < UINT_MOD) : ∀ i ∈ m, i < ((c % UINT_MOD : Nat) : Int) := by
  intro i hi
  rw [Nat.mod_eq_of_lt hc]
  have h1 := (h.2 i (Multiset.mem_add.2 (Or.inr hi))).2
  have h2 : i ≠ (c : Int) := by
    intro e
    subst e
    have hn := h.1
    unfold idOf at hn
    rw [Nat.mod_eq_of_lt hc, Multiset.singleton_add, Multiset.nodup_cons] at hn
    exact hn.1 hi
  have h3 : i < (c : Int) + 1 := by exact_mod_cast h1
  omega

/-- A node whose own id is the last one handed out has an id greater than
every id inside any of its members. -/
theorem idAfter_of_last {c : Nat} {ms : Members} {key : String} {child : Json}
    (hg : Good (c + 1) (Json.obj (("id", idValue c) :: ms)).idm) (hc : c < UINT_MOD)
    (hkey : key ≠ "id") (hchild : Json.findMember key ms = some child) :
    (Json.obj (("id", idValue c) :: ms)).idAfter key = true := by
  rw [idm_obj, idmM_id] at hg
  have hb := (hg.sub (add_le_add_left (findMember_idm_le hchild) _)).below_last hc
  have e1 : (Json.obj (("id", idValue c) :: ms)).id? = some ((c % UINT_MOD : Nat) : Int) := rfl
  have e2 : (Json.obj (("id", idValue c) :: ms)).field key = some child := by
    simp only [Json.field, Json.findMember]
    rw [if_neg (fun e => hkey e.symm)]
    exact hchild
  unfold Json.idAfter
  rw [e1, e2]
  simp only [List.all_eq_true, decide_eq_true_eq]
  exact fun i hi => hb i (mem_idm.2 hi)

/-- Ids that stay distinct next to any ids handed out before the counter
reached `c` were handed out from `c` on. -/
theorem fresh_of_frame {c c' : Nat} {m : Multiset Int}
    (H : ∀ F, Good c F → Good c' (F + m)) : ∀ i ∈ m, (c : Int) ≤ i := by
  intro i hi
  by_contra hlt
  have h0 : Good c' (0 + m) :=
    H 0 ⟨Multiset.nodup_zero, fun j hj => absurd hj (Multiset.not_mem_zero j)⟩
  rw [zero_add] at h0
  have hi0 := (h0.2 i hi).1
  have h1 : Good c ({i} : Multiset Int) :=
    ⟨Multiset.nodup_singleton i, fun j hj => by
      rw [Multiset.mem_singleton] at hj
      subst hj
      exact ⟨hi0, not_le.1 hlt⟩⟩
  have h2 := (H _ h1).1
  rw [Multiset.singleton_add, Multiset.nodup_cons] at h2
  exact h2.1 hi

/-- The arguments pushed by the argument loop from a state whose result slot
holds no id have ids from the counter on. -/
theorem TraversePushArgs_fresh (args : List Stmt) (out : List Json) (v w : Visitor)
    (h : TraversePushArgs args [] v = Res.ok out w) (hv : v.sonValue.ids = [])
    (hM : w.currentId ≤ UINT_MOD) : ∀ i ∈ Json.idsOfElems out, (v.currentId : Int) ≤ i := by
  have hv0 : v.sonValue.idm = 0 := by
    unfold Json.idm
    rw [hv]
    rfl
  have H : ∀ F, Good v.currentId F → Good w.currentId (F + idmE out) := fun F hF =>
    ((TraversePushArgs_post args F [] out v w h).goodArr hM rfl hF
      (by rw [hv0, idmE_nil, add_zero, add_zero])).drop
  exact fun i hi => fresh_of_frame H i (Multiset.mem_coe.2 hi)

theorem idBefore_of_fresh {c : Nat} {ms : Members} {child : Json} {key : String}
    (hc : c < UINT_MOD) (hkey : key ≠ "id") (hchild : Json.findMember key ms = some child)
    (hfresh : ∀ i ∈ child.ids, ((c + 1 : Nat) : Int) ≤ i) :
    (Json.obj (("id", idValue c) :: ms)).idBefore key = true := by
  have e1 : (Json.obj (("id", idValue c) :: ms)).id? = some ((c % UINT_MOD : Nat) : Int) := rfl
  have e2 : (Json.obj (("id", idValue c) :: ms)).field key = some child := by
    simp only [Json.field, Json.findMember]
    rw [if_neg (fun e => hkey e.symm)]
    exact hchild
  unfold Json.idBefore
  rw [e1, e2, Nat.mod_eq_of_lt hc]
  simp only [List.all_eq_true, decide_eq_true_eq]
  intro i hi
  have := hfresh i hi
  push_cast at this
  omega

/-- The ids left in the result slot by a statement lowered from a state whose
result slot holds no id were handed out from the counter on. -/
theorem TraverseStmt_fresh (S : Stmt) (v w : Visitor) (h : TraverseStmt S v = Res.ok () w)
    (hv : v.sonValue.ids = []) (hM : w.currentId ≤ UINT_MOD) :
    ∀ i ∈ w.sonValue.ids, (v.currentId : Int) ≤ i := by
  have hv0 : v.sonValue.idm = 0 := by
    unfold Json.idm
    rw [hv]
    rfl
  have H : ∀ F, Good v.currentId F → Good w.currentId (F + w.sonValue.idm) := fun F hF =>
    (TraverseStmt_post S F v w h).good hM rfl hF (by rw [hv0, add_zero])
  exact fun i hi => fresh_of_frame H i (Multiset.mem_coe.2 hi)

/-- Where C25 holds: a return statement of the main file lowered from a state
whose result slot holds no id, in a run that hands out at most `2 ^ 32` ids,
gets an id smaller than every id inside its `expression`. -/
theorem return_id_before_expression (loc : Loc) (retValue : Stmt) (v w : Visitor)
    (hloc : loc.inMain = true)
    (h : TraverseStmt (Stmt.ReturnStmt loc retValue) v = Res.ok () w)
    (hv : v.sonValue.ids = []) (hM : w.currentId ≤ UINT_MOD) :
    w.sonValue.idBefore "expression" = true := by
  unfold TraverseStmt at h
  simp only [Stmt.skipped, Stmt.loc?, hloc, Bool.not_true, Bool.false_eq_true, ite_false,
    addId, List.nil_append] at h
  obtain ⟨_, v1, h1, h2⟩ := TRY_TO_eq_ok h
  simp only [Res.ok.injEq, true_and] at h2
  subst h2
  simp only at hM
  have hle := (TraverseStmt_post retValue 0 _ v1 h1).1
  simp only at hle
  have hfresh := TraverseStmt_fresh retValue _ v1 h1 hv hM
  exact idBefore_of_fresh (by omega) (by decide) rfl hfresh

/-- C25, evaluated at the statement `switch (x) { case 1: return; }`: the
return node has the id 2 and its `expression` is the node of the case value
`1`, which has the id 1, where the claim has every id in the subtree of the
return node greater than 2. -/
theorem C25_return_under_case_label :
    TraverseStmt Sample.switchReturn Visitor.init =
      Res.ok () { Visitor.init with
        currentId := 3
        sonValue := Json.arr
          [Json.obj [("id", Json.int 2), ("line", Json.int 3), ("column", Json.int 11),
            ("type", Json.str "return"),
            ("expression", Json.obj [("type", Json.str "int"), ("value", Json.int 1),
              ("id", Json.int 1), ("line", Json.int 3), ("column", Json.int 8)])]] } := by
  rfl

/-- The block built from the result slot after a body is lowered has an id
greater than every id inside its statements. -/
theorem blockValue_idAfter (F : Multiset Int) (u : Visitor)
    (hg : Good u.currentId (F + u.sonValue.idm)) (hc : u.currentId < UINT_MOD) :
    (Json.obj ([("id", idValue u.currentId)] ++
      [("statements", (ensureSonIsArray u).sonValue)])).idAfter "statements" = true := by
  have e1 : (Json.obj ([("id", idValue u.currentId)] ++
      [("statements", (ensureSonIsArray u).sonValue)])).id? =
      some ((u.currentId % UINT_MOD : Nat) : Int) := rfl
  have e2 : (Json.obj ([("id", idValue u.currentId)] ++
      [("statements", (ensureSonIsArray u).sonValue)])).field "statements" =
      some (ensureSonIsArray u).sonValue := rfl
  unfold Json.idAfter
  rw [e1, e2, Nat.mod_eq_of_lt hc]
  simp only [List.all_eq_true, decide_eq_true_eq]
  intro i hi
  have hi2 : i ∈ u.sonValue.idm := by
    rw [← ensureSonIsArray_idm]
    exact mem_idm.2 hi
  exact (hg.2 i (Multiset.mem_add.2 (Or.inr hi2))).2

/-- C26, as amended: in a run that hands out at most `2 ^ 32` ids, from a state
whose result slot holds distinct ids below the counter, every block node (the
`then` and `else` blocks of a conditional, the `block` of a while statement, of
a for statement and of a function declaration) gets its id after the statements
it wraps are lowered: the id of the block is greater than every id inside its
`statements`. -/
theorem C26_block_id_after_statements (v w : Visitor)
    (hg : Good v.currentId v.sonValue.idm) (hM : w.currentId ≤ UINT_MOD) :
    (∀ (loc : Loc) (conditionVariable : Option Loc) (cond thenS elseS : Stmt),
      loc.inMain = true →
      TraverseStmt (Stmt.IfStmt loc conditionVariable cond thenS elseS) v = Res.ok () w →
      (w.sonValue.field "then").map (Json.idAfter "statements") = some true ∧
      (elseS.isNonNull = true →
        (w.sonValue.field "else").map (Json.idAfter "statements") = some true)) ∧
    (∀ (loc : Loc) (conditionVariable : Option Loc) (cond body : Stmt),
      loc.inMain = true →
      TraverseStmt (Stmt.WhileStmt loc conditionVariable cond body) v = Res.ok () w →
      (w.sonValue.field "block").map (Json.idAfter "statements") = some true) ∧
    (∀ (loc : Loc) (init cond inc body : Stmt),
      loc.inMain = true →
      TraverseStmt (Stmt.ForStmt loc init cond inc body) v = Res.ok () w →
      (w.sonValue.field "block").map (Json.idAfter "statements") = some true) ∧
    (∀ (loc : Loc) (functionName : String) (callResultType : TypeDesc) (params : List Decl)
        (isDefinition : Bool) (body : Stmt),
      loc.inMain = true →
      TraverseDecl (Decl.FunctionDecl loc functionName callResultType params isDefinition body)
        v = Res.ok () w →
      (w.sonValue.field "block").map (Json.idAfter "statements") = some true) := by
  have hg0 : Good v.currentId (0 + v.sonValue.idm) := by rw [zero_add]; exact hg
  refine ⟨?_, ?_, ?_, ?_⟩
  · intro loc conditionVariable cond thenS elseS hloc h
    unfold TraverseStmt at h
    simp only [Stmt.skipped, Stmt.loc?, hloc, Bool.not_true, Bool.false_eq_true, ite_false, addId, createBlockValue, createMessageValue, List.nil_append] at h
    cases conditionVariable with
    | some varLoc =>
      simp only at h
      obtain ⟨_, v2, h3, h4⟩ := TRY_TO_eq_ok h
      have p3 := TraverseStmt_post thenS (idOf v.currentId + idOf (v.currentId + 1) + 0) _ v2 h3
      have m3 := p3.1
      simp only at m3
      split at h4
      · rename_i hne
        obtain ⟨_, v3, h5, h6⟩ := TRY_TO_eq_ok h4
        have p5 := TraverseStmt_post elseS
          (idOf v.currentId + idOf (v.currentId + 1) + 0 + idOf v2.currentId + v2.sonValue.idm)
          _ v3 h5
        simp only [ensureSonIsArray_currentId] at p5
        have m5 := p5.1
        simp only at m5
        simp only [Res.ok.injEq, true_and] at h6
        subst h6
        simp only [ensureSonIsArray_currentId] at hM ⊢
        have g3 := p3.good (by omega) rfl ((hg0.step (by omega)).step (by omega)) (by simp [idm_obj, idm_arr, idmM_append, idmM_addPos, idmM_id, idmM_other, idmM_nil, idmE_nil, idmE_cons, idmE_append, idmE_map_null, idmE_replicate_null, idm_null, idm_str, idm_bool, idm_int, idm_double, ensureSonIsArray_idm, ensureSonIsArray_currentId, idm_messageValue] <;> abel)
        have g5 := p5.good (by omega) rfl (g3.step (by omega)) (by simp [idm_obj, idm_arr, idmM_append, idmM_addPos, idmM_id, idmM_other, idmM_nil, idmE_nil, idmE_cons, idmE_append, idmE_map_null, idmE_replicate_null, idm_null, idm_str, idm_bool, idm_int, idm_double, ensureSonIsArray_idm, ensureSonIsArray_currentId, idm_messageValue] <;> abel)
        exact ⟨congrArg some (blockValue_idAfter _ v2 g3 (by omega)),
          fun _ => congrArg some (blockValue_idAfter _ v3 g5 (by omega))⟩
      · rename_i hne
        simp only [Res.ok.injEq, true_and] at h4
        subst h4
        simp only [ensureSonIsArray_currentId] at hM ⊢
        have g3 := p3.good (by omega) rfl ((hg0.step (by omega)).step (by omega)) (by simp [idm_obj, idm_arr, idmM_append, idmM_addPos, idmM_id, idmM_other, idmM_nil, idmE_nil, idmE_cons, idmE_append, idmE_map_null, idmE_replicate_null, idm_null, idm_str, idm_bool, idm_int, idm_double, ensureSonIsArray_idm, ensureSonIsArray_currentId, idm_messageValue] <;> abel)
        exact ⟨congrArg some (blockValue_idAfter _ v2 g3 (by omega)),
          fun he => absurd he hne⟩
    | none =>
      simp only at h
      obtain ⟨_, v1, h1, h2⟩ := TRY_TO_eq_ok h
      have p1 := TraverseStmt_post cond (idOf v.currentId + 0) _ v1 h1
      have m1 := p1.1
      simp only at m1
      obtain ⟨_, v2, h3, h4⟩ := TRY_TO_eq_ok h2
      have p3 := TraverseStmt_post thenS (idOf v.currentId + 0 + v1.sonValue.idm) _ v2 h3
      have m3 := p3.1
      simp only at m3
      split at h4
      · rename_i hne
        obtain ⟨_, v3, h5, h6⟩ := TRY_TO_eq_ok h4
        have p5 := TraverseStmt_post elseS
          (idOf v.currentId + 0 + v1.sonValue.idm + idOf v2.currentId + v2.sonValue.idm)
          _ v3 h5
        simp only [ensureSonIsArray_currentId] at p5
        have m5 := p5.1
        simp only at m5
        simp only [Res.ok.injEq, true_and] at h6
        subst h6
        simp only [ensureSonIsArray_currentId] at hM ⊢
        have g1 := p1.good (by omega) rfl (hg0.step (by omega)) (by simp [idm_obj, idm_arr, idmM_append, idmM_addPos, idmM_id, idmM_other, idmM_nil, idmE_nil, idmE_cons, idmE_append, idmE_map_null, idmE_replicate_null, idm_null, idm_str, idm_bool, idm_int, idm_double, ensureSonIsArray_idm, ensureSonIsArray_currentId, idm_messageValue] <;> abel)
        have g3 := p3.good (by omega) rfl g1 (by simp [idm_obj, idm_arr, idmM_append, idmM_addPos, idmM_id, idmM_other, idmM_nil, idmE_nil, idmE_cons, idmE_append, idmE_map_null, idmE_replicate_null, idm_null, idm_str, idm_bool, idm_int, idm_double, ensureSonIsArray_idm, ensureSonIsArray_currentId, idm_messageValue] <;> abel)
        have g5 := p5.good (by omega) rfl (g3.step (by omega)) (by simp [idm_obj, idm_arr, idmM_append, idmM_addPos, idmM_id, idmM_other, idmM_nil, idmE_nil, idmE_cons, idmE_append, idmE_map_null, idmE_replicate_null, idm_null, idm_str, idm_bool, idm_int, idm_double, ensureSonIsArray_idm, ensureSonIsArray_currentId, idm_messageValue] <;> abel)
        exact ⟨congrArg some (blockValue_idAfter _ v2 g3 (by omega)),
          fun _ => congrArg some (blockValue_idAfter _ v3 g5 (by omega))⟩
      · rename_i hne
        simp only [Res.ok.injEq, true_and] at h4
        subst h4
        simp only [ensureSonIsArray_currentId] at hM ⊢
        have g1 := p1.good (by omega) rfl (hg0.step (by omega)) (by simp [idm_obj, idm_arr, idmM_append, idmM_addPos, idmM_id, idmM_other, idmM_nil, idmE_nil, idmE_cons, idmE_append, idmE_map_null, idmE_replicate_null, idm_null, idm_str, idm_bool, idm_int, idm_double, ensureSonIsArray_idm, ensureSonIsArray_currentId, idm_messageValue] <;> abel)
        have g3 := p3.good (by omega) rfl g1 (by simp [idm_obj, idm_arr, idmM_append, idmM_addPos, idmM_id, idmM_other, idmM_nil, idmE_nil, idmE_cons, idmE_append, idmE_map_null, idmE_replicate_null, idm_null, idm_str, idm_bool, idm_int, idm_double, ensureSonIsArray_idm, ensureSonIsArray_currentId, idm_messageValue] <;> abel)
        exact ⟨congrArg some (blockValue_idAfter _ v2 g3 (by omega)),
          fun he => absurd he hne⟩
  · intro loc conditionVariable cond body hloc h
    unfold TraverseStmt at h
    simp only [Stmt.skipped, Stmt.loc?, hloc, Bool.not_true, Bool.false_eq_true, ite_false, addId, createBlockValue, createMessageValue, List.nil_append] at h
    cases conditionVariable with
    | some varLoc =>
      simp only at h
      obtain ⟨_, v2, h3, h4⟩ := TRY_TO_eq_ok h
      have p3 := TraverseStmt_post body (idOf v.currentId + idOf (v.currentId + 1) + 0) _ v2 h3
      have m3 := p3.1
      simp only at m3
      simp only [Res.ok.injEq, true_and] at h4
      subst h4
      simp only [ensureSonIsArray_currentId] at hM ⊢
      have g3 := p3.good (by omega) rfl ((hg0.step (by omega)).step (by omega)) (by simp [idm_obj, idm_arr, idmM_append, idmM_addPos, idmM_id, idmM_other, idmM_nil, idmE_nil, idmE_cons, idmE_append, idmE_map_null, idmE_replicate_null, idm_null, idm_str, idm_bool, idm_int, idm_double, ensureSonIsArray_idm, ensureSonIsArray_currentId, idm_messageValue] <;> abel)
      exact congrArg some (blockValue_idAfter _ v2 g3 (by omega))
    | none =>
      simp only at h
      obtain ⟨_, v1, h1, h2⟩ := TRY_TO_eq_ok h
      have p1 := TraverseStmt_post cond (idOf v.currentId + 0) _ v1 h1
      have m1 := p1.1
      simp only at m1
      obtain ⟨_, v2, h3, h4⟩ := TRY_TO_eq_ok h2
      have p3 := TraverseStmt_post body (idOf v.currentId + 0 + v1.sonValue.idm) _ v2 h3
      have m3 := p3.1
      simp only at m3
      simp only [Res.ok.injEq, true_and] at h4
      subst h4
      simp only [ensureSonIsArray_currentId] at hM ⊢
      have g1 := p1.good (by omega) rfl (hg0.step (by omega)) (by simp [idm_obj, idm_arr, idmM_append, idmM_addPos, idmM_id, idmM_other, idmM_nil, idmE_nil, idmE_cons, idmE_append, idmE_map_null, idmE_replicate_null, idm_null, idm_str, idm_bool, idm_int, idm_double, ensureSonIsArray_idm, ensureSonIsArray_currentId, idm_messageValue] <;> abel)
      have g3 := p3.good (by omega) rfl g1 (by simp [idm_obj, idm_arr, idmM_append, idmM_addPos, idmM_id, idmM_other, idmM_nil, idmE_nil, idmE_cons, idmE_append, idmE_map_null, idmE_replicate_null, idm_null, idm_str, idm_bool, idm_int, idm_double, ensureSonIsArray_idm, ensureSonIsArray_currentId, idm_messageValue] <;> abel)
      exact congrArg some (blockValue_idAfter _ v2 g3 (by omega))
  · intro loc init cond inc body hloc h
    unfold TraverseStmt at h
    simp only [Stmt.skipped, Stmt.loc?, hloc, Bool.not_true, Bool.false_eq_true, ite_false, addId, createBlockValue, createMessageValue, List.nil_append] at h
    obtain ⟨_, v1, h1, h2⟩ := TRY_TO_eq_ok h
    have p1 := TraverseStmt_post init (idOf v.currentId + 0) _ v1 h1
    have m1 := p1.1
    simp only at m1
    by_cases ha : v1.sonValue.IsArray = true
    · simp only [ha, ite_true] at h2
      obtain ⟨_, v2, h3, h4⟩ := TRY_TO_eq_ok h2
      have p3 := TraverseStmt_post cond (idOf v.currentId + 0 + idOf v1.currentId) _ v2 h3
      have m3 := p3.1
      simp only at m3
      obtain ⟨_, v3, h5, h6⟩ := TRY_TO_eq_ok h4
      have p5 := TraverseStmt_post inc (idOf v.currentId + 0 + idOf v1.currentId + v2.sonValue.idm) _ v3 h5
      have m5 := p5.1
      simp only at m5
      obtain ⟨_, v4, h7, h8⟩ := TRY_TO_eq_ok h6
      have p7 := TraverseStmt_post body (idOf v.currentId + 0 + idOf v1.currentId + v2.sonValue.idm + v3.sonValue.idm) _ v4 h7
      have m7 := p7.1
      simp only at m7
      simp only [Res.ok.injEq, true_and] at h8
      subst h8
      simp only [ensureSonIsArray_currentId] at hM ⊢
      have g1 := p1.good (by omega) rfl (hg0.step (by omega)) (by simp [idm_obj, idm_arr, idmM_append, idmM_addPos, idmM_id, idmM_other, idmM_nil, idmE_nil, idmE_cons, idmE_append, idmE_map_null, idmE_replicate_null, idm_null, idm_str, idm_bool, idm_int, idm_double, ensureSonIsArray_idm, ensureSonIsArray_currentId, idm_messageValue] <;> abel)
      have g3 := p3.good (by omega) rfl (g1.drop.step (by omega)) (by simp [idm_obj, idm_arr, idmM_append, idmM_addPos, idmM_id, idmM_other, idmM_nil, idmE_nil, idmE_cons, idmE_append, idmE_map_null, idmE_replicate_null, idm_null, idm_str, idm_bool, idm_int, idm_double, ensureSonIsArray_idm, ensureSonIsArray_currentId, idm_messageValue] <;> abel)
      have g5 := p5.good (by omega) rfl g3 (by simp [idm_obj, idm_arr, idmM_append, idmM_addPos, idmM_id, idmM_other, idmM_nil, idmE_nil, idmE_cons, idmE_append, idmE_map_null, idmE_replicate_null, idm_null, idm_str, idm_bool, idm_int, idm_double, ensureSonIsArray_idm, ensureSonIsArray_currentId, idm_messageValue] <;> abel)
      have g7 := p7.good (by omega) rfl g5 (by simp [idm_obj, idm_arr, idmM_append, idmM_addPos, idmM_id, idmM_other, idmM_nil, idmE_nil, idmE_cons, idmE_append, idmE_map_null, idmE_replicate_null, idm_null, idm_str, idm_bool, idm_int, idm_double, ensureSonIsArray_idm, ensureSonIsArray_currentId, idm_messageValue] <;> abel)
      exact congrArg some (blockValue_idAfter _ v4 g7 (by omega))
    · simp only [ha, ite_false, Bool.false_eq_true] at h2
      obtain ⟨_, v2, h3, h4⟩ := TRY_TO_eq_ok h2
      have p3 := TraverseStmt_post cond (idOf v.currentId + 0 + v1.sonValue.idm) _ v2 h3
      have m3 := p3.1
      simp only at m3
      obtain ⟨_, v3, h5, h6⟩ := TRY_TO_eq_ok h4
      have p5 := TraverseStmt_post inc (idOf v.currentId + 0 + v1.sonValue.idm + v2.sonValue.idm) _ v3 h5
      have m5 := p5.1
      simp only at m5
      obtain ⟨_, v4, h7, h8⟩ := TRY_TO_eq_ok h6
      have p7 := TraverseStmt_post body (idOf v.currentId + 0 + v1.sonValue.idm + v2.sonValue.idm + v3.sonValue.idm) _ v4 h7
      have m7 := p7.1
      simp only at m7
      simp only [Res.ok.injEq, true_and] at h8
      subst h8
      simp only [ensureSonIsArray_currentId] at hM ⊢
      have g1 := p1.good (by omega) rfl (hg0.step (by omega)) (by simp [idm_obj, idm_arr, idmM_append, idmM_addPos, idmM_id, idmM_other, idmM_nil, idmE_nil, idmE_cons, idmE_append, idmE_map_null, idmE_replicate_null, idm_null, idm_str, idm_bool, idm_int, idm_double, ensureSonIsArray_idm, ensureSonIsArray_currentId, idm_messageValue] <;> abel)
      have g3 := p3.good (by omega) rfl (g1) (by simp [idm_obj, idm_arr, idmM_append, idmM_addPos, idmM_id, idmM_other, idmM_nil, idmE_nil, idmE_cons, idmE_append, idmE_map_null, idmE_replicate_null, idm_null, idm_str, idm_bool, idm_int, idm_double, ensureSonIsArray_idm, ensureSonIsArray_currentId, idm_messageValue] <;> abel)
      have g5 := p5.good (by omega) rfl g3 (by simp [idm_obj, idm_arr, idmM_append, idmM_addPos, idmM_id, idmM_other, idmM_nil, idmE_nil, idmE_cons, idmE_append, idmE_map_null, idmE_replicate_null, idm_null, idm_str, idm_bool, idm_int, idm_double, ensureSonIsArray_idm, ensureSonIsArray_currentId, idm_messageValue] <;> abel)
      have g7 := p7.good (by omega) rfl g5 (by simp [idm_obj, idm_arr, idmM_append, idmM_addPos, idmM_id, idmM_other, idmM_nil, idmE_nil, idmE_cons, idmE_append, idmE_map_null, idmE_replicate_null, idm_null, idm_str, idm_bool, idm_int, idm_double, ensureSonIsArray_idm, ensureSonIsArray_currentId, idm_messageValue] <;> abel)
      exact congrArg some (blockValue_idAfter _ v4 g7 (by omega))
  · intro loc functionName callResultType params isDefinition body hloc h
    unfold TraverseDecl at h
    simp only [Decl.loc, hloc, Bool.not_true, Bool.false_eq_true, ite_false, addId, createBlockValue, createMessageValue, List.nil_append] at h
    obtain ⟨returnType, v1, h1, h2⟩ := TRY_TO_eq_ok h
    obtain ⟨t1, ts, tg⟩ := createTypeValue_post h1
    simp only at t1 ts tg
    obtain ⟨parametersValue, v2, h3, h4⟩ := TRY_TO_eq_ok h2
    have p3 := TraversePushDecls_post params (idOf v.currentId + 0 + returnType.idm) []
      parametersValue v1 v2 h3
    have m3 := p3.1
    split at h4
    · obtain ⟨_, v3, h5, h6⟩ := TRY_TO_eq_ok h4
      have p5 := TraverseStmt_post body
        (idOf v.currentId + 0 + returnType.idm + idmE parametersValue) _ v3 h5
      have m5 := p5.1
      simp only [Res.ok.injEq, true_and] at h6
      subst h6
      simp only [ensureSonIsArray_currentId] at hM ⊢
      have g1 := tg (by omega) _ (hg0.step (by omega))
      have g3 := p3.goodArr (by omega) rfl g1 (by rw [ts]; simp [idm_obj, idm_arr, idmM_append, idmM_addPos, idmM_id, idmM_other, idmM_nil, idmE_nil, idmE_cons, idmE_append, idmE_map_null, idmE_replicate_null, idm_null, idm_str, idm_bool, idm_int, idm_double, ensureSonIsArray_idm, ensureSonIsArray_currentId, idm_messageValue] <;> abel)
      have g5 := p5.good (by omega) rfl g3 (by simp [idm_obj, idm_arr, idmM_append, idmM_addPos, idmM_id, idmM_other, idmM_nil, idmE_nil, idmE_cons, idmE_append, idmE_map_null, idmE_replicate_null, idm_null, idm_str, idm_bool, idm_int, idm_double, ensureSonIsArray_idm, ensureSonIsArray_currentId, idm_messageValue] <;> abel)
      exact congrArg some (blockValue_idAfter _ v3 g5 (by omega))
    · simp only [Res.ok.injEq, true_and] at h4
      subst h4
      rfl

/-- Witness of C26: the statement `while (x) { y; }`, lowered by a fresh visitor. -/
theorem C26_block_id_after_statements_witness :
    (Good Visitor.init.currentId Visitor.init.sonValue.idm ∧ 4 ≤ UINT_MOD ∧
      (Sample.at_ 2 3).inMain = true ∧
      TraverseStmt Sample.whileBlock Visitor.init =
        Res.ok () { Visitor.init with currentId := 4, sonValue := Sample.whileBlockNode }) ∧
    (Sample.whileBlockNode.field "block").map (Json.idAfter "statements") = some true :=
  ⟨⟨⟨Multiset.nodup_zero, fun i hi => absurd hi (Multiset.not_mem_zero i)⟩,
      by unfold UINT_MOD; omega, rfl, rfl⟩,
   (C26_block_id_after_statements Visitor.init
      { Visitor.init with currentId := 4, sonValue := Sample.whileBlockNode }
      ⟨Multiset.nodup_zero, fun i hi => absurd hi (Multiset.not_mem_zero i)⟩
      (by show 4 ≤ 2 ^ 32; omega)).2.1 (Sample.at_ 2 3) none
      (Sample.intVar (Sample.at_ 2 10) "x")
      (Stmt.CompoundStmt (Sample.at_ 2 13) [Sample.intVar (Sample.at_ 2 15) "y"]) rfl rfl⟩

/-- C26, counterexample: in the node of `while (x) { y; }`, lowered by a fresh
visitor, the block has the id 3 and the statement inside it the id 2: the id of
the block is not smaller than the ids inside its statements. -/
theorem C26_block_id_is_last :
    TraverseStmt Sample.whileBlock Visitor.init =
      Res.ok () { Visitor.init with currentId := 4, sonValue := Sample.whileBlockNode } ∧
    (Sample.whileBlockNode.field "block").bind Json.id? = some 3 ∧
    ((Sample.whileBlockNode.field "block").bind (Json.field "statements")).map Json.ids =
      some [2] ∧
    (Sample.whileBlockNode.field "block").map (Json.idBefore "statements") = some false :=
  ⟨rfl, rfl, rfl, rfl⟩

/-- The node that a statement ending with `createBinOpValue` leaves: its id is
the last one handed out and it has the members `left` and `right`. -/
theorem binOp_shape (S : Stmt) (v w : Visitor) (hS : S.buildsBinOp = true)
    (h : TraverseStmt S v = Res.ok () w) :
    ∃ (c : Nat) (ms : Members) (left right : Json),
      w.currentId = c + 1 ∧ w.sonValue = Json.obj (("id", idValue c) :: ms) ∧
      Json.findMember "left" ms = some left ∧ Json.findMember "right" ms = some right := by
  cases S with
  | BinaryOperator loc opcode lhs rhs =>
    simp only [Stmt.buildsBinOp, Bool.and_eq_true, bne_iff_ne, ne_eq] at hS
    unfold TraverseStmt at h
    simp only [Stmt.skipped, Stmt.loc?, hS.1, hS.2, Bool.not_true, Bool.false_eq_true,
      ite_false, createBinOpValue, addId, List.nil_append] at h
    obtain ⟨_, v1, h1, h2⟩ := TRY_TO_eq_ok h
    obtain ⟨_, v2, h3, h4⟩ := TRY_TO_eq_ok h2
    simp only [Res.ok.injEq, true_and] at h4
    subst h4
    exact ⟨_, _, _, _, rfl, rfl, rfl, rfl⟩
  | CXXOperatorCallExpr loc callee args =>
    cases callee with
    | none => simp [Stmt.buildsBinOp] at hS
    | some functionName =>
      simp only [Stmt.buildsBinOp, Bool.and_eq_true, bne_iff_ne, ne_eq, beq_iff_eq] at hS
      obtain ⟨⟨⟨hl, hp⟩, hr⟩, hv⟩ := hS
      unfold TraverseStmt at h
      simp only [Stmt.skipped, Stmt.loc?, hl, hp, hr, hv, Bool.not_true, Bool.false_eq_true,
        ite_false, ite_true, Bool.or_self, createBinOpValue, addId,
        List.nil_append] at h
      rw [if_neg (by decide)] at h
      split at h
      · obtain ⟨_, v1, h1, h2⟩ := TRY_TO_eq_ok h
        obtain ⟨_, v2, h3, h4⟩ := TRY_TO_eq_ok h2
        simp only [Res.ok.injEq, true_and] at h4
        subst h4
        exact ⟨_, _, _, _, rfl, rfl, rfl, rfl⟩
      · cases h
  | MemberExpr loc base memberDecl =>
    simp only [Stmt.buildsBinOp] at hS
    unfold TraverseStmt at h
    simp only [Stmt.skipped, Stmt.loc?, hS, Bool.not_true, Bool.false_eq_true,
      ite_false, createBinOpValue, addId, List.nil_append] at h
    obtain ⟨_, v1, h1, h2⟩ := TRY_TO_eq_ok h
    obtain ⟨_, v2, h3, h4⟩ := TRY_TO_eq_ok h2
    split at h4
    · cases h4
    · simp only [Res.ok.injEq, true_and] at h4
      subst h4
      exact ⟨_, _, _, _, rfl, rfl, rfl, rfl⟩
  | CXXMemberCallExpr loc methodName objectExpr args =>
    simp only [Stmt.buildsBinOp] at hS
    unfold TraverseStmt at h
    simp only [Stmt.skipped, Stmt.loc?, hS, Bool.not_true, Bool.false_eq_true,
      ite_false, createBinOpValue, addId, List.nil_append] at h
    obtain ⟨_, v1, h1, h2⟩ := TRY_TO_eq_ok h
    obtain ⟨_, v2, h3, h4⟩ := TRY_TO_eq_ok h2
    simp only [Res.ok.injEq, true_and] at h4
    subst h4
    exact ⟨_, _, _, _, rfl, rfl, rfl, rfl⟩
  | _ => simp [Stmt.buildsBinOp] at hS

/-- C27, as amended: for every statement that ends with `createBinOpValue` (a
binary operator other than the comma, a subscript, a member access, a
member-function call), lowered from a state whose result slot holds distinct
ids below the counter, in a run that hands out at most `2 ^ 32` ids, the id of
the node is greater than every id inside its `left` and inside its `right`
member. -/
theorem C27_binary_id_after_operands (S : Stmt) (v w : Visitor) (hS : S.buildsBinOp = true)
    (h : TraverseStmt S v = Res.ok () w) (hg : Good v.currentId v.sonValue.idm)
    (hM : w.currentId ≤ UINT_MOD) :
    w.sonValue.idAfter "left" = true ∧ w.sonValue.idAfter "right" = true := by
  obtain ⟨c, ms, left, right, hc, hson, hl, hr⟩ := binOp_shape S v w hS h
  have gw := (TraverseStmt_post S 0 v w h).good hM rfl hg (zero_add _).symm
  rw [zero_add, hc, hson] at gw
  rw [hson]
  exact ⟨idAfter_of_last gw (by omega) (by decide) hl,
    idAfter_of_last gw (by omega) (by decide) hr⟩

/-- Witness of C27: the expression `1 + 2`, lowered by a fresh visitor. -/
theorem C27_binary_id_after_operands_witness :
    (Sample.onePlusTwo.buildsBinOp = true ∧
      TraverseStmt Sample.onePlusTwo Visitor.init =
        Res.ok () { Visitor.init with
          currentId := 3
          sonValue := Sample.onePlusTwoNode 2 0 1 } ∧
      Good Visitor.init.currentId Visitor.init.sonValue.idm ∧ 3 ≤ UINT_MOD) ∧
    (Sample.onePlusTwoNode 2 0 1).idAfter "left" = true ∧
    (Sample.onePlusTwoNode 2 0 1).idAfter "right" = true :=
  ⟨⟨rfl, rfl, ⟨Multiset.nodup_zero, fun i hi => absurd hi (Multiset.not_mem_zero i)⟩,
      by unfold UINT_MOD; omega⟩,
   C27_binary_id_after_operands Sample.onePlusTwo Visitor.init
     { Visitor.init with
       currentId := 3
       sonValue := Sample.onePlusTwoNode 2 0 1 }
     rfl rfl ⟨Multiset.nodup_zero, fun i hi => absurd hi (Multiset.not_mem_zero i)⟩
     (by show 3 ≤ 2 ^ 32; omega)⟩

/-- C27, counterexample: the expression `1 + 2`, lowered by a visitor that has
handed out `2 ^ 32 - 2` ids, gets the id 0 for the `+` node, the 32-bit counter
having wrapped, and the ids `2 ^ 32 - 2` and `2 ^ 32 - 1` for its operands: the
id of the node is smaller than the ids inside `left` and `right`. -/
theorem C27_id_wraps_below_operands :
    TraverseStmt Sample.onePlusTwo { Visitor.init with currentId := 2 ^ 32 - 2 } =
      Res.ok () { Visitor.init with
        currentId := 2 ^ 32 + 1
        sonValue := Sample.onePlusTwoNode 0 (2 ^ 32 - 2) (2 ^ 32 - 1) } ∧
    (Sample.onePlusTwoNode 0 (2 ^ 32 - 2) (2 ^ 32 - 1)).idAfter "left" = false ∧
    (Sample.onePlusTwoNode 0 (2 ^ 32 - 2) (2 ^ 32 - 1)).idAfter "right" = false :=
  ⟨rfl, rfl, rfl⟩

/-- C28, as amended: in a run that hands out at most `2 ^ 32` ids, the
`function-call` node of the outermost call of a print or read chain gets its id
after its arguments: the id is greater than every id inside `arguments`. The
`function-call` node of a free function call and the one of a member-function
call (the `right` member of the `.` node) get their id before the arguments are
lowered: lowered from a state whose result slot holds no id, the id is smaller
than every id inside `arguments`. -/
theorem C28_call_id_and_arguments (loc : Loc) (functionName : String) (objectExpr : Stmt)
    (args : List Stmt) (v w : Visitor) (hloc : loc.inMain = true)
    (hM : w.currentId ≤ UINT_MOD) :
    ((functionName = PRINT_NAME ∨ functionName = READ_NAME) →
      v.iofunctionStarted = false → Good v.currentId v.sonValue.idm →
      TraverseStmt (Stmt.CXXOperatorCallExpr loc (some functionName) args) v = Res.ok () w →
      w.sonValue.idAfter "arguments" = true) ∧
    (v.sonValue.ids = [] →
      TraverseStmt (Stmt.CallExpr loc (some functionName) args) v = Res.ok () w →
      w.sonValue.idBefore "arguments" = true) ∧
    (v.sonValue.ids = [] →
      TraverseStmt (Stmt.CXXMemberCallExpr loc functionName objectExpr args) v = Res.ok () w →
      (w.sonValue.field "right").map (Json.idBefore "arguments") = some true) := by
  refine ⟨fun hname hio hg h => ?_, fun hv h => ?_, fun hv h => ?_⟩
  · have gw := (TraverseStmt_post _ 0 v w h).good hM rfl hg (zero_add _).symm
    rw [zero_add] at gw
    unfold TraverseStmt at h
    have hcond : (functionName = PRINT_NAME || functionName = READ_NAME) = true := by
      rcases hname with e | e <;> simp [e]
    simp only [Stmt.skipped, Stmt.loc?, hloc, Bool.not_true, Bool.false_eq_true, ite_false,
      hcond, ite_true, hio, Bool.not_false, addId, List.nil_append] at h
    obtain ⟨out, u, h1, h2⟩ := TRY_TO_eq_ok h
    simp only [Res.ok.injEq, true_and] at h2
    subst h2
    simp only at gw hM
    exact idAfter_of_last gw (by omega) (by decide) rfl
  · unfold TraverseStmt at h
    simp only [Stmt.skipped, Stmt.loc?, hloc, Bool.not_true, Bool.false_eq_true, ite_false,
      addId, List.nil_append] at h
    obtain ⟨out, u, h1, h2⟩ := TRY_TO_eq_ok h
    simp only [Res.ok.injEq, true_and] at h2
    subst h2
    simp only at hM
    have hle := (TraversePushArgs_post args 0 [] out _ u h1).1
    simp only at hle
    have hfresh := TraversePushArgs_fresh args out _ u h1 hv hM
    exact idBefore_of_fresh (by omega) (by decide) rfl hfresh
  · unfold TraverseStmt at h
    simp only [Stmt.skipped, Stmt.loc?, hloc, Bool.not_true, Bool.false_eq_true, ite_false,
      addId, createBinOpValue, List.nil_append] at h
    obtain ⟨out, u, h1, h2⟩ := TRY_TO_eq_ok h
    obtain ⟨_, u2, h3, h4⟩ := TRY_TO_eq_ok h2
    simp only [Res.ok.injEq, true_and] at h4
    subst h4
    simp only at hM
    have hle := (TraversePushArgs_post args 0 [] out _ u h1).1
    simp only at hle
    have hle2 := (TraverseStmt_post objectExpr 0 u u2 h3).1
    have hfresh := TraversePushArgs_fresh args out _ u h1 hv (by omega)
    have e : (Json.obj (addPos ([("id", idValue u2.currentId)] ++
        [("type", Json.str "."), ("left", u2.sonValue),
         ("right", Json.obj (addPos [("id", idValue v.currentId)] loc ++
            [("type", Json.str "function-call"), ("name", Json.str functionName)] ++
            [("arguments", Json.arr out)]))]) loc)).field "right" =
        some (Json.obj (addPos [("id", idValue v.currentId)] loc ++
            [("type", Json.str "function-call"), ("name", Json.str functionName)] ++
            [("arguments", Json.arr out)])) := rfl
    rw [e, Option.map_some']
    exact congrArg some (idBefore_of_fresh (by omega) (by decide) rfl hfresh)

/-- Witness of C28: the call `f(1)` and the statement `cout << a;`, each lowered
by a fresh visitor. -/
theorem C28_call_id_and_arguments_witness :
    ((Sample.at_ 3 3).inMain = true ∧ Visitor.init.sonValue.ids = [] ∧
      Visitor.init.iofunctionStarted = false ∧
      Good Visitor.init.currentId Visitor.init.sonValue.idm ∧ 2 ≤ UINT_MOD ∧
      TraverseStmt Sample.callOne Visitor.init =
        Res.ok () { Visitor.init with currentId := 2, sonValue := Sample.callOneNode } ∧
      TraverseStmt (Sample.printA 3) Visitor.init =
        Res.ok () { Visitor.init with currentId := 2, sonValue := Sample.printANode }) ∧
    Sample.callOneNode.idBefore "arguments" = true ∧
    Sample.printANode.idAfter "arguments" = true :=
  ⟨⟨rfl, rfl, rfl, ⟨Multiset.nodup_zero, fun i hi => absurd hi (Multiset.not_mem_zero i)⟩,
      by unfold UINT_MOD; omega, rfl, rfl⟩,
   (C28_call_id_and_arguments (Sample.at_ 3 3) "f" Stmt.null
      [Stmt.IntegerLiteral (Sample.at_ 3 5) 1] Visitor.init
      { Visitor.init with currentId := 2, sonValue := Sample.callOneNode } rfl
      (by show 2 ≤ 2 ^ 32; omega)).2.1 rfl rfl,
   (C28_call_id_and_arguments (Sample.at_ 3 3) PRINT_NAME Stmt.null
      [Sample.cout (Sample.at_ 3 3), Sample.intVar (Sample.at_ 3 11) "a"] Visitor.init
      { Visitor.init with currentId := 2, sonValue := Sample.printANode } rfl
      (by show 2 ≤ 2 ^ 32; omega)).1 (Or.inl rfl) rfl
      ⟨Multiset.nodup_zero, fun i hi => absurd hi (Multiset.not_mem_zero i)⟩ rfl⟩

/-- C28, counterexample: the call `f(1)`, lowered by a fresh visitor, has the id
0 and its argument the id 1: the id of the `function-call` node is not greater
than the ids inside `arguments`. -/
theorem C28_call_id_before_arguments :
    TraverseStmt Sample.callOne Visitor.init =
      Res.ok () { Visitor.init with currentId := 2, sonValue := Sample.callOneNode } ∧
    Sample.callOneNode.id? = some 0 ∧
    (Sample.callOneNode.field "arguments").map Json.ids = some [1] ∧
    Sample.callOneNode.idAfter "arguments" = false :=
  ⟨rfl, rfl, rfl, rfl⟩

/-! ### The chain flag (claims C29 and C30) -/

theorem ensureSonIsArray_flag (v : Visitor) :
    (ensureSonIsArray v).iofunctionStarted = v.iofunctionStarted := by
  unfold ensureSonIsArray
  split <;> rfl

theorem createTypeValue_flag {type : TypeDesc} {v w : Visitor} {j : Json}
    (h : createTypeValue type v = Res.ok j w) : w.iofunctionStarted = v.iofunctionStarted := by
  simpa using (createTypeValue_visitor h).2.1

mutual
theorem TraverseStmt_flag (S : Stmt) (v w : Visitor)
    (h : TraverseStmt S v = Res.ok () w) : w.iofunctionStarted = v.iofunctionStarted := by
  by_cases hs : S.skipped = true
  · rw [TraverseStmt_skipped S v hs] at h
    cases h
    rfl
  · unfold TraverseStmt at h
    simp only [hs, ite_false, Bool.false_eq_true] at h
    cases S with
    | null => simp [Stmt.skipped, Stmt.loc?] at hs
    | ImplicitCastExpr loc subExpr =>
      exact TraverseStmt_flag subExpr v w h
    | other loc children =>
      exact TraverseChildren_flag children v w h
    | DoStmt loc body cond =>
      simp only [addId, createBlockValue, createMessageValue, createBinOpValue, List.nil_append] at h
      simp only [Res.ok.injEq, true_and] at h
      subst h
      rfl
    | BreakStmt loc =>
      simp only [addId, createBlockValue, createMessageValue, createBinOpValue, List.nil_append] at h
      simp only [Res.ok.injEq, true_and] at h
      subst h
      rfl
    | LabelStmt loc subStmt =>
      simp only [addId, createBlockValue, createMessageValue, createBinOpValue, List.nil_append] at h
      simp only [Res.ok.injEq, true_and] at h
      subst h
      rfl
    | GotoStmt loc =>
      simp only [addId, createBlockValue, createMessageValue, createBinOpValue, List.nil_append] at h
      simp only [Res.ok.injEq, true_and] at h
      subst h
      rfl
    | IntegerLiteral loc value =>
      simp only [addId, createBlockValue, createMessageValue, createBinOpValue, List.nil_append] at h
      simp only [Res.ok.injEq, true_and] at h
      subst h
      rfl
    | FloatingLiteral loc bits =>
      simp only [addId, createBlockValue, createMessageValue, createBinOpValue, List.nil_append] at h
      simp only [Res.ok.injEq, true_and] at h
      subst h
      rfl
    | CharacterLiteral loc value =>
      simp only [addId, createBlockValue, createMessageValue, createBinOpValue, List.nil_append] at h
      simp only [Res.ok.injEq, true_and] at h
      subst h
      rfl
    | StringLiteral loc value =>
      simp only [addId, createBlockValue, createMessageValue, createBinOpValue, List.nil_append] at h
      simp only [Res.ok.injEq, true_and] at h
      subst h
      rfl
    | CXXBoolLiteralExpr loc value =>
      simp only [addId, createBlockValue, createMessageValue, createBinOpValue, List.nil_append] at h
      simp only [Res.ok.injEq, true_and] at h
      subst h
      rfl
    | DeclRefExpr loc name typeName =>
      simp only [addId, createBlockValue, createMessageValue, createBinOpValue, List.nil_append] at h
      split at h
      · cases h
        rfl
      · split at h <;>
          (simp only [Res.ok.injEq, true_and] at h
           subst h
           rfl)
    | ReturnStmt loc retValue =>
      simp only [addId, createBlockValue, createMessageValue, createBinOpValue, List.nil_append] at h
      obtain ⟨_, v1, h1, h2⟩ := TRY_TO_eq_ok h
      have f1 := TraverseStmt_flag retValue _ v1 h1
      simp only [Res.ok.injEq, true_and] at h2
      subst h2
      simp only [ensureSonIsArray_flag] at *
      simp_all
    | UnaryOperator loc opcode subExpr =>
      simp only [addId, createBlockValue, createMessageValue, createBinOpValue, List.nil_append] at h
      obtain ⟨_, v1, h1, h2⟩ := TRY_TO_eq_ok h
      have f1 := TraverseStmt_flag subExpr _ v1 h1
      simp only [Res.ok.injEq, true_and] at h2
      subst h2
      simp only [ensureSonIsArray_flag] at *
      simp_all
    | BinaryOperator loc opcode lhs rhs =>
      simp only [addId, createBlockValue, createMessageValue, createBinOpValue, List.nil_append] at h
      split at h
      · simp only [Res.ok.injEq, true_and] at h
        subst h
        rfl
      · 
        obtain ⟨_, v1, h1, h2⟩ := TRY_TO_eq_ok h
        have f1 := TraverseStmt_flag lhs _ v1 h1
        obtain ⟨_, v2, h3, h4⟩ := TRY_TO_eq_ok h2
        have f2 := TraverseStmt_flag rhs _ v2 h3
        simp only [Res.ok.injEq, true_and] at h4
        subst h4
        simp only [ensureSonIsArray_flag] at *
        simp_all
    | IfStmt loc conditionVariable cond thenS elseS =>
      simp only [addId, createBlockValue, createMessageValue, createBinOpValue, List.nil_append] at h
      cases conditionVariable with
      | some varLoc =>
        simp only at h
        obtain ⟨_, v1, h1, h2⟩ := TRY_TO_eq_ok h
        have f1 := TraverseStmt_flag thenS _ v1 h1
        split at h2
        · obtain ⟨_, v2, h3, h4⟩ := TRY_TO_eq_ok h2
          have f2 := TraverseStmt_flag elseS _ v2 h3
          simp only [Res.ok.injEq, true_and] at h4
          subst h4
          simp only [ensureSonIsArray_flag] at *
          simp_all
        · simp only [Res.ok.injEq, true_and] at h2
          subst h2
          simp only [ensureSonIsArray_flag] at *
          simp_all
      | none =>
        simp only at h
        obtain ⟨_, v1, h1, h2⟩ := TRY_TO_eq_ok h
        have f1 := TraverseStmt_flag cond _ v1 h1
        obtain ⟨_, v2, h3, h4⟩ := TRY_TO_eq_ok h2
        have f2 := TraverseStmt_flag thenS _ v2 h3
        split at h4
        · obtain ⟨_, v3, h5, h6⟩ := TRY_TO_eq_ok h4
          have f3 := TraverseStmt_flag elseS _ v3 h5
          simp only [Res.ok.injEq, true_and] at h6
          subst h6
          simp only [ensureSonIsArray_flag] at *
          simp_all
        · simp only [Res.ok.injEq, true_and] at h4
          subst h4
          simp only [ensureSonIsArray_flag] at *
          simp_all
    | WhileStmt loc conditionVariable cond body =>
      simp only [addId, createBlockValue, createMessageValue, createBinOpValue, List.nil_append] at h
      cases conditionVariable with
      | some varLoc =>
        simp only at h
        obtain ⟨_, v1, h1, h2⟩ := TRY_TO_eq_ok h
        have f1 := TraverseStmt_flag body _ v1 h1
        simp only [Res.ok.injEq, true_and] at h2
        subst h2
        simp only [ensureSonIsArray_flag] at *
        simp_all
      | none =>
        simp only at h
        obtain ⟨_, v1, h1, h2⟩ := TRY_TO_eq_ok h
        have f1 := TraverseStmt_flag cond _ v1 h1
        obtain ⟨_, v2, h3, h4⟩ := TRY_TO_eq_ok h2
        have f2 := TraverseStmt_flag body _ v2 h3
        simp only [Res.ok.injEq, true_and] at h4
        subst h4
        simp only [ensureSonIsArray_flag] at *
        simp_all
    | ForStmt loc init cond inc body =>
      simp only [addId, createBlockValue, createMessageValue, createBinOpValue, List.nil_append] at h
      obtain ⟨_, v1, h1, h2⟩ := TRY_TO_eq_ok h
      have f1 := TraverseStmt_flag init _ v1 h1
      by_cases ha : v1.sonValue.IsArray = true
      · simp only [ha, ite_true] at h2
        obtain ⟨_, v2, h3, h4⟩ := TRY_TO_eq_ok h2
        have f2 := TraverseStmt_flag cond _ v2 h3
        obtain ⟨_, v3, h5, h6⟩ := TRY_TO_eq_ok h4
        have f3 := TraverseStmt_flag inc _ v3 h5
        obtain ⟨_, v4, h7, h8⟩ := TRY_TO_eq_ok h6
        have f4 := TraverseStmt_flag body _ v4 h7
        simp only [Res.ok.injEq, true_and] at h8
        subst h8
        simp only [ensureSonIsArray_flag] at *
        simp_all
      · simp only [ha, ite_false, Bool.false_eq_true] at h2
        obtain ⟨_, v2, h3, h4⟩ := TRY_TO_eq_ok h2
        have f2 := TraverseStmt_flag cond _ v2 h3
        obtain ⟨_, v3, h5, h6⟩ := TRY_TO_eq_ok h4
        have f3 := TraverseStmt_flag inc _ v3 h5
        obtain ⟨_, v4, h7, h8⟩ := TRY_TO_eq_ok h6
        have f4 := TraverseStmt_flag body _ v4 h7
        simp only [Res.ok.injEq, true_and] at h8
        subst h8
        simp only [ensureSonIsArray_flag] at *
        simp_all
    | CompoundStmt loc body =>
      simp only at h
      obtain ⟨out, v1, h1, h2⟩ := TRY_TO_eq_ok h
      have f1 := TraverseCompoundBody_flag body [] out v v1 h1
      simp only [Res.ok.injEq, true_and] at h2
      subst h2
      exact f1
    | CallExpr loc callee args =>
      cases callee with
      | none =>
        simp only [Res.ok.injEq, true_and] at h
        subst h
        rfl
      | some functionName =>
        simp only [addId, createBlockValue, createMessageValue, createBinOpValue, List.nil_append] at h
        obtain ⟨out, v1, h1, h2⟩ := TRY_TO_eq_ok h
        have f1 := TraversePushArgs_flag args [] out _ v1 h1
        simp only [Res.ok.injEq, true_and] at h2
        subst h2
        exact f1
    | CXXMemberCallExpr loc methodName objectExpr args =>
      simp only [addId, createBlockValue, createMessageValue, createBinOpValue, List.nil_append] at h
      obtain ⟨out, v1, h1, h2⟩ := TRY_TO_eq_ok h
      have f1 := TraversePushArgs_flag args [] out _ v1 h1
      obtain ⟨_, v2, h3, h4⟩ := TRY_TO_eq_ok h2
      have f2 := TraverseStmt_flag objectExpr _ v2 h3
      simp only [Res.ok.injEq, true_and] at h4
      subst h4
      simp only [ensureSonIsArray_flag] at *
      simp_all
    | MemberExpr loc base memberDecl =>
      simp only [addId, createBlockValue, createMessageValue, createBinOpValue, List.nil_append] at h
      obtain ⟨_, v1, h1, h2⟩ := TRY_TO_eq_ok h
      have f1 := TraverseStmt_flag base _ v1 h1
      obtain ⟨_, v2, h3, h4⟩ := TRY_TO_eq_ok h2
      have f2 := TraverseDecl_flag memberDecl _ v2 h3
      split at h4
      · cases h4
      · simp only [Res.ok.injEq, true_and] at h4
        subst h4
        simp only [ensureSonIsArray_flag] at *
        simp_all
    | DeclStmt loc decls =>
      simp only at h
      split at h
      · cases decls with
        | nil => cases h
        | cons singleDecl tail => exact TraverseDecl_flag singleDecl v w h
      · obtain ⟨out, v1, h1, h2⟩ := TRY_TO_eq_ok h
        have f1 := TraversePushDecls_flag decls [] out v v1 h1
        simp only [Res.ok.injEq, true_and] at h2
        subst h2
        exact f1
    | CXXOperatorCallExpr loc callee args =>
      cases callee with
      | none =>
        simp only [Res.ok.injEq, true_and] at h
        subst h
        rfl
      | some functionName =>
        simp only at h
        split at h
        · simp only [addId, createBlockValue, createMessageValue, createBinOpValue, List.nil_append] at h
          obtain ⟨out, v1, h1, h2⟩ := TRY_TO_eq_ok h
          have f1 := TraverseOperatorArgs_flag args 0 [] out _ v1 h1
          simp only at f1
          split at h2
          · rename_i hfirst
            simp only [Res.ok.injEq, true_and] at h2
            subst h2
            simp only [Bool.not_not] at hfirst
            simp only [f1, hfirst]
          · rename_i hfirst
            simp only [Res.ok.injEq, true_and] at h2
            subst h2
            simp only [Bool.not_not, Bool.not_eq_true] at hfirst
            simp only [hfirst]
        · split at h
          · split at h
            · rename_i arg0 arg1 tail
              simp only [addId, createBlockValue, createMessageValue, createBinOpValue, List.nil_append] at h
              obtain ⟨_, v1, h1, h2⟩ := TRY_TO_eq_ok h
              obtain ⟨_, v2, h3, h4⟩ := TRY_TO_eq_ok h2
              have f1 := TraverseStmt_flag arg0 _ v1 h1
              have f2 := TraverseStmt_flag arg1 _ v2 h3
              simp only [Res.ok.injEq, true_and] at h4
              subst h4
              simp only [ensureSonIsArray_flag] at *
              simp_all
            · cases h
          · simp only [Res.ok.injEq, true_and] at h
            subst h
            rfl
termination_by sizeOf S

theorem TraversePushArgs_flag (args : List Stmt) (acc out : List Json)
    (v w : Visitor) (h : TraversePushArgs args acc v = Res.ok out w) :
    w.iofunctionStarted = v.iofunctionStarted := by
  cases args with
  | nil =>
    simp only [TraversePushArgs, Res.ok.injEq] at h
    obtain ⟨rfl, rfl⟩ := h
    rfl
  | cons x rest =>
    simp only [TraversePushArgs] at h
    obtain ⟨_, v1, h1, h2⟩ := TRY_TO_eq_ok h
    have f1 := TraverseStmt_flag x v v1 h1
    have f2 := TraversePushArgs_flag rest _ out _ w h2
    simp only at f2
    rw [f2, f1]
termination_by sizeOf args

theorem TraversePushDecls_flag (decls : List Decl) (acc out : List Json)
    (v w : Visitor) (h : TraversePushDecls decls acc v = Res.ok out w) :
    w.iofunctionStarted = v.iofunctionStarted := by
  cases decls with
  | nil =>
    simp only [TraversePushDecls, Res.ok.injEq] at h
    obtain ⟨rfl, rfl⟩ := h
    rfl
  | cons x rest =>
    simp only [TraversePushDecls] at h
    obtain ⟨_, v1, h1, h2⟩ := TRY_TO_eq_ok h
    have f1 := TraverseDecl_flag x v v1 h1
    have f2 := TraversePushDecls_flag rest _ out _ w h2
    simp only at f2
    rw [f2, f1]
termination_by sizeOf decls

theorem TraverseCompoundBody_flag (body : List Stmt) (acc out : List Json)
    (v w : Visitor) (h : TraverseCompoundBody body acc v = Res.ok out w) :
    w.iofunctionStarted = v.iofunctionStarted := by
  cases body with
  | nil =>
    simp only [TraverseCompoundBody, Res.ok.injEq] at h
    obtain ⟨rfl, rfl⟩ := h
    rfl
  | cons x rest =>
    simp only [TraverseCompoundBody] at h
    obtain ⟨_, v1, h1, h2⟩ := TRY_TO_eq_ok h
    have f1 := TraverseStmt_flag x v v1 h1
    cases hs : v1.sonValue <;>
      simp only [hs, addElemsToArray] at h2 <;>
      have f2 := TraverseCompoundBody_flag rest _ out _ w h2 <;>
      simp only at f2 <;>
      rw [f2, f1]
termination_by sizeOf body

theorem TraverseOperatorArgs_flag (args : List Stmt) (i : Nat) (acc out : List Json)
    (v w : Visitor) (h : TraverseOperatorArgs args i acc v = Res.ok out w) :
    w.iofunctionStarted = v.iofunctionStarted := by
  cases args with
  | nil =>
    simp only [TraverseOperatorArgs, Res.ok.injEq] at h
    obtain ⟨rfl, rfl⟩ := h
    rfl
  | cons x rest =>
    simp only [TraverseOperatorArgs] at h
    obtain ⟨_, v1, h1, h2⟩ := TRY_TO_eq_ok h
    have f1 := TraverseStmt_flag x v v1 h1
    by_cases hi : i = 0
    · simp only [hi, ite_true] at h2
      cases hs : v1.sonValue <;>
        simp only [hs] at h2 <;>
        have f2 := TraverseOperatorArgs_flag rest _ _ out _ w h2 <;>
        simp only at f2 <;>
        rw [f2, f1]
    · simp only [hi, ite_false] at h2
      have f2 := TraverseOperatorArgs_flag rest _ _ out _ w h2
      simp only at f2
      rw [f2, f1]
termination_by sizeOf args

theorem TraverseChildren_flag (children : List Stmt) (v w : Visitor)
    (h : TraverseChildren children v = Res.ok () w) :
    w.iofunctionStarted = v.iofunctionStarted := by
  cases children with
  | nil =>
    simp only [TraverseChildren, Res.ok.injEq, true_and] at h
    subst h
    rfl
  | cons child rest =>
    simp only [TraverseChildren] at h
    obtain ⟨_, v1, h1, h2⟩ := TRY_TO_eq_ok h
    rw [TraverseChildren_flag rest v1 w h2, TraverseStmt_flag child v v1 h1]
termination_by sizeOf children

theorem TraverseDeclContext_flag (decls : List Decl) (v w : Visitor)
    (h : TraverseDeclContext decls v = Res.ok () w) :
    w.iofunctionStarted = v.iofunctionStarted := by
  cases decls with
  | nil =>
    simp only [TraverseDeclContext, Res.ok.injEq, true_and] at h
    subst h
    rfl
  | cons d rest =>
    simp only [TraverseDeclContext] at h
    obtain ⟨_, v1, h1, h2⟩ := TRY_TO_eq_ok h
    rw [TraverseDeclContext_flag rest v1 w h2, TraverseDecl_flag d v v1 h1]
termination_by sizeOf decls

theorem TraverseDecl_flag (D : Decl) (v w : Visitor)
    (h : TraverseDecl D v = Res.ok () w) : w.iofunctionStarted = v.iofunctionStarted := by
  by_cases hs : D.loc.inMain = false
  · rw [TraverseDecl_skipped D v hs] at h
    cases h
    rfl
  · unfold TraverseDecl at h
    simp only [Bool.not_eq_false] at hs
    simp only [hs, Bool.not_true, Bool.false_eq_true, ite_false] at h
    cases D with
    | CXXMethodDecl loc =>
      simp only [Res.ok.injEq, true_and] at h
      subst h
      rfl
    | other loc decls body =>
      obtain ⟨_, v1, h1, h2⟩ := TRY_TO_eq_ok h
      rw [TraverseStmt_flag body v1 w h2, TraverseDeclContext_flag decls v v1 h1]
    | FunctionDecl loc functionName callResultType params isDefinition body =>
      simp only [addId, createBlockValue, createMessageValue, createBinOpValue, List.nil_append] at h
      obtain ⟨returnType, v1, h1, h2⟩ := TRY_TO_eq_ok h
      have f1 := createTypeValue_flag h1
      obtain ⟨parametersValue, v2, h3, h4⟩ := TRY_TO_eq_ok h2
      have f2 := TraversePushDecls_flag params [] parametersValue v1 v2 h3
      split at h4
      · obtain ⟨_, v3, h5, h6⟩ := TRY_TO_eq_ok h4
        have f3 := TraverseStmt_flag body _ v3 h5
        simp only [Res.ok.injEq, true_and] at h6
        subst h6
        simp only [ensureSonIsArray_flag] at *
        simp_all
      · simp only [Res.ok.injEq, true_and] at h4
        subst h4
        simp only [ensureSonIsArray_flag] at *
        simp_all
    | VarDecl loc isParm varName type hasInit init initStyle =>
      simp only [addId, createBlockValue, createMessageValue, createBinOpValue, List.nil_append] at h
      obtain ⟨dataType, v1, h1, h2⟩ := TRY_TO_eq_ok h
      have f1 := createTypeValue_flag h1
      split at h2
      · obtain ⟨_, v2, h3, h4⟩ := TRY_TO_eq_ok h2
        have f2 := TraverseStmt_flag init _ v2 h3
        cases initStyle with
        | CInit =>
          simp only at h4
          split at h4 <;>
            (simp only [Res.ok.injEq, true_and] at h4
             subst h4
             simp_all)
        | CallInit =>
          simp only at h4
          split at h4 <;>
            (simp only [Res.ok.injEq, true_and] at h4
             subst h4
             simp_all)
        | ListInit =>
          simp only at h4
          simp only [Res.ok.injEq, true_and] at h4
          subst h4
          simp_all
      · simp only [Res.ok.injEq, true_and] at h2
        subst h2
        simp_all
    | FieldDecl loc varName type =>
      simp only [addId, createBlockValue, createMessageValue, createBinOpValue, List.nil_append] at h
      obtain ⟨dataType, v1, h1, h2⟩ := TRY_TO_eq_ok h
      have f1 := createTypeValue_flag h1
      split at h2 <;>
        (simp only [Res.ok.injEq, true_and] at h2
         subst h2
         simp_all)
    | CXXRecordDecl loc isImplicit structName decls =>
      simp only [addId, createBlockValue, createMessageValue, createBinOpValue, List.nil_append] at h
      split at h
      · simp only [Res.ok.injEq, true_and] at h
        subst h
        rfl
      · split at h
        · rename_i u v1 hr
          have f1 := TraverseDeclContext_flag decls _ v1 hr
          simp only [Res.ok.injEq, true_and] at h
          subst h
          simp_all
        · cases h
        · cases h
        · cases h
termination_by sizeOf D
end

/-- C29: the chain flag is balanced. When a print or read operator call of the
main file is lowered with success from a state in which `iofunctionStarted` is
false, the flag is false again on return. When the flag is true at entry, the
call is a nested one: the counter on return is the one left by the lowering of
its arguments, so no id is taken for a `function-call` node, the result slot
holds the array of the arguments lowered so far, and the flag is still true. -/
theorem C29_chain_flag_balanced (loc : Loc) (functionName : String) (args : List Stmt)
    (v w : Visitor) (hloc : loc.inMain = true)
    (hname : functionName = PRINT_NAME ∨ functionName = READ_NAME)
    (h : TraverseStmt (Stmt.CXXOperatorCallExpr loc (some functionName) args) v = Res.ok () w) :
    (v.iofunctionStarted = false → w.iofunctionStarted = false) ∧
    (v.iofunctionStarted = true →
      ∃ arrayValue u, TraverseOperatorArgs args 0 [] v = Res.ok arrayValue u ∧
        w.sonValue = Json.arr arrayValue ∧ w.currentId = u.currentId ∧
        w.iofunctionStarted = true) := by
  have hflag := TraverseStmt_flag _ v w h
  refine ⟨fun hv => by rw [hflag, hv], fun hv => ?_⟩
  obtain ⟨c, son, started⟩ := v
  simp only at hv
  subst hv
  unfold TraverseStmt at h
  have hcond : (functionName = PRINT_NAME || functionName = READ_NAME) = true := by
    rcases hname with e | e <;> simp [e]
  simp only [Stmt.skipped, Stmt.loc?, hloc, Bool.not_true, Bool.false_eq_true, ite_false,
    hcond, ite_true, Bool.not_false] at h
  obtain ⟨arrayValue, u, h1, h2⟩ := TRY_TO_eq_ok h
  simp only [Res.ok.injEq, true_and] at h2
  subst h2
  exact ⟨arrayValue, u, h1, rfl, rfl, hflag⟩

/-- Witness of C29: the call `cout << a`, lowered as a nested call of a chain
(`iofunctionStarted` is true) and as an outermost call (it is false). -/
theorem C29_chain_flag_balanced_witness :
    ((Sample.at_ 3 3).inMain = true ∧
      TraverseStmt (Sample.printA 3) { Visitor.init with iofunctionStarted := true } =
        Res.ok () { currentId := 1, sonValue := Json.arr [Sample.identifierA],
                    iofunctionStarted := true } ∧
      TraverseStmt (Sample.printA 3) Visitor.init =
        Res.ok () { Visitor.init with currentId := 2, sonValue := Sample.printANode }) ∧
    (∃ arrayValue u,
      TraverseOperatorArgs [Sample.cout (Sample.at_ 3 3), Sample.intVar (Sample.at_ 3 11) "a"]
          0 [] { Visitor.init with iofunctionStarted := true } = Res.ok arrayValue u ∧
        Json.arr [Sample.identifierA] = Json.arr arrayValue ∧
        1 = u.currentId ∧ true = true) ∧
    (Visitor.init.iofunctionStarted = false → false = false) :=
  ⟨⟨rfl, rfl, rfl⟩,
   (C29_chain_flag_balanced (Sample.at_ 3 3) PRINT_NAME
      [Sample.cout (Sample.at_ 3 3), Sample.intVar (Sample.at_ 3 11) "a"]
      { Visitor.init with iofunctionStarted := true }
      { currentId := 1, sonValue := Json.arr [Sample.identifierA], iofunctionStarted := true }
      rfl (Or.inl rfl) rfl).2 rfl,
   (C29_chain_flag_balanced (Sample.at_ 3 3) PRINT_NAME
      [Sample.cout (Sample.at_ 3 3), Sample.intVar (Sample.at_ 3 11) "a"] Visitor.init
      { Visitor.init with currentId := 2, sonValue := Sample.printANode }
      rfl (Or.inl rfl) rfl).1⟩

/-- C30, evaluated at the block `{ int p, q; cout << q; }`: the arguments of
the print call are two `Null` values, left in the result slot by the
declaration statement, and then the lowering of `q`: three elements, where the
claim has exactly one. -/
theorem C30_anchor_after_declarations :
    TraverseStmt Sample.declsThenPrint Visitor.init =
      Res.ok () { Visitor.init with
        currentId := 6
        sonValue := Json.arr [Sample.intDeclNode 0 5 3 "p", Sample.intDeclNode 2 5 10 "q",
          Json.obj [("id", Json.int 5), ("line", Json.int 6), ("column", Json.int 3),
            ("type", Json.str "function-call"), ("name", Json.str "print"),
            ("arguments", Json.arr [Json.null, Json.null,
              Json.obj [("type", Json.str "identifier"), ("value", Json.str "q"),
                ("id", Json.int 4), ("line", Json.int 6), ("column", Json.int 11)]])]] } := by
  rfl

/-! ## Claims C31 to C33 -/

/-! ### The unwrap loop of `createVectorValue` -/

theorem findAux_no_char (c : Char) (s : List Char) (i : Nat) (h : c ∉ s) :
    findAux [c] s i = npos := by
  induction s generalizing i with
  | nil => rfl
  | cons x s ih =>
    have hx : c ≠ x := fun e => h (by simp [e])
    have hs : c ∉ s := fun e => h (by simp [e])
    have hb : (c == x) = false := by simpa using hx
    simp only [findAux, List.isPrefixOf, hb, Bool.false_and, Bool.false_eq_true, ite_false]
    exact ih _ hs

theorem strFind_no_char (c : Char) (s : List Char) (pos : Nat) (h : c ∉ s) :
    strFind s [c] pos = npos := by
  unfold strFind
  split
  · rfl
  · exact findAux_no_char c _ pos (fun hm => h (List.mem_of_mem_drop hm))

theorem strFind_le_npos (s pat : List Char) (pos : Nat) (hlen : s.length < npos) :
    strFind s pat pos ≤ npos := by
  unfold strFind
  split
  · exact Nat.le_refl _
  · rename_i hpos
    rcases findAux_result pat (s.drop pos) pos with h | ⟨j, hj, h, _⟩
    · rw [h]
    · rw [h]
      rw [List.length_drop] at hj
      omega

/-- The scanning loop of `createVectorValue` on a string without comma: the
test `commaPos < vectorPos` never holds, so the loop is still running after any
number of iterations, from any position and depth. -/
theorem vectorLoop_without_comma (typeName : List Char) (hcomma : ',' ∉ typeName)
    (hlen : typeName.length < npos) :
    ∀ fuel actPos depth, vectorLoop typeName fuel actPos depth = VectorScan.running := by
  intro fuel
  induction fuel with
  | zero => intro actPos depth; rfl
  | succ n ih =>
    intro actPos depth
    unfold vectorLoop
    have h1 := strFind_no_char ',' typeName actPos hcomma
    have h2 := strFind_le_npos typeName VECTOR_TYPE.data actPos hlen
    simp only [h1, Nat.not_lt.2 h2, ite_false]
    exact ih _ _

/-- A string with the container prefix and without comma is accepted by
`isSTLVectorType` and `createVectorValue` never returns on it. -/
theorem createVectorValue_without_comma (typeName : String) (v : Visitor)
    (hstl : isSTLVectorType typeName = true) (hcomma : ',' ∉ typeName.data)
    (hlen : typeName.data.length < npos) :
    createVectorValue typeName v = Res.hang := by
  unfold createVectorValue
  rw [hstl, vectorLoop_without_comma typeName.data hcomma hlen]
  rfl

/-- C31, evaluated at the signature `class std::vector<class std::vector<int> >`,
which `isSTLVectorType` accepts and which holds no comma: the unwrap loop of
`createVectorValue` is still running after any number of iterations (both
searches return `npos`, the position wraps to 17 and the scan starts again), so
`createVectorValue` never returns. -/
theorem C31_scan_without_comma_never_ends :
    isSTLVectorType Sample.nestedWithoutComma = true ∧
    (∀ fuel, vectorLoop Sample.nestedWithoutComma.data fuel 0 0 = VectorScan.running) ∧
    strFind Sample.nestedWithoutComma.data VECTOR_TYPE.data 36 = npos ∧
    strFind Sample.nestedWithoutComma.data [','] 36 = npos ∧
    (npos + VECTOR_TYPE.length) % SIZE_MOD = 17 ∧
    createVectorValue Sample.nestedWithoutComma Visitor.init = Res.hang :=
  ⟨by decide,
   fun fuel => vectorLoop_without_comma _ (by decide) (by decide) fuel 0 0,
   by decide, by decide, by decide,
   createVectorValue_without_comma _ _ (by decide) (by decide) (by decide)⟩

theorem findAux_le_occurrence (pat : List Char) :
    ∀ (s : List Char) (i k : Nat), k ≤ s.length → pat.isPrefixOf (s.drop k) = true →
      findAux pat s i ≤ i + k := by
  intro s
  induction s with
  | nil =>
    intro i k hk hpre
    have hk0 : k = 0 := by simpa using hk
    subst hk0
    have hp : pat.isEmpty = true := by
      cases pat with
      | nil => rfl
      | cons p ps => simp [List.isPrefixOf] at hpre
    simp [findAux, hp]
  | cons c cs ih =>
    intro i k hk hpre
    by_cases hp : pat.isPrefixOf (c :: cs) = true
    · simp [findAux, hp]
    · simp only [findAux, hp, ite_false, Bool.false_eq_true]
      cases k with
      | zero => exact absurd (by simpa using hpre) hp
      | succ k =>
        have := ih (i + 1) k (by simpa using hk) (by simpa using hpre)
        omega

/-- The search `find(pat, pos)` returns at most the position of any occurrence
of `pat` from `pos` on. -/
theorem strFind_le_occurrence (s pat : List Char) (pos j : Nat) (hpos : pos ≤ j)
    (hj : j ≤ s.length) (hpre : pat.isPrefixOf (s.drop j) = true) :
    strFind s pat pos ≤ j := by
  unfold strFind
  rw [if_neg (by omega)]
  have h := findAux_le_occurrence pat (s.drop pos) pos (j - pos)
    (by rw [List.length_drop]; omega)
    (by rw [List.drop_drop, show pos + (j - pos) = j by omega]; exact hpre)
  omega

/-- A position returned by `find(pat, pos)` other than `npos` is an occurrence
of `pat` at or after `pos`. -/
theorem strFind_occurrence (s pat : List Char) (pos : Nat) (hlen : s.length < npos)
    (h : strFind s pat pos ≠ npos) :
    pos ≤ strFind s pat pos ∧ strFind s pat pos ≤ s.length ∧
      pat.isPrefixOf (s.drop (strFind s pat pos)) = true := by
  unfold strFind at h ⊢
  split at h
  · exact absurd rfl h
  · rename_i hpos
    rw [if_neg hpos]
    rcases findAux_result pat (s.drop pos) pos with e | ⟨j, hj, e, hpre⟩
    · exact absurd e h
    · rw [e]
      rw [List.length_drop] at hj
      rw [List.drop_drop] at hpre
      exact ⟨by omega, by omega, hpre⟩

/-- Where C31 holds: when a comma stands at position `p` and every occurrence of
the container prefix ends at or before `p`, the unwrap loop started at or
before `p` ends within `p - actPos + 1` iterations. -/
theorem vectorLoop_ends (s : List Char) (p : Nat) (hlen : s.length < npos)
    (hp : p < s.length) (hcomma : [','].isPrefixOf (s.drop p) = true)
    (hlast : ∀ q, q ≤ s.length → VECTOR_TYPE.data.isPrefixOf (s.drop q) = true →
      q + VECTOR_TYPE.data.length ≤ p) :
    ∀ (fuel actPos depth : Nat), actPos ≤ p → p - actPos < fuel →
      ∃ d name, vectorLoop s fuel actPos depth = VectorScan.done d name := by
  intro fuel
  induction fuel with
  | zero => intro actPos depth _ hf; omega
  | succ n ih =>
    intro actPos depth hact hf
    unfold vectorLoop
    have hc := strFind_le_occurrence s [','] actPos p hact (by omega) hcomma
    by_cases hlt : strFind s [','] actPos < strFind s VECTOR_TYPE.data actPos
    · simp only [hlt, ite_true]
      have hsub : substr s actPos
          ((strFind s [','] actPos + SIZE_MOD - actPos) % SIZE_MOD) =
          some ((s.drop actPos).take
            ((strFind s [','] actPos + SIZE_MOD - actPos) % SIZE_MOD)) := by
        unfold substr
        rw [if_neg (by omega)]
      rw [hsub]
      exact ⟨_, _, rfl⟩
    · simp only [hlt, ite_false]
      have hv : strFind s VECTOR_TYPE.data actPos ≠ npos := by omega
      obtain ⟨h1, h2, h3⟩ := strFind_occurrence s VECTOR_TYPE.data actPos hlen hv
      have h4 := hlast _ h2 h3
      rw [VECTOR_TYPE_length] at h4
      have hnpos : npos < SIZE_MOD := by decide
      have hmod : (strFind s VECTOR_TYPE.data actPos + VECTOR_TYPE.length) % SIZE_MOD =
          strFind s VECTOR_TYPE.data actPos + 18 := by
        have e : VECTOR_TYPE.length = 18 := VECTOR_TYPE_length
        rw [e]
        exact Nat.mod_eq_of_lt (by omega)
      rw [hmod]
      exact ih _ _ h4 (by omega)

/-- Where C31 holds: for every signature accepted by `isSTLVectorType` in which
a comma follows the last container prefix, `createVectorValue` returns. -/
theorem createVectorValue_returns (typeName : String) (p : Nat) (v : Visitor)
    (hstl : isSTLVectorType typeName = true) (hlen : typeName.data.length < npos)
    (hp : p < typeName.data.length) (hcomma : [','].isPrefixOf (typeName.data.drop p) = true)
    (hlast : ∀ q, q ≤ typeName.data.length →
      VECTOR_TYPE.data.isPrefixOf (typeName.data.drop q) = true →
      q + VECTOR_TYPE.data.length ≤ p) :
    ∃ j w, createVectorValue typeName v = Res.ok j w := by
  obtain ⟨d, name, h⟩ := vectorLoop_ends typeName.data p hlen hp hcomma hlast
    (vectorFuel typeName.data) 0 0 (Nat.zero_le _) (by unfold vectorFuel; omega)
  unfold createVectorValue
  rw [hstl, h]
  exact ⟨_, _, rfl⟩

/-- The canonical type of `vector<int>` has its first comma at position 21,
after its only container prefix: `createVectorValue` returns on it. -/
theorem createVectorValue_returns_vectorOfInt (v : Visitor) :
    ∃ j w, createVectorValue "class std::vector<int, class std::allocator<int> >" v =
      Res.ok j w :=
  createVectorValue_returns _ 21 v (by decide) (by decide) (by decide) (by decide)
    (by decide)

/-! ### A comma before the container text -/

/-- A signature accepted as container type in which a comma comes before the
first container prefix: the scan ends at once with depth 0, and the result is
one leaf node named by the text before that comma. -/
theorem createVectorValue_comma_first (elem rest : String) (v : Visitor)
    (hcomma : ',' ∉ elem.data)
    (hvec : strFind elem.data VECTOR_TYPE.data 0 = npos)
    (hlen : (vectorSignature 0 elem rest).length < npos)
    (hstl : isSTLVectorType (vectorSignature 0 elem rest) = true) :
    createVectorValue (vectorSignature 0 elem rest) v =
      Res.ok (Json.obj [("id", idValue v.currentId), ("name", Json.str elem)])
        { v with currentId := v.currentId + 1 } := by
  have hlen1 : (nestPrefix 0 ++ (elem.data ++ ',' :: rest.data)).length < npos := hlen
  have hno : ∀ j, j ≤ elem.data.length →
      VECTOR_TYPE.data.isPrefixOf (elem.data.drop j) = false := by
    apply findAux_npos VECTOR_TYPE.data elem.data 0
      (by
        simp only [List.length_append, nestPrefix_length, List.length_cons] at hlen1
        omega)
    simpa [strFind] using hvec
  have hloop := vectorLoop_nest elem.data rest.data hcomma hno 0 0 0
    (vectorFuel (vectorSignature 0 elem rest).data)
    (by
      show 0 < 2 * (nestPrefix 0 ++ (elem.data ++ ',' :: rest.data)).length + 4
      omega)
    (by decide) (by rw [Nat.zero_add]; exact hlen1)
  simp only [Nat.zero_add, Nat.mul_zero] at hloop
  unfold createVectorValue
  rw [hstl]
  simp only [Bool.not_true, Bool.false_eq_true, ite_false]
  have hdata : (vectorSignature 0 elem rest).data =
      nestPrefix 0 ++ (elem.data ++ ',' :: rest.data) := rfl
  rw [hdata] at hloop ⊢
  rw [hloop]
  rfl

/-- C32, evaluated at the type `std::pair<int, std::vector<int>>`: its canonical
form is accepted as container type, and the type node is a single leaf named
`struct std::pair<int`, the text before the first comma: its name is not
`vector` and it has no `data-type` member. -/
theorem C32_comma_before_container :
    Sample.pairOfVector.canonical = vectorSignature 0 "struct std::pair<int"
      " class std::vector<int, class std::allocator<int> > >" ∧
    isSTLVectorType Sample.pairOfVector.canonical = true ∧
    createTypeValue Sample.pairOfVector Visitor.init =
      Res.ok (Json.obj [("id", Json.int 0), ("name", Json.str "struct std::pair<int")])
        { Visitor.init with currentId := 1 } ∧
    (Json.obj [("id", Json.int 0), ("name", Json.str "struct std::pair<int")]).field "name" =
      some (Json.str "struct std::pair<int") ∧
    (Json.obj [("id", Json.int 0), ("name", Json.str "struct std::pair<int")]).hasField
      "data-type" = false := by
  have hstl : isSTLVectorType Sample.pairOfVector.canonical = true := by decide
  refine ⟨by decide, hstl, ?_, rfl, rfl⟩
  unfold createTypeValue
  rw [hstl]
  exact createVectorValue_comma_first "struct std::pair<int"
    " class std::vector<int, class std::allocator<int> > >" Visitor.init
    (by decide) (by decide) (by decide) hstl

/-! ### No traversal function returns `false` -/

theorem TRY_TO_eq_stop {α β : Type} {r : Res α} {k : α → Visitor → Res β} {u : Visitor}
    (h : TRY_TO r k = Res.stop u) :
    r = Res.stop u ∨ ∃ a v1, r = Res.ok a v1 ∧ k a v1 = Res.stop u := by
  cases r with
  | ok a v1 => exact Or.inr ⟨a, v1, rfl, h⟩
  | stop v1 =>
    simp only [TRY_TO, Res.stop.injEq] at h
    subst h
    exact Or.inl rfl
  | abort => cases h
  | hang => cases h

theorem createVectorValue_noStop (typeName : String) (v u : Visitor)
    (h : createVectorValue typeName v = Res.stop u) : False := by
  unfold createVectorValue at h
  split at h
  · cases h
  · split at h <;> cases h

theorem createTypeValue_noStop (type : TypeDesc) (v u : Visitor)
    (h : createTypeValue type v = Res.stop u) : False := by
  unfold createTypeValue at h
  split at h
  · exact createVectorValue_noStop _ _ _ h
  · cases h

mutual
theorem TraverseStmt_noStop (S : Stmt) (v u : Visitor)
    (h : TraverseStmt S v = Res.stop u) : False := by
  by_cases hs : S.skipped = true
  · rw [TraverseStmt_skipped S v hs] at h
    cases h
  · unfold TraverseStmt at h
    simp only [hs, ite_false, Bool.false_eq_true] at h
    cases S with
    | null => simp [Stmt.skipped, Stmt.loc?] at hs
    | ImplicitCastExpr loc subExpr =>
      exact TraverseStmt_noStop subExpr v u h
    | other loc children =>
      exact TraverseChildren_noStop children v u h
    | DoStmt loc body cond =>
      simp only [addId, createBlockValue, createMessageValue, createBinOpValue, List.nil_append] at h
      cases h
    | BreakStmt loc =>
      simp only [addId, createBlockValue, createMessageValue, createBinOpValue, List.nil_append] at h
      cases h
    | LabelStmt loc subStmt =>
      simp only [addId, createBlockValue, createMessageValue, createBinOpValue, List.nil_append] at h
      cases h
    | GotoStmt loc =>
      simp only [addId, createBlockValue, createMessageValue, createBinOpValue, List.nil_append] at h
      cases h
    | IntegerLiteral loc value =>
      simp only [addId, createBlockValue, createMessageValue, createBinOpValue, List.nil_append] at h
      cases h
    | FloatingLiteral loc bits =>
      simp only [addId, createBlockValue, createMessageValue, createBinOpValue, List.nil_append] at h
      cases h
    | CharacterLiteral loc value =>
      simp only [addId, createBlockValue, createMessageValue, createBinOpValue, List.nil_append] at h
      cases h
    | StringLiteral loc value =>
      simp only [addId, createBlockValue, createMessageValue, createBinOpValue, List.nil_append] at h
      cases h
    | CXXBoolLiteralExpr loc value =>
      simp only [addId, createBlockValue, createMessageValue, createBinOpValue, List.nil_append] at h
      cases h
    | DeclRefExpr loc name typeName =>
      simp only [addId, createBlockValue, createMessageValue, createBinOpValue, List.nil_append] at h
      split at h
      · cases h
      · split at h <;> cases h
    | ReturnStmt loc retValue =>
      simp only [addId, createBlockValue, createMessageValue, createBinOpValue, List.nil_append] at h
      rcases TRY_TO_eq_stop h with h1 | ⟨_, v1, h1, h2⟩
      · exact TraverseStmt_noStop retValue _ _ h1
      cases h2
    | UnaryOperator loc opcode subExpr =>
      simp only [addId, createBlockValue, createMessageValue, createBinOpValue, List.nil_append] at h
      rcases TRY_TO_eq_stop h with h1 | ⟨_, v1, h1, h2⟩
      · exact TraverseStmt_noStop subExpr _ _ h1
      cases h2
    | BinaryOperator loc opcode lhs rhs =>
      simp only [addId, createBlockValue, createMessageValue, createBinOpValue, List.nil_append] at h
      split at h
      · cases h
      · skip
        rcases TRY_TO_eq_stop h with h1 | ⟨_, v1, h1, h2⟩
        · exact TraverseStmt_noStop lhs _ _ h1
        rcases TRY_TO_eq_stop h2 with h3 | ⟨_, v2, h3, h4⟩
        · exact TraverseStmt_noStop rhs _ _ h3
        cases h4
    | IfStmt loc conditionVariable cond thenS elseS =>
      simp only [addId, createBlockValue, createMessageValue, createBinOpValue, List.nil_append] at h
      cases conditionVariable with
      | some varLoc =>
        simp only at h
        rcases TRY_TO_eq_stop h with h1 | ⟨_, v1, h1, h2⟩
        · exact TraverseStmt_noStop thenS _ _ h1
        split at h2
        · rcases TRY_TO_eq_stop h2 with h3 | ⟨_, v2, h3, h4⟩
          · exact TraverseStmt_noStop elseS _ _ h3
          cases h4
        · cases h2
      | none =>
        simp only at h
        rcases TRY_TO_eq_stop h with h1 | ⟨_, v1, h1, h2⟩
        · exact TraverseStmt_noStop cond _ _ h1
        rcases TRY_TO_eq_stop h2 with h3 | ⟨_, v2, h3, h4⟩
        · exact TraverseStmt_noStop thenS _ _ h3
        split at h4
        · rcases TRY_TO_eq_stop h4 with h5 | ⟨_, v3, h5, h6⟩
          · exact TraverseStmt_noStop elseS _ _ h5
          cases h6
        · cases h4
    | WhileStmt loc conditionVariable cond body =>
      simp only [addId, createBlockValue, createMessageValue, createBinOpValue, List.nil_append] at h
      cases conditionVariable with
      | some varLoc =>
        simp only at h
        rcases TRY_TO_eq_stop h with h1 | ⟨_, v1, h1, h2⟩
        · exact TraverseStmt_noStop body _ _ h1
        cases h2
      | none =>
        simp only at h
        rcases TRY_TO_eq_stop h with h1 | ⟨_, v1, h1, h2⟩
        · exact TraverseStmt_noStop cond _ _ h1
        rcases TRY_TO_eq_stop h2 with h3 | ⟨_, v2, h3, h4⟩
        · exact TraverseStmt_noStop body _ _ h3
        cases h4
    | ForStmt loc init cond inc body =>
      simp only [addId, createBlockValue, createMessageValue, createBinOpValue, List.nil_append] at h
      rcases TRY_TO_eq_stop h with h1 | ⟨_, v1, h1, h2⟩
      · exact TraverseStmt_noStop init _ _ h1
      by_cases ha : v1.sonValue.IsArray = true
      · simp only [ha, ite_true] at h2
        rcases TRY_TO_eq_stop h2 with h3 | ⟨_, v2, h3, h4⟩
        · exact TraverseStmt_noStop cond _ _ h3
        rcases TRY_TO_eq_stop h4 with h5 | ⟨_, v3, h5, h6⟩
        · exact TraverseStmt_noStop inc _ _ h5
        rcases TRY_TO_eq_stop h6 with h7 | ⟨_, v4, h7, h8⟩
        · exact TraverseStmt_noStop body _ _ h7
        cases h8
      · simp only [ha, ite_false, Bool.false_eq_true] at h2
        rcases TRY_TO_eq_stop h2 with h3 | ⟨_, v2, h3, h4⟩
        · exact TraverseStmt_noStop cond _ _ h3
        rcases TRY_TO_eq_stop h4 with h5 | ⟨_, v3, h5, h6⟩
        · exact TraverseStmt_noStop inc _ _ h5
        rcases TRY_TO_eq_stop h6 with h7 | ⟨_, v4, h7, h8⟩
        · exact TraverseStmt_noStop body _ _ h7
        cases h8
    | CompoundStmt loc body =>
      simp only at h
      rcases TRY_TO_eq_stop h with h1 | ⟨out, v1, h1, h2⟩
      · exact TraverseCompoundBody_noStop body _ _ _ h1
      cases h2
    | CallExpr loc callee args =>
      cases callee with
      | none => cases h
      | some functionName =>
        simp only [addId, createBlockValue, createMessageValue, createBinOpValue, List.nil_append] at h
        rcases TRY_TO_eq_stop h with h1 | ⟨out, v1, h1, h2⟩
        · exact TraversePushArgs_noStop args _ _ _ h1
        cases h2
    | CXXMemberCallExpr loc methodName objectExpr args =>
      simp only [addId, createBlockValue, createMessageValue, createBinOpValue, List.nil_append] at h
      rcases TRY_TO_eq_stop h with h1 | ⟨out, v1, h1, h2⟩
      · exact TraversePushArgs_noStop args _ _ _ h1
      rcases TRY_TO_eq_stop h2 with h3 | ⟨_, v2, h3, h4⟩
      · exact TraverseStmt_noStop objectExpr _ _ h3
      cases h4
    | MemberExpr loc base memberDecl =>
      simp only [addId, createBlockValue, createMessageValue, createBinOpValue, List.nil_append] at h
      rcases TRY_TO_eq_stop h with h1 | ⟨_, v1, h1, h2⟩
      · exact TraverseStmt_noStop base _ _ h1
      rcases TRY_TO_eq_stop h2 with h3 | ⟨_, v2, h3, h4⟩
      · exact TraverseDecl_noStop memberDecl _ _ h3
      split at h4 <;> cases h4
    | DeclStmt loc decls =>
      simp only at h
      split at h
      · cases decls with
        | nil => cases h
        | cons singleDecl tail => exact TraverseDecl_noStop singleDecl v u h
      · rcases TRY_TO_eq_stop h with h1 | ⟨out, v1, h1, h2⟩
        · exact TraversePushDecls_noStop decls _ _ _ h1
        cases h2
    | CXXOperatorCallExpr loc callee args =>
      cases callee with
      | none => cases h
      | some functionName =>
        simp only at h
        split at h
        · simp only [addId, createBlockValue, createMessageValue, createBinOpValue, List.nil_append] at h
          rcases TRY_TO_eq_stop h with h1 | ⟨out, v1, h1, h2⟩
          · exact TraverseOperatorArgs_noStop args _ _ _ _ h1
          split at h2 <;> cases h2
        · split at h
          · split at h
            · rename_i arg0 arg1 tail
              simp only [addId, createBlockValue, createMessageValue, createBinOpValue, List.nil_append] at h
              rcases TRY_TO_eq_stop h with h1 | ⟨_, v1, h1, h2⟩
              · exact TraverseStmt_noStop arg0 _ _ h1
              rcases TRY_TO_eq_stop h2 with h3 | ⟨_, v2, h3, h4⟩
              · exact TraverseStmt_noStop arg1 _ _ h3
              cases h4
            · cases h
          · cases h
termination_by sizeOf S

theorem TraversePushArgs_noStop (args : List Stmt) (acc : List Json)
    (v u : Visitor) (h : TraversePushArgs args acc v = Res.stop u) : False := by
  cases args with
  | nil =>
    simp only [TraversePushArgs] at h
    cases h
  | cons x rest =>
    simp only [TraversePushArgs] at h
    rcases TRY_TO_eq_stop h with h1 | ⟨_, v1, h1, h2⟩
    · exact TraverseStmt_noStop x _ _ h1
    exact TraversePushArgs_noStop rest _ _ _ h2
termination_by sizeOf args

theorem TraversePushDecls_noStop (decls : List Decl) (acc : List Json)
    (v u : Visitor) (h : TraversePushDecls decls acc v = Res.stop u) : False := by
  cases decls with
  | nil =>
    simp only [TraversePushDecls] at h
    cases h
  | cons x rest =>
    simp only [TraversePushDecls] at h
    rcases TRY_TO_eq_stop h with h1 | ⟨_, v1, h1, h2⟩
    · exact TraverseDecl_noStop x _ _ h1
    exact TraversePushDecls_noStop rest _ _ _ h2
termination_by sizeOf decls

theorem TraverseCompoundBody_noStop (body : List Stmt) (acc : List Json)
    (v u : Visitor) (h : TraverseCompoundBody body acc v = Res.stop u) : False := by
  cases body with
  | nil =>
    simp only [TraverseCompoundBody] at h
    cases h
  | cons x rest =>
    simp only [TraverseCompoundBody] at h
    rcases TRY_TO_eq_stop h with h1 | ⟨_, v1, h1, h2⟩
    · exact TraverseStmt_noStop x _ _ h1
    cases hs : v1.sonValue <;>
      simp only [hs, addElemsToArray] at h2 <;>
      exact TraverseCompoundBody_noStop rest _ _ _ h2
termination_by sizeOf body

theorem TraverseOperatorArgs_noStop (args : List Stmt) (i : Nat) (acc : List Json)
    (v u : Visitor) (h : TraverseOperatorArgs args i acc v = Res.stop u) : False := by
  cases args with
  | nil =>
    simp only [TraverseOperatorArgs] at h
    cases h
  | cons x rest =>
    simp only [TraverseOperatorArgs] at h
    rcases TRY_TO_eq_stop h with h1 | ⟨_, v1, h1, h2⟩
    · exact TraverseStmt_noStop x _ _ h1
    by_cases hi : i = 0
    · simp only [hi, ite_true] at h2
      cases hs : v1.sonValue <;>
        simp only [hs] at h2 <;>
        exact TraverseOperatorArgs_noStop rest _ _ _ _ h2
    · simp only [hi, ite_false] at h2
      exact TraverseOperatorArgs_noStop rest _ _ _ _ h2
termination_by sizeOf args

theorem TraverseChildren_noStop (children : List Stmt) (v u : Visitor)
    (h : TraverseChildren children v = Res.stop u) : False := by
  cases children with
  | nil =>
    simp only [TraverseChildren] at h
    cases h
  | cons child rest =>
    simp only [TraverseChildren] at h
    rcases TRY_TO_eq_stop h with h1 | ⟨_, v1, h1, h2⟩
    · exact TraverseStmt_noStop child _ _ h1
    exact TraverseChildren_noStop rest _ _ h2
termination_by sizeOf children

theorem TraverseDeclContext_noStop (decls : List Decl) (v u : Visitor)
    (h : TraverseDeclContext decls v = Res.stop u) : False := by
  cases decls with
  | nil =>
    simp only [TraverseDeclContext] at h
    cases h
  | cons d rest =>
    simp only [TraverseDeclContext] at h
    rcases TRY_TO_eq_stop h with h1 | ⟨_, v1, h1, h2⟩
    · exact TraverseDecl_noStop d _ _ h1
    exact TraverseDeclContext_noStop rest _ _ h2
termination_by sizeOf decls

theorem TraverseDecl_noStop (D : Decl) (v u : Visitor)
    (h : TraverseDecl D v = Res.stop u) : False := by
  by_cases hs : D.loc.inMain = false
  · rw [TraverseDecl_skipped D v hs] at h
    cases h
  · unfold TraverseDecl at h
    simp only [Bool.not_eq_false] at hs
    simp only [hs, Bool.not_true, Bool.false_eq_true, ite_false] at h
    cases D with
    | CXXMethodDecl loc => cases h
    | other loc decls body =>
      rcases TRY_TO_eq_stop h with h1 | ⟨_, v1, h1, h2⟩
      · exact TraverseDeclContext_noStop decls _ _ h1
      exact TraverseStmt_noStop body _ _ h2
    | FunctionDecl loc functionName callResultType params isDefinition body =>
      simp only [addId, createBlockValue, createMessageValue, createBinOpValue, List.nil_append] at h
      rcases TRY_TO_eq_stop h with h1 | ⟨returnType, v1, h1, h2⟩
      · exact createTypeValue_noStop _ _ _ h1
      rcases TRY_TO_eq_stop h2 with h3 | ⟨parametersValue, v2, h3, h4⟩
      · exact TraversePushDecls_noStop params _ _ _ h3
      split at h4
      · rcases TRY_TO_eq_stop h4 with h5 | ⟨_, v3, h5, h6⟩
        · exact TraverseStmt_noStop body _ _ h5
        cases h6
      · cases h4
    | VarDecl loc isParm varName type hasInit init initStyle =>
      simp only [addId, createBlockValue, createMessageValue, createBinOpValue, List.nil_append] at h
      rcases TRY_TO_eq_stop h with h1 | ⟨dataType, v1, h1, h2⟩
      · exact createTypeValue_noStop _ _ _ h1
      split at h2
      · rcases TRY_TO_eq_stop h2 with h3 | ⟨_, v2, h3, h4⟩
        · exact TraverseStmt_noStop init _ _ h3
        cases initStyle with
        | CInit =>
          simp only at h4
          split at h4 <;> cases h4
        | CallInit =>
          simp only at h4
          split at h4 <;> cases h4
        | ListInit => cases h4
      · cases h2
    | FieldDecl loc varName type =>
      simp only [addId, createBlockValue, createMessageValue, createBinOpValue, List.nil_append] at h
      rcases TRY_TO_eq_stop h with h1 | ⟨dataType, v1, h1, h2⟩
      · exact createTypeValue_noStop _ _ _ h1
      split at h2 <;> cases h2
    | CXXRecordDecl loc isImplicit structName decls =>
      simp only [addId, createBlockValue, createMessageValue, createBinOpValue, List.nil_append] at h
      split at h
      · cases h
      · split at h
        · cases h
        · rename_i v1 hr
          exact TraverseDeclContext_noStop decls _ _ hr
        · cases h
        · cases h
termination_by sizeOf D
end

/-- No traversal of a translation unit returns `false`. -/
theorem TraverseTopLevel_noStop (decls : List Decl) :
    ∀ (statements : List Json) (v u : Visitor),
      TraverseTopLevel decls statements v ≠ Res.stop u := by
  induction decls with
  | nil =>
    intro statements v u h
    simp only [TraverseTopLevel] at h
    cases h
  | cons d rest ih =>
    intro statements v u h
    simp only [TraverseTopLevel] at h
    rcases TRY_TO_eq_stop h with h1 | ⟨_, v1, h1, h2⟩
    · exact TraverseDecl_noStop d _ _ h1
    split at h2
    · split at h2
      · exact ih _ _ _ h2
      · exact ih _ _ _ h2
    · exact ih _ _ _ h2

theorem TraverseTranslationUnitDecl_noStop (unitDecl : TranslationUnit) (v u : Visitor) :
    TraverseTranslationUnitDecl unitDecl v ≠ Res.stop u := by
  intro h
  simp only [TraverseTranslationUnitDecl, addId, List.nil_append] at h
  rcases TRY_TO_eq_stop h with h1 | ⟨_, v1, h1, h2⟩
  · exact TraverseTopLevel_noStop unitDecl _ _ _ h1
  cases h2

/-! ### Hard failures -/

/-- C33, evaluated at the block `{ return p.second; }` over a `std::pair`
variable `p`, a tree of node kinds the engine defines: the lowering neither
returns `true` nor `false`; `TraverseMemberExpr` originates a hard failure, an
assertion of the JSON library on the empty result slot that the skipped header
field leaves. -/
theorem C33_member_of_header_record_aborts :
    TraverseStmt Sample.returnPairSecond Visitor.init = Res.abort ∧
    TraverseDecl (Decl.FieldDecl { inMain := false, pos := some (103, 11) } "second"
        Sample.intType) { Visitor.init with currentId := 2 } =
      Res.ok () { Visitor.init with currentId := 2 } ∧
    memberRewrite Json.null = none :=
  ⟨rfl, rfl, rfl⟩

end Superast
